import Mathlib

/-!
# GeoDb: snapshot lookup index, CIDR expansion and IPv4 text conversion

A shallow embedding of `src/geo_db.h`, `src/geo_db.cc` and the block loader of
`src/geo_parser.cc`.

* `uint32_t` / `uint64_t` values are natural numbers; every operation that can
  leave the word reduces modulo `2 ^ 32` / `2 ^ 64` explicitly.
* A C++ shift whose count is negative or not smaller than the operand width has
  no defined result; `shl32` / `shl64` return `none` there.
* `std::map<K, V>` is a list of pairs kept strictly ascending in the key order
  given by `operator<`; `operator[]` assignment is `StdMap.assign` and
  `lower_bound` is `StdMap.lower_bound`.
* `std::string` / `CString` values are `String`s compared by their bytes.
-/

namespace GeoDb

/-! ## Addresses -/

/-- Source `typedef uint32_t IPv4;` -/
abbrev IPv4 := Nat

/-- Source `struct IPv6`, two `uint64_t` words `hi` and `lo`. -/
structure IPv6 where
  hi : Nat
  lo : Nat
deriving DecidableEq, Repr

namespace IPv6

/-- Source `operator ==` -/
def eq (a b : IPv6) : Bool := a.hi == b.hi && a.lo == b.lo

/-- Source `operator !=` -/
def ne (a b : IPv6) : Bool := !(eq a b)

/-- Source `operator <` -/
def lt (a b : IPv6) : Bool := decide (a.hi < b.hi) || (a.hi == b.hi && decide (a.lo < b.lo))

/-- Source `operator <=` -/
def le (a b : IPv6) : Bool := eq a b || lt a b

/-- Source `operator >` -/
def gt (a b : IPv6) : Bool := decide (a.hi > b.hi) || (a.hi == b.hi && decide (a.lo > b.lo))

/-- Source `operator >=` -/
def ge (a b : IPv6) : Bool := eq a b || gt a b

/-- The 128-bit number an address stands for. -/
def toNat (a : IPv6) : Nat := a.hi * 2 ^ 64 + a.lo

end IPv6

/-- Source `std::less<uint32_t>` -/
def ltV4 (a b : IPv4) : Bool := decide (a < b)

/-! ## Elements -/

/-- Source `struct Element`; the three labels are `CString` handles, kept here by value. -/
structure Element where
  countryId : Nat
  stateId : Nat
  cityId : Nat
  countryKey : String
  stateKey : String
  cityName : String
deriving DecidableEq, Repr

/-- Source `Element()` : all ids zero, all labels empty. -/
def Element.empty : Element := ⟨0, 0, 0, "", "", ""⟩

/-! ## Ordered map -/

namespace StdMap

variable {K V : Type}

/-- Source `m[k] = v` on a `std::map` whose comparison is `lt`. -/
def assign (lt : K → K → Bool) (k : K) (v : V) : List (K × V) → List (K × V)
  | [] => [(k, v)]
  | (k1, v1) :: rest =>
    if lt k k1 then (k, v) :: (k1, v1) :: rest
    else if lt k1 k then (k1, v1) :: assign lt k v rest
    else (k1, v) :: rest

/-- Source `m.lower_bound(k)`: the first entry whose key is not less than `k`, `none` for `end()`. -/
def lower_bound (lt : K → K → Bool) (k : K) : List (K × V) → Option (K × V)
  | [] => none
  | (k1, v1) :: rest => if lt k1 k then lower_bound lt k rest else some (k1, v1)

end StdMap

/-! ## The snapshot `Db` -/

/-- Source `struct Db::IPv4Data` -/
structure IPv4Data where
  from_ : IPv4
  to_ : IPv4
  el : Element
deriving DecidableEq, Repr

/-- Source `struct Db::IPv6Data` -/
structure IPv6Data where
  from_ : IPv6
  to_ : IPv6
  el : Element
deriving DecidableEq, Repr

/-- Source `struct Db` -/
structure Db where
  empty_ : Element
  ipv4_ : List (IPv4 × IPv4Data)
  ipv6_ : List (IPv6 × IPv6Data)
  stateKeys_ : List String
  cityNames_ : List String
  countryKeys_ : List String
deriving Repr

/-- Source `std::make_shared<Db>()` -/
def Db.new : Db := ⟨Element.empty, [], [], [], [], []⟩

/-- The `find` / `insert` idiom of `addRange` on one label pool: the handle stored in the
pool for `s` (the existing one when the value is already there) and the pool afterwards. -/
def intern (pool : List String) (s : String) : List String × String :=
  match pool.find? (fun x => x == s) with
  | some h => (pool, h)
  | none => (pool ++ [s], s)

/-- Source `Db::find(IPv4 ip)` -/
def Db.findV4 (db : Db) (ip : IPv4) : Element :=
  match StdMap.lower_bound ltV4 ip db.ipv4_ with
  | some (_, el) => if el.from_ ≤ ip then el.el else db.empty_
  | none => db.empty_

/-- Source `Db::find(IPv6 ip)` -/
def Db.findV6 (db : Db) (ip : IPv6) : Element :=
  match StdMap.lower_bound IPv6.lt ip db.ipv6_ with
  | some (_, el) => if IPv6.le el.from_ ip then el.el else db.empty_
  | none => db.empty_

/-- Source `Db::addRange(IPv4 from, IPv4 to, ...)` -/
def Db.addRangeV4 (db : Db) (from_ to_ : IPv4) (countryId stateId cityId : Nat)
    (countryKey stateKey cityName : String) : Db :=
  let co := intern db.countryKeys_ countryKey
  let st := intern db.stateKeys_ stateKey
  let ci := intern db.cityNames_ cityName
  let el : Element := ⟨countryId, stateId, cityId, co.2, st.2, ci.2⟩
  { db with
    countryKeys_ := co.1
    stateKeys_ := st.1
    cityNames_ := ci.1
    ipv4_ := StdMap.assign ltV4 to_ ⟨from_, to_, el⟩ db.ipv4_ }

/-- Source `Db::addRange(IPv6 from, IPv6 to, ...)` -/
def Db.addRangeV6 (db : Db) (from_ to_ : IPv6) (countryId stateId cityId : Nat)
    (countryKey stateKey cityName : String) : Db :=
  let co := intern db.countryKeys_ countryKey
  let st := intern db.stateKeys_ stateKey
  let ci := intern db.cityNames_ cityName
  let el : Element := ⟨countryId, stateId, cityId, co.2, st.2, ci.2⟩
  { db with
    countryKeys_ := co.1
    stateKeys_ := st.1
    cityNames_ := ci.1
    ipv6_ := StdMap.assign IPv6.lt to_ ⟨from_, to_, el⟩ db.ipv6_ }

/-- One `addRange` call, of either overload. -/
inductive AddRange where
  | v4 (from_ to_ : IPv4) (el : Element)
  | v6 (from_ to_ : IPv6) (el : Element)
deriving DecidableEq, Repr

/-- Perform one `addRange` call; the call record carries the ids and label values passed. -/
def Db.addRange (db : Db) : AddRange → Db
  | .v4 f t el => db.addRangeV4 f t el.countryId el.stateId el.cityId el.countryKey el.stateKey el.cityName
  | .v6 f t el => db.addRangeV6 f t el.countryId el.stateId el.cityId el.countryKey el.stateKey el.cityName

/-- A snapshot: a fresh `Db` after a sequence of `addRange` calls. -/
def Db.build (calls : List AddRange) : Db := calls.foldl Db.addRange Db.new

/-- The stored IPv4 entries. -/
def Db.entriesV4 (db : Db) : List IPv4Data := db.ipv4_.map Prod.snd

/-- The stored IPv6 entries. -/
def Db.entriesV6 (db : Db) : List IPv6Data := db.ipv6_.map Prod.snd

/-! ## Text conversion -/

/-- The loop of `GeoDb::ipv4FromString(const char *p, int size)` with its two `uint32_t`
locals `ip` and `octet`; the last case is the statement after the loop. -/
def ipv4FromStringLoop : List Char → Nat → Nat → IPv4
  | [], ip, octet => (ip <<< 8) % 2 ^ 32 ||| octet
  | c :: cs, ip, octet =>
    if '0' ≤ c ∧ c ≤ '9' then
      ipv4FromStringLoop cs ip ((octet * 10 + (c.toNat - '0'.toNat)) % 2 ^ 32)
    else if c = '.' then
      ipv4FromStringLoop cs ((ip <<< 8) % 2 ^ 32 ||| octet) 0
    else 0

/-- Source `GeoDb::ipv4FromString` -/
def ipv4FromString (ipStr : String) : IPv4 := ipv4FromStringLoop ipStr.data 0 0

/-- Decimal text of a `uint32_t` without leading zeros, as written by
`rapidjson::internal::u32toa`. -/
def u32toa (value : Nat) : List Char := Nat.toDigits 10 value

/-- Source `GeoDb::ipv4ToString` -/
def ipv4ToString (ip : IPv4) : String :=
  String.mk (u32toa ((ip >>> 24) &&& 0xff) ++ '.' :: u32toa ((ip >>> 16) &&& 0xff) ++
    '.' :: u32toa ((ip >>> 8) &&& 0xff) ++ '.' :: u32toa (ip &&& 0xff))

/-! ## CIDR expansion -/

/-- Index of the first occurrence of `c`, as `memchr` over the whole string. -/
def memchr (c : Char) : List Char → Option Nat
  | [] => none
  | x :: xs => if x = c then some 0 else (memchr c xs).map (fun i => i + 1)

/-- Left shift of a `uint32_t` by an `int` count; C++ defines it only for counts
in `0 .. 31`. -/
def shl32 (x : Nat) (n : Int) : Option Nat :=
  if 0 ≤ n ∧ n < 32 then some ((x <<< n.toNat) % 2 ^ 32) else none

/-- Left shift of a `uint64_t` by an `int` count; C++ defines it only for counts
in `0 .. 63`. -/
def shl64 (x : Nat) (n : Int) : Option Nat :=
  if 0 ≤ n ∧ n < 64 then some ((x <<< n.toNat) % 2 ^ 64) else none

/-- Bitwise complement of a `uint32_t`. -/
def not32 (x : Nat) : Nat := 0xffffffff - x % 2 ^ 32

/-- Bitwise complement of a `uint64_t`. -/
def not64 (x : Nat) : Nat := 0xffffffffffffffff - x % 2 ^ 64

/-- Source `GeoDb::net4ToRange`; the result is the pair `(from, to)`, or `none` when the
mask shift has no defined value. `atoi` stands for `Utils::atoi`. -/
def net4ToRange (atoi : String → Int) (net : String) : Option (IPv4 × IPv4) :=
  match memchr '/' net.data with
  | none => some (ipv4FromString net, ipv4FromString net)
  | some p =>
    let ip := ipv4FromString (String.mk (net.data.take p))
    let m := atoi (String.mk (net.data.drop (p + 1)))
    match shl32 0xffffffff (32 - m) with
    | none => none
    | some mask => some (ip &&& mask, ip ||| not32 mask)

/-- One `ip = (ip << 8) | byte` statement on a `uint64_t`. -/
def pushByte (ip byte : Nat) : Nat := (ip <<< 8) % 2 ^ 64 ||| byte

/-- Source `GeoDb::ipv6FromString`; `inet_pton6 s` is `some` of the sixteen bytes of
`in.s6_addr` when `inet_pton(AF_INET6, s, &in)` returns 1 and `none` otherwise. -/
def ipv6FromString (inet_pton6 : String → Option (List Nat)) (ipStr : String) : IPv6 :=
  match inet_pton6 ipStr with
  | none => ⟨0, 0⟩
  | some s6_addr =>
    let b : Nat → Nat := fun i => s6_addr.getD i 0 % 256
    ⟨[1, 2, 3, 4, 5, 6, 7].foldl (fun ip i => pushByte ip (b i)) (b 0),
     [9, 10, 11, 12, 13, 14, 15].foldl (fun ip i => pushByte ip (b i)) (b 8)⟩

/-- The two mask words `(hi, lo)` computed in `GeoDb::net6ToRange` from the length `m`. -/
def net6Masks (m : Int) : Option (Nat × Nat) :=
  if m > 64 then
    (shl64 0xffffffffffffffff (128 - m)).map (fun lo => (0xffffffffffffffff, lo))
  else
    (shl64 0xffffffffffffffff (64 - m)).map (fun hi => (hi, 0))

/-- Source `GeoDb::net6ToRange`; the result is the pair `(from, to)`, or `none` when a
mask shift has no defined value. -/
def net6ToRange (inet_pton6 : String → Option (List Nat)) (atoi : String → Int)
    (net : String) : Option (IPv6 × IPv6) :=
  match memchr '/' net.data with
  | none => some (ipv6FromString inet_pton6 net, ipv6FromString inet_pton6 net)
  | some p =>
    let ip := ipv6FromString inet_pton6 (String.mk (net.data.take p))
    let m := atoi (String.mk (net.data.drop (p + 1)))
    match net6Masks m with
    | none => none
    | some (hi, lo) =>
      some (⟨ip.hi &&& hi, ip.lo &&& lo⟩, ⟨ip.hi ||| not64 hi, ip.lo ||| not64 lo⟩)

/-- Value of an unsigned decimal numeral. -/
def decimalValue (digits : List Char) : Nat :=
  digits.foldl (fun acc c => acc * 10 + (c.toNat - '0'.toNat)) 0

/-- Modelled from the spec: `Utils::atoi`, declared in base/utils.h and called by both
`net4ToRange` and `net6ToRange`.
The spec has the text after the `/` of a CIDR network denote the length m; it is read
here as an unsigned decimal numeral. -/
def atoi (s : String) : Int := (decimalValue s.data : Nat)

/-- Modelled from the spec: `Utils::atoui`, declared in base/utils.h and called by the
block loaders.
The spec has the `geoname_id` column key the locations; it is read here as an unsigned
decimal numeral. -/
def atoui (s : String) : Nat := decimalValue s.data

end GeoDb

/-! ## The snapshot message and the loader -/

namespace protobuf

/-- One record of `Geo.ipsv4`. -/
structure IPv4Range where
  from_ : Nat
  to_ : Nat
  country_id : Nat
  state_id : Nat
  city_id : Nat
  country_key : String
  state_key : String
  city_name : String
deriving DecidableEq, Repr

/-- One record of `Geo.ipsv6`. -/
structure IPv6Range where
  from_hi : Nat
  from_lo : Nat
  to_hi : Nat
  to_lo : Nat
  country_id : Nat
  state_id : Nat
  city_id : Nat
  country_key : String
  state_key : String
  city_name : String
deriving DecidableEq, Repr

/-- The message `protobuf::Geo`, reduced to the two sections the Builder writes. -/
structure Geo where
  ipsv4 : List IPv4Range
  ipsv6 : List IPv6Range
deriving DecidableEq, Repr

end protobuf

namespace GeoDb

/-- The two loops of `GeoDb::loadDb` that follow the parse of the message. -/
def loadDb (geo : protobuf.Geo) : Db :=
  let db := geo.ipsv4.foldl (fun (db : Db) e =>
    db.addRangeV4 e.from_ e.to_ e.country_id e.state_id e.city_id
      e.country_key e.state_key e.city_name) Db.new
  geo.ipsv6.foldl (fun (db : Db) e =>
    db.addRangeV6 ⟨e.from_hi, e.from_lo⟩ ⟨e.to_hi, e.to_lo⟩ e.country_id e.state_id e.city_id
      e.country_key e.state_key e.city_name) db

/-- The IPv4 calls of a call sequence, as the entries they ask to store. -/
def callsV4 (calls : List AddRange) : List IPv4Data :=
  calls.filterMap (fun c => match c with
    | .v4 f t el => some ⟨f, t, el⟩
    | .v6 _ _ _ => none)

/-- The IPv6 calls of a call sequence, as the entries they ask to store. -/
def callsV6 (calls : List AddRange) : List IPv6Data :=
  calls.filterMap (fun c => match c with
    | .v4 _ _ _ => none
    | .v6 f t el => some ⟨f, t, el⟩)

/-- Two IPv4 ranges share no address. -/
def DisjointV4 (a b : IPv4Data) : Prop := a.to_ < b.from_ ∨ b.to_ < a.from_

/-- Two IPv6 ranges share no address. -/
def DisjointV6 (a b : IPv6Data) : Prop :=
  IPv6.lt a.to_ b.from_ = true ∨ IPv6.lt b.to_ a.from_ = true

instance (a b : IPv4Data) : Decidable (DisjointV4 a b) := by
  unfold DisjointV4; infer_instance

instance (a b : IPv6Data) : Decidable (DisjointV6 a b) := by
  unfold DisjointV6; infer_instance

/-- A comparison that is a strict total order, as both key orders of `Db` are. -/
structure StrictTotal {K : Type} (lt : K → K → Bool) : Prop where
  irrefl : ∀ a, lt a a = false
  trans : ∀ a b c, lt a b = true → lt b c = true → lt a c = true
  total : ∀ a b, lt a b = false → lt b a = false → a = b

/-- Keys strictly ascending, the shape in which `std::map` holds its entries. -/
def StdMap.Sorted {K V : Type} (lt : K → K → Bool) (m : List (K × V)) : Prop :=
  m.Pairwise (fun a b => lt a.1 b.1 = true)

/-- Two adjacent IPv4 ranges, FRA then DEU, and one IPv6 range. -/
def exampleCalls : List AddRange :=
  [.v4 0x01000000 0x0100007F ⟨1, 0, 0, "FRA", "", ""⟩,
   .v4 0x01000080 0x010000FF ⟨2, 0, 0, "DEU", "", ""⟩,
   .v6 ⟨0x20010db800000000, 0⟩ ⟨0x20010db8ffffffff, 0xffffffffffffffff⟩
     ⟨3, 7, 9, "USA", "CA", "Palo Alto"⟩]

/-- An `inet_pton` that knows the one address `2001:db8::`. -/
def examplePton6 : String → Option (List Nat) :=
  fun s => if s = "2001:db8::" then some [0x20, 0x01, 0x0d, 0xb8, 0, 0, 0, 0, 0, 0, 0, 0, 0, 0, 0, 0]
    else none

/-- A decimal octet of a dotted quad: a non-empty run of decimal digits whose value is
in `0 .. 255`. -/
def IsOctet (ds : List Char) : Prop :=
  ds ≠ [] ∧ (∀ c ∈ ds, '0' ≤ c ∧ c ≤ '9') ∧ decimalValue ds ≤ 255

/-- A numeral written without leading zeros: `0` itself, or a first digit other than `0`. -/
def NoLeadingZero (ds : List Char) : Prop := ds = ['0'] ∨ ds.head? ≠ some '0'

instance (ds : List Char) : Decidable (IsOctet ds) := by
  unfold IsOctet; infer_instance

instance (ds : List Char) : Decidable (NoLeadingZero ds) := by
  unfold NoLeadingZero; infer_instance

/-- The dotted-quad text `a.b.c.d`. -/
def dottedQuad (a b c d : List Char) : String :=
  String.mk (a ++ '.' :: (b ++ '.' :: (c ++ '.' :: d)))

/-- The map after assigning each entry of `ds` under its key to `m`, in order. -/
def StdMap.assignAll {K D : Type} (lt : K → K → Bool) (key : D → K) (ds : List D)
    (m : List (K × D)) : List (K × D) :=
  ds.foldl (fun acc d => StdMap.assign lt (key d) d acc) m

end GeoDb

namespace GeoParser

open GeoDb

/-- Source `struct GeoParser::Location` -/
structure Location where
  countryId : Nat
  stateId : Nat
  cityId : Nat
  countryKey : String
  stateKey : String
  cityName : String
deriving DecidableEq, Repr

/-- Ways in which a blocks pass stops without completing. -/
inductive Failure where
  | badFileFormat
  | outOfRange
  | undefinedShift
deriving DecidableEq, Repr

/-- The header every blocks file must carry. -/
def blocksFields : List String :=
  ["network", "geoname_id", "registered_country_geoname_id",
   "represented_country_geoname_id", "is_anonymous_proxy", "is_satellite_provider",
   "postal_code", "latitude", "longitude", "accuracy_radius"]

/-- The location a blocks row resolves to: `values[1]` first, then `values[2]` when it is
not empty. `locations_` is the lookup in the `locations_` table. -/
def resolveLocation (atoui : String → Nat) (locations_ : Nat → Option Location)
    (values : List String) : Option Location :=
  match locations_ (atoui (values.getD 1 "")) with
  | some loc => some loc
  | none =>
    if (values.getD 2 "").length ≠ 0 then locations_ (atoui (values.getD 2 ""))
    else none

/-- One iteration of the data loop of `GeoParser::loadIPv4Blocks` on the tokenised row
`values`. `codeTransf` is the ISO2 to ISO3 table, whose `at` throws on a missing code. -/
def ipv4BlocksRow (atoi : String → Int) (atoui : String → Nat)
    (codeTransf : String → Option String) (locations_ : Nat → Option Location)
    (geodb_ : protobuf.Geo) (values : List String) : Except Failure protobuf.Geo :=
  if values.length ≠ blocksFields.length then .error .badFileFormat
  else
    match memchr '/' (values.getD 0 "").data with
    | none => .ok geodb_
    | some _ =>
      match net4ToRange atoi (values.getD 0 "") with
      | none => .error .undefinedShift
      | some (ipFrom, ipTo) =>
        match resolveLocation atoui locations_ values with
        | none => .ok geodb_
        | some loc =>
          match codeTransf loc.countryKey with
          | none => .error .outOfRange
          | some iso3 =>
            .ok { geodb_ with
                  ipsv4 := geodb_.ipsv4 ++ [⟨ipFrom, ipTo, loc.countryId, loc.stateId,
                    loc.cityId, iso3, loc.stateKey, loc.cityName⟩] }

/-- Source `GeoParser::loadIPv4Blocks` on a tokenised file: `header` is the first line,
`rows` are the lines the data loop runs on. -/
def loadIPv4Blocks (atoi : String → Int) (atoui : String → Nat)
    (codeTransf : String → Option String) (locations_ : Nat → Option Location)
    (geodb_ : protobuf.Geo) (header : List String) (rows : List (List String)) :
    Except Failure protobuf.Geo :=
  if header.length ≠ blocksFields.length then .error .badFileFormat
  else if header ≠ blocksFields then .error .badFileFormat
  else rows.foldlM (ipv4BlocksRow atoi atoui codeTransf locations_) geodb_

/-- One iteration of the data loop of `GeoParser::loadIPv6Blocks`. -/
def ipv6BlocksRow (inet_pton6 : String → Option (List Nat)) (atoi : String → Int)
    (atoui : String → Nat) (codeTransf : String → Option String)
    (locations_ : Nat → Option Location)
    (geodb_ : protobuf.Geo) (values : List String) : Except Failure protobuf.Geo :=
  if values.length ≠ blocksFields.length then .error .badFileFormat
  else
    match memchr '/' (values.getD 0 "").data with
    | none => .ok geodb_
    | some _ =>
      match net6ToRange inet_pton6 atoi (values.getD 0 "") with
      | none => .error .undefinedShift
      | some (ipFrom, ipTo) =>
        match resolveLocation atoui locations_ values with
        | none => .ok geodb_
        | some loc =>
          match codeTransf loc.countryKey with
          | none => .error .outOfRange
          | some iso3 =>
            .ok { geodb_ with
                  ipsv6 := geodb_.ipsv6 ++ [⟨ipFrom.hi, ipFrom.lo, ipTo.hi, ipTo.lo,
                    loc.countryId, loc.stateId, loc.cityId, iso3, loc.stateKey,
                    loc.cityName⟩] }

/-- Source `GeoParser::loadIPv6Blocks` on a tokenised file. -/
def loadIPv6Blocks (inet_pton6 : String → Option (List Nat)) (atoi : String → Int)
    (atoui : String → Nat) (codeTransf : String → Option String)
    (locations_ : Nat → Option Location)
    (geodb_ : protobuf.Geo) (header : List String) (rows : List (List String)) :
    Except Failure protobuf.Geo :=
  if header.length ≠ blocksFields.length then .error .badFileFormat
  else if header ≠ blocksFields then .error .badFileFormat
  else rows.foldlM (ipv6BlocksRow inet_pton6 atoi atoui codeTransf locations_) geodb_

/-- A locations table with the single id 1. -/
def exampleLocations : Nat → Option Location :=
  fun id => if id = 1 then some ⟨5, 6, 7, "US", "CA", "Palo Alto"⟩ else none

/-- A code table that knows `US` only. -/
def exampleCodeTransf : String → Option String :=
  fun iso2 => if iso2 = "US" then some "USA" else none

/-- Two blocks rows of which the second network lies inside the first. -/
def nestedRows : List (List String) :=
  [["10.0.0.0/8", "1", "", "", "0", "0", "", "", "", ""],
   ["10.1.0.0/16", "1", "", "", "0", "0", "", "", "", ""]]

/-- The ranges of the IPv4 section of a message, as the entries `loadDb` asks to store. -/
def emittedV4 (geo : protobuf.Geo) : List IPv4Data :=
  geo.ipsv4.map (fun e =>
    ⟨e.from_, e.to_, ⟨e.country_id, e.state_id, e.city_id, e.country_key, e.state_key,
      e.city_name⟩⟩)

/-- The ranges of the IPv6 section of a message, as the entries `loadDb` asks to store. -/
def emittedV6 (geo : protobuf.Geo) : List IPv6Data :=
  geo.ipsv6.map (fun e =>
    ⟨⟨e.from_hi, e.from_lo⟩, ⟨e.to_hi, e.to_lo⟩, ⟨e.country_id, e.state_id, e.city_id,
      e.country_key, e.state_key, e.city_name⟩⟩)

/-- The message the Builder emits for `nestedRows`. -/
def nestedGeo : protobuf.Geo :=
  ⟨[⟨0x0A000000, 0x0AFFFFFF, 5, 6, 7, "USA", "CA", "Palo Alto"⟩,
    ⟨0x0A010000, 0x0A01FFFF, 5, 6, 7, "USA", "CA", "Palo Alto"⟩], []⟩

/-- A message with two adjacent IPv4 ranges and one IPv6 range. -/
def disjointGeo : protobuf.Geo :=
  ⟨[⟨0x01000000, 0x0100007F, 1, 0, 0, "FRA", "", ""⟩,
    ⟨0x01000080, 0x010000FF, 2, 0, 0, "DEU", "", ""⟩],
   [⟨0x20010db800000000, 0, 0x20010db8ffffffff, 0xffffffffffffffff, 3, 7, 9, "USA", "CA",
     "Palo Alto"⟩]⟩

/-- The snapshot invariant of the spec: any two distinct stored entries have disjoint
intervals, in both tables. -/
def SnapshotDisjoint (db : Db) : Prop :=
  db.entriesV4.Pairwise DisjointV4 ∧ db.entriesV6.Pairwise DisjointV6

instance (db : Db) : Decidable (SnapshotDisjoint db) := by
  unfold SnapshotDisjoint; infer_instance

end GeoParser

namespace GeoDb

/-- A well-formed dotted-quad IPv4 address: exactly four decimal octets, each with a value
in `0 .. 255`, separated by `.`. -/
def WellFormedDottedQuad (s : String) : Prop :=
  ∃ a b c d : List Char, IsOctet a ∧ IsOctet b ∧ IsOctet c ∧ IsOctet d ∧ s = dottedQuad a b c d

end GeoDb

/-! ## The lookup service and its watcher -/

namespace GeoDb

/-- A JSON value, told apart by the type tests that `initConfig` applies to it. -/
inductive JsonValue where
  | double (x : Rat)
  | string (s : String)
  | bool (b : Bool)
  | other
deriving DecidableEq, Repr

/-- The members of the `geodb` object of the configuration document that `initConfig`
looks up; `none` is a member that is absent. -/
structure GeodbSection where
  check_for_update_timeout : Option JsonValue
  file : Option JsonValue
  dont_load : Option JsonValue
deriving DecidableEq, Repr

/-- The exceptions thrown by the service: `ConfigException` and `GeoDbException`. -/
inductive Exception where
  | config (what : String)
  | geoDb (what : String)
deriving DecidableEq, Repr

/-- The data members of `class GeoDb` that the claims are about. -/
structure Service where
  defaultGeodbFile_ : String
  defaultCheckForUpdateTimeout_ : Rat
  geodbFile_ : String
  checkForUpdateTimeout_ : Rat
  dontLoadDb_ : Bool
  empty_ : Element
  db_ : Option Db

/-- Source `GeoDb::initConfig`; `config` is the `geodb` member of the document, `none`
when the document has no such member. -/
def Service.initConfig (g : Service) (config : Option GeodbSection) :
    Except Exception Service :=
  let g1 : Service := { g with
    geodbFile_ := g.defaultGeodbFile_
    checkForUpdateTimeout_ := g.defaultCheckForUpdateTimeout_
    dontLoadDb_ := false }
  match config with
  | none => .ok g1
  | some geodb =>
    let r2 : Except Exception Service :=
      match geodb.check_for_update_timeout with
      | none => .ok g1
      | some (.double x) =>
        if x < 2 then .error (.config "geodb.check_for_update_timeout can't be less than 2.0")
        else .ok { g1 with checkForUpdateTimeout_ := x }
      | some _ => .error (.config "geodb.check_for_update_timeout must be a double")
    match r2 with
    | .error e => .error e
    | .ok g2 =>
      let r3 : Except Exception Service :=
        match geodb.file with
        | none => .ok g2
        | some (.string s) => .ok { g2 with geodbFile_ := s }
        | some _ => .error (.config "geodb.file must be a string")
      match r3 with
      | .error e => .error e
      | .ok g3 =>
        match geodb.dont_load with
        | none => .ok g3
        | some (.bool b) => .ok { g3 with dontLoadDb_ := b }
        | some _ => .error (.config "geodb.dont_load must be a boolean")

/-- What `loadDb` finds at the path `geodbFile_` when it is called. -/
inductive GeoFile where
  | unmappable
  | empty
  | unparsable
  | message (geo : protobuf.Geo)
deriving DecidableEq, Repr

/-- Source `GeoDb::loadDb` as a function of the file it finds: the value is the
`shared_ptr` returned (`none` for a null pointer), an error is the exception thrown. -/
def loadDbFrom (file : GeoFile) : Except Exception (Option Db) :=
  match file with
  | .unmappable => .error (.geoDb "can't mmap file")
  | .empty => .error (.geoDb "geodb file is empty")
  | .unparsable => .error (.geoDb "can't parse geodb file")
  | .message geo => .ok (some (loadDb geo))

/-- Source `GeoDb::GeoDb(const rapidjson::Document& config)`, up to the start of the watcher
thread; `load` is what `loadDb()` does at that moment. -/
def Service.construct (config : Option GeodbSection) (load : Except Exception (Option Db)) :
    Except Exception Service :=
  match Service.initConfig ⟨"geodb.dat", 5, "", 5, false, Element.empty, none⟩ config with
  | .error e => .error e
  | .ok g =>
    if !g.dontLoadDb_ then
      match load with
      | .error e => .error e
      | .ok none => .error (.geoDb "can't load db")
      | .ok (some db) => .ok { g with db_ := some db }
    else .ok g

/-- Source `GeoDb::init`; `instance_` is the static pointer, `none` when null. -/
def init (instance_ : Option Service) (config : Option GeodbSection)
    (load : Except Exception (Option Db)) : Except Exception (Option Service) :=
  match instance_ with
  | some g => .ok (some g)
  | none =>
    match Service.construct config load with
    | .error e => .error e
    | .ok g => .ok (some g)

/-- Source `GeoDb::stop`: the instance is deleted and the pointer reset. -/
def stop (_instance_ : Option Service) : Option Service := none

/-- The two states of the `enum` local to `watcherThreadLoop`. -/
inductive WatchState where
  | s_none
  | s_started
deriving DecidableEq, Repr

/-- The locals of `GeoDb::watcherThreadLoop`. -/
structure Watcher where
  state : WatchState
  dbLastModified : Int
  nextCheck : Nat
deriving DecidableEq, Repr

/-- The conversion `static_cast<uint64_t>(seconds * 1000000.0)`. -/
def micros (seconds : Rat) : Nat := Int.toNat ⌊seconds * 1000000⌋

/-- The locals of `watcherThreadLoop` before its loop: `lastModified` is the mtime of the
file and `now` is `Utils::nowMicros()` at that moment. -/
def watcherStart (g : Service) (lastModified : Int) (now : Nat) : Watcher :=
  ⟨.s_none, lastModified, (now + micros g.defaultCheckForUpdateTimeout_) % 2 ^ 64⟩

/-- The `switch (state)` of one pass of the loop of `watcherThreadLoop`: `modified` is the
mtime read in this pass and `load` is what `loadDb()` does if it is called. An error is an
exception that leaves the thread function, which ends the process. -/
def watcherSwitch (w : Watcher) (g : Service) (modified : Int)
    (load : Except Exception (Option Db)) : Except Exception (Watcher × Service) :=
  match w.state with
  | .s_none =>
    if modified > w.dbLastModified then
      .ok ({ w with state := .s_started, dbLastModified := modified }, g)
    else .ok (w, g)
  | .s_started =>
    if modified = w.dbLastModified then
      match load with
      | .error e => .error e
      | .ok db =>
        let g1 : Service := match db with
          | some d => { g with db_ := some d }
          | none => g
        .ok ({ w with state := .s_none, dbLastModified := modified }, g1)
    else .ok ({ w with dbLastModified := modified }, g)

/-- The loop `while (nextCheck < now) nextCheck += interval` that ends a pass, with the
interval the source uses; `fuel` bounds the number of iterations. -/
def watcherAdvance (g : Service) (now : Nat) : Nat → Watcher → Watcher
  | 0, w => w
  | fuel + 1, w =>
    if w.nextCheck < now then
      watcherAdvance g now fuel
        { w with nextCheck := (w.nextCheck + micros g.defaultCheckForUpdateTimeout_) % 2 ^ 64 }
    else w

/-- A run of the watcher over successive passes, each given by the mtime it reads and by
what `loadDb()` does in it. -/
def watcherRun (w : Watcher) (g : Service) :
    List (Int × Except Exception (Option Db)) → Except Exception (Watcher × Service)
  | [] => .ok (w, g)
  | (modified, load) :: rest =>
    match watcherSwitch w g modified load with
    | .error e => .error e
    | .ok (w1, g1) => watcherRun w1 g1 rest

/-- Source `GeoDb::getIpv4(IPv4 ip)`; `none` is the failure of `assert(instance_ != nullptr)`. -/
def getIpv4 (instance_ : Option Service) (ip : IPv4) : Option Element :=
  match instance_ with
  | none => none
  | some g =>
    match g.db_ with
    | some db => some (db.findV4 ip)
    | none => some g.empty_

/-- Source `GeoDb::getIpv4` on a string, in its three overloads. -/
def getIpv4Str (instance_ : Option Service) (ipStr : String) : Option Element :=
  match instance_ with
  | none => none
  | some g =>
    match g.db_ with
    | some db => some (db.findV4 (ipv4FromString ipStr))
    | none => some g.empty_

/-- Source `GeoDb::getIpv6` on a string, in its three overloads. -/
def getIpv6Str (inet_pton6 : String → Option (List Nat)) (instance_ : Option Service)
    (ipStr : String) : Option Element :=
  match instance_ with
  | none => none
  | some g =>
    match g.db_ with
    | some db => some (db.findV6 (ipv6FromString inet_pton6 ipStr))
    | none => some g.empty_

/-- The constant `INET6_ADDRSTRLEN` of the system headers. -/
def INET6_ADDRSTRLEN : Nat := 46

/-- Source `GeoDb::checkIpv4(const CString& s)`; `inet_pton4 s` tells whether
`inet_pton(AF_INET, s, &in)` returns 1. -/
def checkIpv4 (inet_pton4 : String → Bool) (s : String) : Bool :=
  if s.data.length > INET6_ADDRSTRLEN then false else inet_pton4 s

/-- Source `GeoDb::checkIpv6(const CString& s)`. -/
def checkIpv6 (inet_pton6 : String → Option (List Nat)) (s : String) : Bool :=
  if s.data.length > INET6_ADDRSTRLEN then false else (inet_pton6 s).isSome

/-- Source `GeoDb::getIp(const CString& s)` -/
def getIp (inet_pton4 : String → Bool) (inet_pton6 : String → Option (List Nat))
    (instance_ : Option Service) (s : String) : Option Element :=
  match instance_ with
  | none => none
  | some g =>
    if checkIpv4 inet_pton4 s then getIpv4Str instance_ s
    else if checkIpv6 inet_pton6 s then getIpv6Str inet_pton6 instance_ s
    else some g.empty_

end GeoDb

namespace GeoDb

/-- A service as the constructor leaves it with the default configuration and `dont_load`
set: no snapshot. -/
def exampleService : Service := ⟨"geodb.dat", 5, "geodb.dat", 5, true, Element.empty, none⟩

/-- A watcher in its initial state, last mtime 100. -/
def exampleWatcher : Watcher := ⟨.s_none, 100, 5000000⟩

end GeoDb

namespace GeoDb

/-- An `inet_pton` for `AF_INET` that accepts the one text `1.0.0.16`. -/
def examplePton4 : String → Bool := fun s => s = "1.0.0.16"

/-- The service of `exampleService` after the watcher has published the snapshot loaded
from `disjointGeo`. -/
def loadedService : Service :=
  { exampleService with db_ := some (loadDb GeoParser.disjointGeo) }

end GeoDb

/-! ## The Builder: catalogue and locations -/

namespace GeoDb

/-- Source `m.find(k)` on a `std::map` whose comparison is `lt`: the value of the entry
whose key is equivalent to `k`, `none` for `end()`. -/
def StdMap.find {K V : Type} (lt : K → K → Bool) (k : K) : List (K × V) → Option V
  | [] => none
  | (k1, v1) :: rest => if lt k1 k || lt k k1 then StdMap.find lt k rest else some v1

/-- Lexicographic comparison of two character sequences. -/
def ltChars : List Char → List Char → Bool
  | [], [] => false
  | [], _ :: _ => true
  | _ :: _, [] => false
  | a :: as, b :: bs => if a < b then true else if b < a then false else ltChars as bs

/-- Source `std::less<std::string>` -/
def ltStr (a b : String) : Bool := ltChars a.data b.data

end GeoDb

namespace GeoParser

open GeoDb

/-- Source `struct GeoParser::Country`, the fields of `GeoItem`. -/
structure Country where
  id : Nat
  key : String
  name : String
  nameEn : String
  weight : Nat
  store : Bool
deriving DecidableEq, Repr

/-- Source `struct GeoParser::State`, the fields of `GeoItem` and `countryId`. -/
structure State where
  id : Nat
  key : String
  name : String
  nameEn : String
  weight : Nat
  store : Bool
  countryId : Nat
deriving DecidableEq, Repr

/-- Source `struct GeoParser::City`, the fields of `GeoItem` and `stateId`. -/
structure City where
  id : Nat
  key : String
  name : String
  nameEn : String
  weight : Nat
  store : Bool
  stateId : Nat
deriving DecidableEq, Repr

/-- The data members of `class GeoParser` that hold the catalogue and the locations. -/
structure Builder where
  countryId_ : Nat
  stateId_ : Nat
  cityId_ : Nat
  countries_ : List (String × Country)
  states_ : List (String × State)
  cities_ : List (String × City)
  locations_ : List (Nat × Location)
deriving DecidableEq, Repr

/-- Source `GeoParser::GeoParser()`: the three counters are 0 and the tables empty. -/
def Builder.new : Builder := ⟨0, 0, 0, [], [], [], []⟩

/-- Source `locations_.find(id)` on the `std::unordered_map`. -/
def findLocation (locations_ : List (Nat × Location)) (id : Nat) : Option Location :=
  (locations_.find? (fun e => e.1 == id)).map Prod.snd

/-- Source `locations_[id] = location` on the `std::unordered_map`. -/
def assignLocation (id : Nat) (location : Location) (locations_ : List (Nat × Location)) :
    List (Nat × Location) :=
  (id, location) :: locations_.filter (fun e => e.1 != id)

/-- The `countries` loop of `GeoParser::loadFromDb` and the increment that follows it;
`rows` are the rows of the result set, read with `store` false. -/
def loadCountries (b : Builder) (rows : List Country) : Builder :=
  let b1 := rows.foldl (fun (b : Builder) country =>
    { b with
      countries_ := StdMap.assign ltStr country.key { country with store := false } b.countries_
      countryId_ := if country.id > b.countryId_ then country.id else b.countryId_ }) b
  { b1 with countryId_ := (b1.countryId_ + 1) % 2 ^ 32 }

/-- The `states` loop of `GeoParser::loadFromDb` and the increment that follows it. -/
def loadStates (b : Builder) (rows : List State) : Builder :=
  let b1 := rows.foldl (fun (b : Builder) state =>
    { b with
      states_ := StdMap.assign ltStr state.key { state with store := false } b.states_
      stateId_ := if state.id > b.stateId_ then state.id else b.stateId_ }) b
  { b1 with stateId_ := (b1.stateId_ + 1) % 2 ^ 32 }

/-- The `cities` loop of `GeoParser::loadFromDb` and the increment that follows it. -/
def loadCities (b : Builder) (rows : List City) : Builder :=
  let b1 := rows.foldl (fun (b : Builder) city =>
    { b with
      cities_ := StdMap.assign ltStr city.key { city with store := false } b.cities_
      cityId_ := if city.id > b.cityId_ then city.id else b.cityId_ }) b
  { b1 with cityId_ := (b1.cityId_ + 1) % 2 ^ 32 }

/-- Source `GeoParser::loadFromDb` on the rows the three queries return. -/
def loadFromDb (b : Builder) (countries : List Country) (states : List State)
    (cities : List City) : Builder :=
  loadCities (loadStates (loadCountries b countries) states) cities

/-- The header every locations file must carry. -/
def locationsFields : List String :=
  ["geoname_id", "locale_code", "continent_code", "continent_name", "country_iso_code",
   "country_name", "subdivision_1_iso_code", "subdivision_1_name", "subdivision_2_iso_code",
   "subdivision_2_name", "city_name", "metro_code", "time_zone", "is_in_european_union"]

/-- Source `std::string::assign(const std::string& str, size_t subpos)`: the part of `str`
from position `subpos` on. -/
def assignFrom (str : String) (subpos : Nat) : String := String.mk (str.data.drop subpos)

/-- The name update of a known row: `name`, and `nameEn` in the English file, are set to
the non-empty CSV value when they differ from it, and `store` is raised.
The result is `(name, nameEn, store)`. -/
def updateNames (en : Bool) (value name nameEn : String) (store : Bool) :
    String × String × Bool :=
  if value ≠ "" then
    let r1 : String × Bool := if value ≠ name then (value, true) else (name, store)
    if en = true ∧ value ≠ nameEn then (r1.1, value, true) else (r1.1, nameEn, r1.2)
  else (name, nameEn, store)

/-- The part `process country` of the loop body of `GeoParser::loadLocations`. -/
def countryStep (en : Bool) (b : Builder) (values : List String) (location : Location) :
    Builder × Location :=
  let key := values.getD 4 ""
  match StdMap.find ltStr key b.countries_ with
  | none =>
    let country : Country :=
      ⟨b.countryId_, key, values.getD 5 "", if en then values.getD 5 "" else "",
        b.countryId_, true⟩
    ({ b with
        countryId_ := (b.countryId_ + 1) % 2 ^ 32
        countries_ := StdMap.assign ltStr key country b.countries_ },
     { location with countryId := country.id, countryKey := values.getD 4 "" })
  | some c =>
    let n := updateNames en (values.getD 5 "") c.name c.nameEn c.store
    ({ b with
        countries_ := StdMap.assign ltStr key
          { c with name := n.1, nameEn := n.2.1, store := n.2.2 } b.countries_ },
     { location with countryId := c.id, countryKey := values.getD 4 "" })

/-- The part `process state` of the loop body, entered when `values[6]` is not empty. -/
def stateStep (en : Bool) (b : Builder) (values : List String) (location : Location) :
    Builder × Location :=
  let key := values.getD 4 "" ++ "." ++ values.getD 6 ""
  match StdMap.find ltStr key b.states_ with
  | none =>
    let state : State :=
      ⟨b.stateId_, key,
        if values.getD 7 "" ≠ "" then values.getD 7 "" else values.getD 6 "",
        if values.getD 7 "" ≠ "" then (if en then values.getD 7 "" else "") else "",
        b.stateId_, true, location.countryId⟩
    ({ b with
        stateId_ := (b.stateId_ + 1) % 2 ^ 32
        states_ := StdMap.assign ltStr key state b.states_ },
     { location with stateId := state.id, stateKey := values.getD 6 "" })
  | some s =>
    let n := updateNames en (values.getD 7 "") s.name s.nameEn s.store
    ({ b with
        states_ := StdMap.assign ltStr key
          { s with name := n.1, nameEn := n.2.1, store := n.2.2 } b.states_ },
     { location with stateId := s.id, stateKey := values.getD 6 "" })

/-- The part `process city` of the loop body, entered when `values[6]` and `values[10]`
are not empty. -/
def cityStep (en : Bool) (b : Builder) (values : List String) (location : Location) :
    Builder × Location :=
  let key := values.getD 4 "" ++ "." ++ values.getD 6 "" ++ "." ++ values.getD 0 ""
  match StdMap.find ltStr key b.cities_ with
  | none =>
    let city : City :=
      ⟨b.cityId_, key, values.getD 10 "", if en then values.getD 10 "" else "",
        b.cityId_, true, location.stateId⟩
    ({ b with
        cityId_ := (b.cityId_ + 1) % 2 ^ 32
        cities_ := StdMap.assign ltStr key city b.cities_ },
     { location with
        cityName := if en then assignFrom city.nameEn city.nameEn.data.length
          else location.cityName
        cityId := city.id })
  | some c =>
    let n := updateNames en (values.getD 10 "") c.name c.nameEn c.store
    ({ b with
        cities_ := StdMap.assign ltStr key
          { c with name := n.1, nameEn := n.2.1, store := n.2.2 } b.cities_ },
     { location with
        cityName :=
          if values.getD 10 "" ≠ "" ∧ en = true ∧ values.getD 10 "" ≠ c.nameEn then
            assignFrom n.2.1 n.2.1.data.length
          else location.cityName
        cityId := c.id })

/-- The state and city parts of the loop body, nested as in the source. -/
def stateCityStep (en : Bool) (b : Builder) (values : List String) (location : Location) :
    Builder × Location :=
  if values.getD 6 "" ≠ "" then
    let r := stateStep en b values location
    if values.getD 10 "" ≠ "" then cityStep en r.1 values r.2 else r
  else (b, location)

/-- One iteration of the data loop of `GeoParser::loadLocations` on the tokenised row
`values`; `en` is the flag of the English file. -/
def locationsRow (atoui : String → Nat) (en : Bool) (b : Builder) (values : List String) :
    Except Failure Builder :=
  if values.length ≠ locationsFields.length then .error .badFileFormat
  else if values.getD 4 "" = "" then .ok b
  else
    let r1 := countryStep en b values ⟨0, 0, 0, "", "", ""⟩
    let r2 := stateCityStep en r1.1 values r1.2
    let location : Location :=
      if r2.2.stateId = 703883 then { r2.2 with countryId := 2017370 } else r2.2
    .ok { r2.1 with
          locations_ := assignLocation (atoui (values.getD 0 "")) location r2.1.locations_ }

/-- Source `GeoParser::loadLocations` on a tokenised file: `header` is the first line,
`rows` are the lines the data loop runs on. -/
def loadLocations (atoui : String → Nat) (en : Bool) (b : Builder) (header : List String)
    (rows : List (List String)) : Except Failure Builder :=
  if header.length ≠ locationsFields.length then .error .badFileFormat
  else if header ≠ locationsFields then .error .badFileFormat
  else rows.foldlM (locationsRow atoui en) b

end GeoParser

namespace GeoParser

open GeoDb

/-- Every catalogue row present in `b` is present in `b2` under the same key with the same
id, key and weight, and the same parent id for states and cities. -/
def KeepsCatalogue (b b2 : Builder) : Prop :=
  (∀ k c, StdMap.find ltStr k b.countries_ = some c →
    ∃ c2, StdMap.find ltStr k b2.countries_ = some c2 ∧
      c2.id = c.id ∧ c2.key = c.key ∧ c2.weight = c.weight) ∧
  (∀ k s, StdMap.find ltStr k b.states_ = some s →
    ∃ s2, StdMap.find ltStr k b2.states_ = some s2 ∧
      s2.id = s.id ∧ s2.key = s.key ∧ s2.weight = s.weight ∧ s2.countryId = s.countryId) ∧
  (∀ k c, StdMap.find ltStr k b.cities_ = some c →
    ∃ c2, StdMap.find ltStr k b2.cities_ = some c2 ∧
      c2.id = c.id ∧ c2.key = c.key ∧ c2.weight = c.weight ∧ c2.stateId = c.stateId)

/-- A catalogue with Germany and Bavaria, ids 7 and 3, next ids 8, 4 and 1. -/
def exampleBuilder : Builder :=
  ⟨8, 4, 1, [("DE", ⟨7, "DE", "Deutschland", "Germany", 7, false⟩)],
    [("DE.BY", ⟨3, "DE.BY", "Bayern", "Bavaria", 3, false, 7⟩)], [], []⟩

/-- A row of the English locations file for Munich, geoname id 2867714. -/
def munichRow : List String :=
  ["2867714", "en", "EU", "Europe", "DE", "Germany", "BY", "Bavaria", "", "", "Munich", "",
   "Europe/Berlin", "1"]

/-- A row of the English locations file for Paris, geoname id 2988507. -/
def parisRow : List String :=
  ["2988507", "en", "EU", "Europe", "FR", "France", "IDF", "Ile-de-France", "75", "Paris",
   "Paris", "", "Europe/Paris", "1"]

end GeoParser

namespace GeoParser

open GeoDb

/-- A catalogue table in good order below the counter `next`: entries ascending in the
key, each row filed under its own key, every id below `next`, and no id twice. -/
def TableOk {V : Type} (idOf : V → Nat) (keyOf : V → String) (next : Nat)
    (tbl : List (String × V)) : Prop :=
  StdMap.Sorted ltStr tbl ∧ (∀ e ∈ tbl, keyOf e.2 = e.1) ∧ (∀ e ∈ tbl, idOf e.2 < next) ∧
    (tbl.map (fun e => idOf e.2)).Nodup

/-- The three catalogue tables are in good order below their counters. -/
def CatalogueOk (b : Builder) : Prop :=
  TableOk Country.id Country.key b.countryId_ b.countries_ ∧
  TableOk State.id State.key b.stateId_ b.states_ ∧
  TableOk City.id City.key b.cityId_ b.cities_

/-- Within each catalogue table, no id and no key occurs in two rows. -/
def UniqueIdsAndKeys (b : Builder) : Prop :=
  ((b.countries_.map (fun e => e.2.id)).Nodup ∧ (b.countries_.map (fun e => e.2.key)).Nodup) ∧
  ((b.states_.map (fun e => e.2.id)).Nodup ∧ (b.states_.map (fun e => e.2.key)).Nodup) ∧
  ((b.cities_.map (fun e => e.2.id)).Nodup ∧ (b.cities_.map (fun e => e.2.key)).Nodup)

/-- Each of the three counters can still be raised `n` times without leaving 32 bits. -/
def NoWrap (b : Builder) (n : Nat) : Prop :=
  b.countryId_ + n < 2 ^ 32 ∧ b.stateId_ + n < 2 ^ 32 ∧ b.cityId_ + n < 2 ^ 32

/-- Every row of `b2` under a key absent from `b` has an id above every id in `b`, in each
of the three tables. -/
def CreatedAbove (b b2 : Builder) : Prop :=
  (∀ k c2, StdMap.find ltStr k b2.countries_ = some c2 →
    StdMap.find ltStr k b.countries_ = none → ∀ e ∈ b.countries_, e.2.id < c2.id) ∧
  (∀ k s2, StdMap.find ltStr k b2.states_ = some s2 →
    StdMap.find ltStr k b.states_ = none → ∀ e ∈ b.states_, e.2.id < s2.id) ∧
  (∀ k c2, StdMap.find ltStr k b2.cities_ = some c2 →
    StdMap.find ltStr k b.cities_ = none → ∀ e ∈ b.cities_, e.2.id < c2.id)

/-- A sequence of processed locations rows, each with the flag of the file it is from. -/
def locationsRows (atoui : String → Nat) (b : Builder) (rows : List (Bool × List String)) :
    Except Failure Builder :=
  rows.foldlM (fun b r => locationsRow atoui r.1 b r.2) b

end GeoParser

namespace GeoParser

open GeoDb

/-- The German rows of the catalogue tables that `exampleBuilder` is loaded from. -/
def exampleCountries : List Country := [⟨7, "DE", "Deutschland", "Germany", 7, false⟩]

/-- The Bavarian row of the states table that `exampleBuilder` is loaded from. -/
def exampleStates : List State := [⟨3, "DE.BY", "Bayern", "Bavaria", 3, false, 7⟩]

/-- The catalogue `exampleBuilder` after `munichRow` of the English file. -/
def munichBuilder : Builder :=
  ⟨8, 4, 2, [("DE", ⟨7, "DE", "Germany", "Germany", 7, true⟩)],
    [("DE.BY", ⟨3, "DE.BY", "Bavaria", "Bavaria", 3, true, 7⟩)],
    [("DE.BY.2867714", ⟨1, "DE.BY.2867714", "Munich", "Munich", 1, true, 3⟩)],
    [(2867714, ⟨7, 3, 1, "DE", "BY", ""⟩)]⟩

/-- The catalogue `munichBuilder` after `parisRow` of the English file. -/
def parisBuilder : Builder :=
  ⟨9, 5, 3,
    [("DE", ⟨7, "DE", "Germany", "Germany", 7, true⟩),
     ("FR", ⟨8, "FR", "France", "France", 8, true⟩)],
    [("DE.BY", ⟨3, "DE.BY", "Bavaria", "Bavaria", 3, true, 7⟩),
     ("FR.IDF", ⟨4, "FR.IDF", "Ile-de-France", "Ile-de-France", 4, true, 8⟩)],
    [("DE.BY.2867714", ⟨1, "DE.BY.2867714", "Munich", "Munich", 1, true, 3⟩),
     ("FR.IDF.2988507", ⟨2, "FR.IDF.2988507", "Paris", "Paris", 2, true, 4⟩)],
    [(2988507, ⟨8, 4, 2, "FR", "IDF", ""⟩), (2867714, ⟨7, 3, 1, "DE", "BY", ""⟩)]⟩

end GeoParser

/-! ## The Builder configuration and the snapshot file -/

namespace GeoParser

open GeoDb

/-- Modelled from the spec: `Utils::configString`, declared in base/utils.h and called by
`GeoParser::initConfig`.
The spec lists `db.geodb_file` as a string option that is not required and has a default,
and a bad option type as a configuration error: the value of the member when it is a
string, the default when the member is absent, a `ConfigException` otherwise. -/
def configString (member : Option JsonValue) (defaultValue : String) :
    Except Exception String :=
  match member with
  | none => .ok defaultValue
  | some (.string s) => .ok s
  | some _ => .error (.config "option must be a string")

/-- The data members of `class GeoParser` that name the snapshot file. -/
structure Config where
  defaultGeoDbFile_ : String
  geoDbFile_ : String
deriving DecidableEq, Repr

/-- The members in question as the constructor finds them: `defaultGeoDbFile_` has its
initialiser, `geoDbFile_` is an empty string. -/
def Config.new : Config := ⟨"geodb.dat", ""⟩

/-- Source `GeoParser::initConfig`, as far as `geoDbFile_` goes. `others` is the outcome of
the reads of the other options between the two assignments, which throw or go on;
`geodb_file` is the member `geodb_file` of the section `db`, `none` when absent. -/
def initConfig (c : Config) (others : Except Exception Unit)
    (geodb_file : Option JsonValue) : Except Exception Config :=
  let c1 : Config := { c with geoDbFile_ := c.defaultGeoDbFile_ }
  match others with
  | .error e => .error e
  | .ok _ =>
    match configString geodb_file c1.defaultGeoDbFile_ with
    | .error e => .error e
    | .ok s => .ok { c1 with geoDbFile_ := s }

/-- Source `GeoParser::saveGeoDb`: the path handed to `fopen` and the message serialised
into the file. -/
def saveGeoDb (c : Config) (geodb_ : protobuf.Geo) : String × protobuf.Geo :=
  (c.defaultGeoDbFile_, geodb_)

end GeoParser

/-! ## A lookup running beside the publish -/

namespace GeoDb

/-- A `Db` on the heap with the use count of the control block of its `shared_ptr`; the
object is destroyed when the count falls to 0. -/
structure HeapDb where
  useCount : Nat
  db : Db

/-- What a lookup and the watcher share: the heap of snapshots, addressed by position, the
member `db_` (`none` is the null pointer) and the member `empty_`. -/
structure Shared where
  heap : List HeapDb
  db_ : Option Nat
  empty_ : Element

/-- Where a call of `getIpv4(IPv4 ip)` stands in
`instance_->db_ ? instance_->db_->find(ip) : instance_->empty_`: before the test of `db_`,
before `db_.operator->()`, about to run `find` on the object at the raw pointer `p`, or
returned with an Element. `fault` is `find` run through a null pointer or on a destroyed
object. -/
inductive Lookup where
  | test
  | arrow
  | find (p : Option Nat)
  | done (el : Element)
  | fault
deriving DecidableEq, Repr

/-- One step of the call of `getIpv4(ip)` against the shared state. Reading `db_` takes no
reference: the use count is not touched. -/
def lookupStep (ip : IPv4) (s : Shared) : Lookup → Lookup
  | .test => if s.db_.isSome then .arrow else .done s.empty_
  | .arrow => .find s.db_
  | .find none => .fault
  | .find (some p) =>
    match s.heap.get? p with
    | none => .fault
    | some h => if h.useCount = 0 then .fault else .done (h.db.findV4 ip)
  | .done el => .done el
  | .fault => .fault

/-- The use count at address `p` lowered by one. -/
def release (p : Nat) (heap : List HeapDb) : List HeapDb :=
  heap.modify (fun h => { h with useCount := h.useCount - 1 }) p

/-- The publish of `watcherThreadLoop` for a loaded snapshot, taken as one step:
`make_shared` puts the new `Db` on the heap with use count 1, `db_ = db` raises that
count, releases the snapshot `db_` held and stores the new address, and the local `db`
is released at the end of its block. -/
def publish (db : Db) (s : Shared) : Shared :=
  let p := s.heap.length
  let heap1 := s.heap ++ [⟨1, db⟩]
  let heap2 := heap1.modify (fun h => { h with useCount := h.useCount + 1 }) p
  let heap3 := match s.db_ with
    | some old => release old heap2
    | none => heap2
  { s with heap := release p heap3, db_ := some p }

/-- The two threads of an interleaving. -/
inductive Actor where
  | reader
  | watcher
deriving DecidableEq, Repr

/-- A schedule run on the shared state and on one lookup; the watcher publishes `db` at
its turn. -/
def interleave (ip : IPv4) (db : Db) : List Actor → Shared × Lookup → Shared × Lookup
  | [], r => r
  | .reader :: rest, (s, l) => interleave ip db rest (s, lookupStep ip s l)
  | .watcher :: rest, (s, l) => interleave ip db rest (publish db s, l)

/-- The shared state with the one snapshot `old` published. -/
def sharedWith (old : Db) : Shared := ⟨[⟨1, old⟩], some 0, Element.empty⟩

end GeoDb

/-! ## The dirty flag -/

namespace GeoParser

open GeoDb

/-- One catalogue table before (`t`) and after (`t2`) one processed row: a row present
before is present after and is dirty after exactly when it was dirty before or its name
or English name is no longer the one it held; a row present only after is dirty. -/
def DirtyStepTable {V : Type} (name nameEn : V → String) (store : V → Bool)
    (t t2 : List (String × V)) : Prop :=
  (∀ k c, StdMap.find ltStr k t = some c →
    ∃ c2, StdMap.find ltStr k t2 = some c2 ∧
      (store c2 = true ↔ store c = true ∨ name c2 ≠ name c ∨ nameEn c2 ≠ nameEn c)) ∧
  (∀ k c2, StdMap.find ltStr k t2 = some c2 → StdMap.find ltStr k t = none → store c2 = true)

/-- The three catalogue tables before and after one processed row. -/
def DirtyStep (b b2 : Builder) : Prop :=
  DirtyStepTable Country.name Country.nameEn Country.store b.countries_ b2.countries_ ∧
  DirtyStepTable State.name State.nameEn State.store b.states_ b2.states_ ∧
  DirtyStepTable City.name City.nameEn City.store b.cities_ b2.cities_

/-- One catalogue table before (`t`) and after (`t2`) a run of processed rows: a row
present before is present after, stays dirty if it was, and has its old name and English
name if it is not dirty after; a row present only after is dirty. -/
def DirtyRunTable {V : Type} (name nameEn : V → String) (store : V → Bool)
    (t t2 : List (String × V)) : Prop :=
  (∀ k c, StdMap.find ltStr k t = some c →
    ∃ c2, StdMap.find ltStr k t2 = some c2 ∧ (store c = true → store c2 = true) ∧
      (store c2 = false → name c2 = name c ∧ nameEn c2 = nameEn c)) ∧
  (∀ k c2, StdMap.find ltStr k t2 = some c2 → StdMap.find ltStr k t = none → store c2 = true)

/-- The three catalogue tables before and after a run of processed rows. -/
def DirtyRun (b b2 : Builder) : Prop :=
  DirtyRunTable Country.name Country.nameEn Country.store b.countries_ b2.countries_ ∧
  DirtyRunTable State.name State.nameEn State.store b.states_ b2.states_ ∧
  DirtyRunTable City.name City.nameEn City.store b.cities_ b2.cities_

/-- A row of the other locations file for Munich, with the country name the example
catalogue was loaded with. -/
def muenchenRow : List String :=
  ["2867714", "de", "EU", "Europa", "DE", "Deutschland", "BY", "Bayern", "", "", "Muenchen",
   "", "Europe/Berlin", "1"]

end GeoParser

namespace GeoParser

open GeoDb

/-- A row of the English locations file for the state of Berlin, with an empty
`subdivision_1_name` and no city. -/
def berlinRow : List String :=
  ["100", "en", "EU", "Europe", "DE", "Germany", "BE", "", "", "", "", "", "Europe/Berlin",
   "1"]

/-- The catalogue `exampleBuilder` after `berlinRow` of the English file. -/
def berlinBuilder : Builder :=
  ⟨8, 5, 1, [("DE", ⟨7, "DE", "Germany", "Germany", 7, true⟩)],
    [("DE.BE", ⟨4, "DE.BE", "BE", "", 4, true, 7⟩),
     ("DE.BY", ⟨3, "DE.BY", "Bayern", "Bavaria", 3, false, 7⟩)], [],
    [(100, ⟨7, 4, 0, "DE", "BE", ""⟩)]⟩

/-- The catalogue `munichBuilder` after `muenchenRow` of the other file. -/
def muenchenBuilder : Builder :=
  ⟨8, 4, 2, [("DE", ⟨7, "DE", "Deutschland", "Germany", 7, true⟩)],
    [("DE.BY", ⟨3, "DE.BY", "Bayern", "Bavaria", 3, true, 7⟩)],
    [("DE.BY.2867714", ⟨1, "DE.BY.2867714", "Muenchen", "Munich", 1, true, 3⟩)],
    [(2867714, ⟨7, 3, 1, "DE", "BY", ""⟩)]⟩

end GeoParser

namespace GeoParser

open GeoDb

/-- A catalogue with Ukraine and the subdivision `43` filed under the state id 703883. -/
def crimeaBuilder : Builder :=
  ⟨690792, 703884, 1, [("UA", ⟨690791, "UA", "Ukraine", "Ukraine", 690791, false⟩)],
    [("UA.43", ⟨703883, "UA.43", "Crimea", "Crimea", 703883, false, 690791⟩)], [], []⟩

/-- A row of the English locations file for Simferopol, geoname id 694423. -/
def simferopolRow : List String :=
  ["694423", "en", "EU", "Europe", "UA", "Ukraine", "43", "Crimea", "", "", "Simferopol", "",
   "Europe/Simferopol", "0"]

/-- The catalogue `crimeaBuilder` after `simferopolRow` of the English file. -/
def simferopolBuilder : Builder :=
  ⟨690792, 703884, 2, [("UA", ⟨690791, "UA", "Ukraine", "Ukraine", 690791, false⟩)],
    [("UA.43", ⟨703883, "UA.43", "Crimea", "Crimea", 703883, false, 690791⟩)],
    [("UA.43.694423", ⟨1, "UA.43.694423", "Simferopol", "Simferopol", 1, true, 703883⟩)],
    [(694423, ⟨2017370, 703883, 1, "UA", "43", ""⟩)]⟩

/-- A blocks row for a network of the location 694423. -/
def simferopolBlock : List String :=
  ["5.133.64.0/18", "694423", "", "", "0", "0", "", "", "", ""]

/-- A code table that knows `UA` only. -/
def crimeaCodeTransf : String → Option String :=
  fun iso2 => if iso2 = "UA" then some "UKR" else none

end GeoParser

/-! ## The Location of a row -/

namespace GeoParser

open GeoDb

/-- The Location that one iteration of the data loop of `GeoParser::loadLocations` builds
in its local `location`, from the default-constructed value to the test of `stateId`
against 703883, for a row with a non-empty `country_iso_code`. -/
def rowLocation (en : Bool) (b : Builder) (values : List String) : Location :=
  let r1 := countryStep en b values ⟨0, 0, 0, "", "", ""⟩
  let r2 := stateCityStep en r1.1 values r1.2
  if r2.2.stateId = 703883 then { r2.2 with countryId := 2017370 } else r2.2

/-- A row of the English locations file for Monaco: a country and a city name, no
subdivision. -/
def monacoRow : List String :=
  ["2993458", "en", "EU", "Europe", "MC", "Monaco", "", "", "", "", "Monaco", "",
   "Europe/Monaco", "0"]

/-- The catalogue `exampleBuilder` after `monacoRow` of the English file. -/
def monacoBuilder : Builder :=
  ⟨9, 4, 1,
    [("DE", ⟨7, "DE", "Deutschland", "Germany", 7, false⟩),
     ("MC", ⟨8, "MC", "Monaco", "Monaco", 8, true⟩)],
    [("DE.BY", ⟨3, "DE.BY", "Bayern", "Bavaria", 3, false, 7⟩)], [],
    [(2993458, ⟨8, 0, 0, "MC", "", ""⟩)]⟩

end GeoParser

/-! # Theorems -/

namespace GeoDb


/-! ## Order facts -/

theorem ltV4_strictTotal : StrictTotal ltV4 where
  irrefl := by intro a; simp [ltV4]
  trans := by
    intro a b c h1 h2
    simp only [ltV4, decide_eq_true_eq] at *
    exact Nat.lt_trans h1 h2
  total := by
    intro a b h1 h2
    simp only [ltV4, decide_eq_false_iff_not, Nat.not_lt] at *
    exact Nat.le_antisymm h2 h1

theorem IPv6.lt_iff (a b : IPv6) :
    IPv6.lt a b = true ↔ a.hi < b.hi ∨ (a.hi = b.hi ∧ a.lo < b.lo) := by
  simp [IPv6.lt]

theorem IPv6.lt_eq_false_iff (a b : IPv6) :
    IPv6.lt a b = false ↔ b.hi < a.hi ∨ (a.hi = b.hi ∧ b.lo ≤ a.lo) := by
  rw [← Bool.not_eq_true, IPv6.lt_iff]; omega

theorem IPv6.le_iff (a b : IPv6) :
    IPv6.le a b = true ↔ a.hi < b.hi ∨ (a.hi = b.hi ∧ a.lo ≤ b.lo) := by
  simp only [IPv6.le, IPv6.eq, Bool.or_eq_true, Bool.and_eq_true, beq_iff_eq, IPv6.lt_iff]
  omega

theorem IPv6.le_iff_not_lt (a b : IPv6) : IPv6.le a b = true ↔ IPv6.lt b a = false := by
  rw [IPv6.le_iff, IPv6.lt_eq_false_iff]; omega

theorem IPv6.lt_strictTotal : StrictTotal IPv6.lt where
  irrefl := by intro a; rw [IPv6.lt_eq_false_iff]; omega
  trans := by intro a b c; simp only [IPv6.lt_iff]; omega
  total := by
    intro a b h1 h2
    rw [IPv6.lt_eq_false_iff] at h1 h2
    cases a; cases b; simp only [IPv6.mk.injEq] at *; omega

/-! ## The ordered map -/

namespace StdMap

variable {K V : Type} {lt : K → K → Bool}

theorem lt_asymm (h : StrictTotal lt) {a b : K} (hab : lt a b = true) : lt b a = false := by
  cases hba : lt b a
  · rfl
  · have := h.trans a b a hab hba
    rw [h.irrefl] at this; exact absurd this (by simp)

theorem sorted_cons {a : K × V} {m : List (K × V)} :
    Sorted lt (a :: m) ↔ (∀ b ∈ m, lt a.1 b.1 = true) ∧ Sorted lt m := by
  simp [Sorted]

theorem assign_keys (h : StrictTotal lt) (k : K) (v : V) (m : List (K × V)) (e : K × V)
    (he : e ∈ assign lt k v m) : e = (k, v) ∨ e ∈ m := by
  induction m with
  | nil => simp [assign] at he; exact Or.inl he
  | cons a m ih =>
    obtain ⟨k1, v1⟩ := a
    simp only [assign] at he
    split at he
    · rcases List.mem_cons.1 he with he | he
      · exact Or.inl he
      · exact Or.inr he
    · split at he
      · rcases List.mem_cons.1 he with he | he
        · exact Or.inr (he ▸ List.mem_cons_self _ _)
        · rcases ih he with h1 | h1
          · exact Or.inl h1
          · exact Or.inr (List.mem_cons_of_mem _ h1)
      · rename_i h1 h2
        have hk : k = k1 := h.total k k1 (by simpa using h1) (by simpa using h2)
        rcases List.mem_cons.1 he with he | he
        · exact Or.inl (by rw [he, hk])
        · exact Or.inr (List.mem_cons_of_mem _ he)

theorem assign_sorted (h : StrictTotal lt) (k : K) (v : V) (m : List (K × V))
    (hs : Sorted lt m) : Sorted lt (assign lt k v m) := by
  induction m with
  | nil => simp [assign, Sorted]
  | cons a m ih =>
    obtain ⟨k1, v1⟩ := a
    rw [sorted_cons] at hs
    simp only [assign]
    split
    · rename_i h1
      rw [sorted_cons]
      refine ⟨?_, sorted_cons.2 hs⟩
      intro b hb
      rcases List.mem_cons.1 hb with hb | hb
      · rw [hb]; exact h1
      · exact h.trans _ _ _ h1 (hs.1 b hb)
    · split
      · rename_i h1 h2
        rw [sorted_cons]
        refine ⟨?_, ih hs.2⟩
        intro b hb
        rcases assign_keys h k v m b hb with hb | hb
        · rw [hb]; exact h2
        · exact hs.1 b hb
      · rw [sorted_cons]; exact ⟨hs.1, hs.2⟩

theorem mem_assign_self (h : StrictTotal lt) (k : K) (v : V) (m : List (K × V)) :
    (k, v) ∈ assign lt k v m := by
  induction m with
  | nil => simp [assign]
  | cons a m ih =>
    obtain ⟨k1, v1⟩ := a
    simp only [assign]
    split
    · exact List.mem_cons_self _ _
    · split
      · exact List.mem_cons_of_mem _ ih
      · rename_i h1 h2
        have hk : k = k1 := h.total k k1 (by simpa using h1) (by simpa using h2)
        rw [hk]; exact List.mem_cons_self _ _

theorem mem_assign_of_ne (k : K) (v : V) (m : List (K × V)) (e : K × V)
    (he : e ∈ m) (hne : e.1 ≠ k) (h : StrictTotal lt) : e ∈ assign lt k v m := by
  induction m with
  | nil => simp at he
  | cons a m ih =>
    obtain ⟨k1, v1⟩ := a
    simp only [assign]
    split
    · exact List.mem_cons_of_mem _ he
    · split
      · rcases List.mem_cons.1 he with he | he
        · rw [he]; exact List.mem_cons_self _ _
        · exact List.mem_cons_of_mem _ (ih he)
      · rename_i h1 h2
        have hk : k = k1 := h.total k k1 (by simpa using h1) (by simpa using h2)
        rcases List.mem_cons.1 he with he | he
        · exact absurd (by rw [he, hk]) hne
        · exact List.mem_cons_of_mem _ he

theorem lower_bound_eq_none (k : K) (m : List (K × V)) :
    lower_bound lt k m = none ↔ ∀ e ∈ m, lt e.1 k = true := by
  induction m with
  | nil => simp [lower_bound]
  | cons a m ih =>
    obtain ⟨k1, v1⟩ := a
    simp only [lower_bound]
    split
    · rename_i h1
      rw [ih]; simp [h1]
    · rename_i h1
      simp [h1]

theorem lower_bound_some (k : K) (m : List (K × V)) (e : K × V)
    (he : lower_bound lt k m = some e) : e ∈ m ∧ lt e.1 k = false := by
  induction m with
  | nil => simp [lower_bound] at he
  | cons a m ih =>
    obtain ⟨k1, v1⟩ := a
    simp only [lower_bound] at he
    split at he
    · exact ⟨List.mem_cons_of_mem _ (ih he).1, (ih he).2⟩
    · rename_i h1
      cases he
      exact ⟨List.mem_cons_self _ _, by simpa using h1⟩

theorem lower_bound_least (h : StrictTotal lt) (k : K) (m : List (K × V)) (e : K × V)
    (hs : Sorted lt m) (he : lower_bound lt k m = some e) (e2 : K × V) (h2 : e2 ∈ m)
    (hk : lt e2.1 k = false) : lt e2.1 e.1 = false := by
  induction m with
  | nil => simp at h2
  | cons a m ih =>
    obtain ⟨k1, v1⟩ := a
    rw [sorted_cons] at hs
    simp only [lower_bound] at he
    split at he
    · rename_i h1
      rcases List.mem_cons.1 h2 with h2 | h2
      · rw [h2] at hk; simp only at hk; rw [h1] at hk; exact absurd hk (by simp)
      · exact ih hs.2 he h2
    · cases he
      rcases List.mem_cons.1 h2 with h2 | h2
      · rw [h2]; exact h.irrefl _
      · exact lt_asymm h (hs.1 e2 h2)

theorem sorted_key_inj (h : StrictTotal lt) (m : List (K × V)) (hs : Sorted lt m)
    (a b : K × V) (ha : a ∈ m) (hb : b ∈ m) (hab : a.1 = b.1) : a = b := by
  induction m with
  | nil => simp at ha
  | cons c m ih =>
    rw [sorted_cons] at hs
    rcases List.mem_cons.1 ha with ha | ha <;> rcases List.mem_cons.1 hb with hb | hb
    · rw [ha, hb]
    · have := hs.1 b hb
      rw [← ha, hab, h.irrefl] at this; exact absurd this (by simp)
    · have := hs.1 a ha
      rw [← hb, ← hab, h.irrefl] at this; exact absurd this (by simp)
    · exact ih hs.2 ha hb

theorem lower_bound_eq_some (h : StrictTotal lt) (k : K) (m : List (K × V)) (e : K × V)
    (hs : Sorted lt m) (he : e ∈ m) (hk : lt e.1 k = false)
    (hmin : ∀ e2 ∈ m, lt e2.1 k = false → lt e2.1 e.1 = false) :
    lower_bound lt k m = some e := by
  cases hlb : lower_bound lt k m with
  | none =>
    have := (lower_bound_eq_none k m).1 hlb e he
    rw [hk] at this; exact absurd this (by simp)
  | some e0 =>
    have h0 := lower_bound_some k m e0 hlb
    have h1 := lower_bound_least h k m e0 hs hlb e he hk
    have h2 := hmin e0 h0.1 h0.2
    have := sorted_key_inj h m hs e0 e h0.1 he (h.total _ _ h2 h1)
    rw [this]

theorem not_lt_trans (h : StrictTotal lt) {a b c : K} (hab : lt b a = false)
    (hbc : lt c b = false) : lt c a = false := by
  cases hca : lt c a
  · rfl
  · cases hlt : lt a b
    · have := h.total a b hlt hab
      rw [← this, hca] at hbc; exact absurd hbc (by simp)
    · have := h.trans c a b hca hlt
      rw [this] at hbc; exact absurd hbc (by simp)

variable {D : Type} {key : D → K}

theorem assignAll_append (ds : List D) (d : D) (m : List (K × D)) :
    assignAll lt key (ds ++ [d]) m = assign lt (key d) d (assignAll lt key ds m) := by
  simp [assignAll, List.foldl_append]

theorem assignAll_sorted (h : StrictTotal lt) (ds : List D) (m : List (K × D))
    (hs : Sorted lt m) : Sorted lt (assignAll lt key ds m) := by
  induction ds generalizing m with
  | nil => exact hs
  | cons d ds ih => exact ih _ (assign_sorted h _ _ _ hs)

theorem assignAll_mem (h : StrictTotal lt) (ds : List D) (m : List (K × D)) (e : K × D)
    (he : e ∈ assignAll lt key ds m) : e ∈ m ∨ ∃ d ∈ ds, e = (key d, d) := by
  induction ds generalizing m with
  | nil => exact Or.inl he
  | cons d ds ih =>
    rcases ih _ he with h1 | ⟨d2, hd2, h2⟩
    · rcases assign_keys h _ _ _ _ h1 with h3 | h3
      · exact Or.inr ⟨d, List.mem_cons_self _ _, h3⟩
      · exact Or.inl h3
    · exact Or.inr ⟨d2, List.mem_cons_of_mem _ hd2, h2⟩

theorem assignAll_present (h : StrictTotal lt) (ds : List D)
    (hne : ds.Pairwise (fun a b => key a ≠ key b)) (d : D) (hd : d ∈ ds) :
    (key d, d) ∈ assignAll lt key ds [] := by
  induction ds using List.reverseRecOn with
  | nil => simp at hd
  | append_singleton ds x ih =>
    rw [assignAll_append]
    rw [List.pairwise_append] at hne
    rcases List.mem_append.1 hd with hd | hd
    · refine mem_assign_of_ne _ _ _ _ (ih hne.1 hd) ?_ h
      exact hne.2.2 d hd x (List.mem_singleton_self x)
    · rw [List.mem_singleton.1 hd]
      exact mem_assign_self h _ _ _

/-- A point of a stored range is answered by that range, when the ranges are non-empty
and pairwise disjoint. -/
theorem lower_bound_assignAll (h : StrictTotal lt) (key fr : D → K) (ds : List D)
    (hle : ∀ d ∈ ds, lt (key d) (fr d) = false)
    (hdis : ds.Pairwise (fun a b => lt (key a) (fr b) = true ∨ lt (key b) (fr a) = true))
    (d : D) (hd : d ∈ ds) (ip : K) (h1 : lt ip (fr d) = false) (h2 : lt (key d) ip = false) :
    lower_bound lt ip (assignAll lt key ds []) = some (key d, d) := by
  have hsym : Symmetric (fun a b : D => lt (key a) (fr b) = true ∨ lt (key b) (fr a) = true) :=
    fun a b hab => hab.symm
  have hne : ds.Pairwise (fun a b => key a ≠ key b) := by
    refine List.Pairwise.imp_of_mem ?_ hdis
    intro a b ha hb hab heq
    rcases hab with hab | hab
    · rw [heq, hle b hb] at hab; exact absurd hab (by simp)
    · rw [← heq, hle a ha] at hab; exact absurd hab (by simp)
  refine lower_bound_eq_some h ip _ _ (assignAll_sorted h ds [] (by simp [Sorted]))
    (assignAll_present h ds hne d hd) h2 ?_
  intro e2 he2 hk
  rcases assignAll_mem h ds [] e2 he2 with h3 | ⟨d2, hd2, h3⟩
  · simp at h3
  · subst h3
    by_cases hdd : d2 = d
    · rw [hdd]; exact h.irrefl _
    · rcases hdis.forall hsym hd2 hd hdd with h4 | h4
      · have := not_lt_trans h h1 hk
        simp only at this h4
        rw [this] at h4; exact absurd h4 (by simp)
      · cases h5 : lt (key d2) (key d)
        · rfl
        · have := h.trans _ _ _ h5 h4
          rw [hle d2 hd2] at this; exact absurd this (by simp)

end StdMap

/-! ## The snapshot -/

theorem intern_snd (pool : List String) (s : String) : (intern pool s).2 = s := by
  unfold intern
  split
  · rename_i h hf
    have := List.find?_some hf
    simpa using this
  · rfl

theorem addRange_ipv4 (db : Db) (c : AddRange) :
    (db.addRange c).ipv4_ = StdMap.assignAll ltV4 IPv4Data.to_ (callsV4 [c]) db.ipv4_ := by
  cases c with
  | v4 f t el =>
    cases el
    simp [Db.addRange, Db.addRangeV4, callsV4, StdMap.assignAll, intern_snd]
  | v6 f t el => simp [Db.addRange, Db.addRangeV6, callsV4, StdMap.assignAll]

theorem addRange_ipv6 (db : Db) (c : AddRange) :
    (db.addRange c).ipv6_ = StdMap.assignAll IPv6.lt IPv6Data.to_ (callsV6 [c]) db.ipv6_ := by
  cases c with
  | v4 f t el => simp [Db.addRange, Db.addRangeV4, callsV6, StdMap.assignAll]
  | v6 f t el =>
    cases el
    simp [Db.addRange, Db.addRangeV6, callsV6, StdMap.assignAll, intern_snd]

theorem addRange_empty (db : Db) (c : AddRange) : (db.addRange c).empty_ = db.empty_ := by
  cases c <;> rfl

theorem foldl_addRange (calls : List AddRange) (db : Db) :
    (calls.foldl Db.addRange db).ipv4_
        = StdMap.assignAll ltV4 IPv4Data.to_ (callsV4 calls) db.ipv4_ ∧
    (calls.foldl Db.addRange db).ipv6_
        = StdMap.assignAll IPv6.lt IPv6Data.to_ (callsV6 calls) db.ipv6_ ∧
    (calls.foldl Db.addRange db).empty_ = db.empty_ := by
  induction calls generalizing db with
  | nil => simp [callsV4, callsV6, StdMap.assignAll]
  | cons c calls ih =>
    obtain ⟨h4, h6, h0⟩ := ih (db.addRange c)
    simp only [List.foldl_cons]
    rw [h4, h6, h0, addRange_ipv4, addRange_ipv6, addRange_empty]
    refine ⟨?_, ?_, rfl⟩
    · cases c <;> simp [callsV4, StdMap.assignAll]
    · cases c <;> simp [callsV6, StdMap.assignAll]

theorem build_ipv4 (calls : List AddRange) :
    (Db.build calls).ipv4_ = StdMap.assignAll ltV4 IPv4Data.to_ (callsV4 calls) [] :=
  (foldl_addRange calls Db.new).1

theorem build_ipv6 (calls : List AddRange) :
    (Db.build calls).ipv6_ = StdMap.assignAll IPv6.lt IPv6Data.to_ (callsV6 calls) [] :=
  (foldl_addRange calls Db.new).2.1

theorem build_empty (calls : List AddRange) : (Db.build calls).empty_ = Element.empty :=
  (foldl_addRange calls Db.new).2.2

theorem IPv6.ge_iff_not_lt (a b : IPv6) : IPv6.ge a b = true ↔ IPv6.lt a b = false := by
  rw [IPv6.lt_eq_false_iff]
  simp only [IPv6.ge, IPv6.gt, IPv6.eq, Bool.or_eq_true, Bool.and_eq_true, beq_iff_eq,
    decide_eq_true_eq]
  omega

theorem mem_callsV4 {calls : List AddRange} {f t : IPv4} {el : Element}
    (h : AddRange.v4 f t el ∈ calls) : (⟨f, t, el⟩ : IPv4Data) ∈ callsV4 calls := by
  unfold callsV4
  rw [List.mem_filterMap]
  exact ⟨_, h, rfl⟩

theorem mem_callsV6 {calls : List AddRange} {f t : IPv6} {el : Element}
    (h : AddRange.v6 f t el ∈ calls) : (⟨f, t, el⟩ : IPv6Data) ∈ callsV6 calls := by
  unfold callsV6
  rw [List.mem_filterMap]
  exact ⟨_, h, rfl⟩

theorem findV4_hit (calls : List AddRange)
    (hle : ∀ d ∈ callsV4 calls, d.from_ ≤ d.to_)
    (hdis : (callsV4 calls).Pairwise DisjointV4)
    (d : IPv4Data) (hd : d ∈ callsV4 calls) (ip : IPv4) (h1 : d.from_ ≤ ip)
    (h2 : ip ≤ d.to_) : (Db.build calls).findV4 ip = d.el := by
  have hlb := StdMap.lower_bound_assignAll ltV4_strictTotal IPv4Data.to_ IPv4Data.from_
    (callsV4 calls)
    (by intro d hd; simpa [ltV4] using hle d hd)
    (by
      refine hdis.imp ?_
      intro a b hab
      simpa [ltV4, DisjointV4] using hab)
    d hd ip (by simpa [ltV4] using h1) (by simpa [ltV4] using h2)
  simp [Db.findV4, build_ipv4, hlb, h1]

theorem findV6_hit (calls : List AddRange)
    (hle : ∀ d ∈ callsV6 calls, IPv6.le d.from_ d.to_ = true)
    (hdis : (callsV6 calls).Pairwise DisjointV6)
    (d : IPv6Data) (hd : d ∈ callsV6 calls) (ip : IPv6) (h1 : IPv6.le d.from_ ip = true)
    (h2 : IPv6.le ip d.to_ = true) : (Db.build calls).findV6 ip = d.el := by
  have hlb := StdMap.lower_bound_assignAll IPv6.lt_strictTotal IPv6Data.to_ IPv6Data.from_
    (callsV6 calls)
    (by intro d hd; exact (IPv6.le_iff_not_lt _ _).1 (hle d hd))
    (by
      refine hdis.imp ?_
      intro a b hab
      exact hab)
    d hd ip ((IPv6.le_iff_not_lt _ _).1 h1) ((IPv6.le_iff_not_lt _ _).1 h2)
  simp [Db.findV6, build_ipv6, hlb, h1]

/-- C1: in a snapshot built by a sequence of `addRange` calls whose ranges have
`from <= to` and are pairwise disjoint, `find` answers every address of an added range
(its two ends included) with the Element of that range, for IPv4 and for IPv6; for
adjacent ranges `[a, b]` and `[b+1, c]`, `find b` is the first Element and `find (b+1)` the
second. -/
theorem find_returns_added_element (calls : List AddRange)
    (h4le : ∀ d ∈ callsV4 calls, d.from_ ≤ d.to_)
    (h4dis : (callsV4 calls).Pairwise DisjointV4)
    (h6le : ∀ d ∈ callsV6 calls, IPv6.le d.from_ d.to_ = true)
    (h6dis : (callsV6 calls).Pairwise DisjointV6) :
    (∀ f t el ip, AddRange.v4 f t el ∈ calls → f ≤ ip → ip ≤ t →
      (Db.build calls).findV4 ip = el) ∧
    (∀ f t el ip, AddRange.v6 f t el ∈ calls → IPv6.le f ip = true → IPv6.le ip t = true →
      (Db.build calls).findV6 ip = el) ∧
    (∀ a b c el1 el2, AddRange.v4 a b el1 ∈ calls → AddRange.v4 (b + 1) c el2 ∈ calls →
      (Db.build calls).findV4 b = el1 ∧ (Db.build calls).findV4 (b + 1) = el2) := by
  refine ⟨?_, ?_, ?_⟩
  · intro f t el ip hc h1 h2
    exact findV4_hit calls h4le h4dis ⟨f, t, el⟩ (mem_callsV4 hc) ip h1 h2
  · intro f t el ip hc h1 h2
    exact findV6_hit calls h6le h6dis ⟨f, t, el⟩ (mem_callsV6 hc) ip h1 h2
  · intro a b c el1 el2 hc1 hc2
    have hab : a ≤ b := h4le _ (mem_callsV4 hc1)
    have hbc : b + 1 ≤ c := h4le _ (mem_callsV4 hc2)
    exact ⟨findV4_hit calls h4le h4dis ⟨a, b, el1⟩ (mem_callsV4 hc1) b hab (Nat.le_refl b),
      findV4_hit calls h4le h4dis ⟨b + 1, c, el2⟩ (mem_callsV4 hc2) (b + 1) (Nat.le_refl _) hbc⟩

theorem find_returns_added_element_witness :
    ((∀ d ∈ callsV4 exampleCalls, d.from_ ≤ d.to_) ∧
      (callsV4 exampleCalls).Pairwise DisjointV4 ∧
      (∀ d ∈ callsV6 exampleCalls, IPv6.le d.from_ d.to_ = true) ∧
      (callsV6 exampleCalls).Pairwise DisjointV6) ∧
    (Db.build exampleCalls).findV4 0x0100007F = ⟨1, 0, 0, "FRA", "", ""⟩ ∧
    (Db.build exampleCalls).findV4 0x01000080 = ⟨2, 0, 0, "DEU", "", ""⟩ ∧
    (Db.build exampleCalls).findV6 ⟨0x20010db800000000, 5⟩
      = ⟨3, 7, 9, "USA", "CA", "Palo Alto"⟩ :=
  have h := find_returns_added_element exampleCalls (by decide) (by decide) (by decide)
    (by decide)
  ⟨⟨by decide, by decide, by decide, by decide⟩,
   (h.2.2 0x01000000 0x0100007F 0x010000FF ⟨1, 0, 0, "FRA", "", ""⟩ ⟨2, 0, 0, "DEU", "", ""⟩
      (by decide) (by decide)).1,
   (h.2.2 0x01000000 0x0100007F 0x010000FF ⟨1, 0, 0, "FRA", "", ""⟩ ⟨2, 0, 0, "DEU", "", ""⟩
      (by decide) (by decide)).2,
   h.2.1 ⟨0x20010db800000000, 0⟩ ⟨0x20010db8ffffffff, 0xffffffffffffffff⟩
      ⟨3, 7, 9, "USA", "CA", "Palo Alto"⟩ ⟨0x20010db800000000, 5⟩
      (by decide) (by decide) (by decide)⟩

theorem build_ipv4_inv (calls : List AddRange) :
    StdMap.Sorted ltV4 (Db.build calls).ipv4_ ∧ ∀ p ∈ (Db.build calls).ipv4_, p.1 = p.2.to_ := by
  rw [build_ipv4]
  refine ⟨StdMap.assignAll_sorted ltV4_strictTotal _ _ (by simp [StdMap.Sorted]), ?_⟩
  intro p hp
  rcases StdMap.assignAll_mem ltV4_strictTotal _ _ _ hp with h | ⟨d, _, h⟩
  · simp at h
  · rw [h]

theorem build_ipv6_inv (calls : List AddRange) :
    StdMap.Sorted IPv6.lt (Db.build calls).ipv6_ ∧
      ∀ p ∈ (Db.build calls).ipv6_, p.1 = p.2.to_ := by
  rw [build_ipv6]
  refine ⟨StdMap.assignAll_sorted IPv6.lt_strictTotal _ _ (by simp [StdMap.Sorted]), ?_⟩
  intro p hp
  rcases StdMap.assignAll_mem IPv6.lt_strictTotal _ _ _ hp with h | ⟨d, _, h⟩
  · simp at h
  · rw [h]

theorem findV4_none (calls : List AddRange) (ip : IPv4)
    (h : ∀ e ∈ (Db.build calls).entriesV4, e.to_ < ip) :
    (Db.build calls).findV4 ip = Element.empty := by
  have hinv := (build_ipv4_inv calls).2
  have : StdMap.lower_bound ltV4 ip (Db.build calls).ipv4_ = none := by
    rw [StdMap.lower_bound_eq_none]
    intro p hp
    have := h p.2 (List.mem_map_of_mem _ hp)
    rw [hinv p hp]; simpa [ltV4] using this
  simp [Db.findV4, this, build_empty]

theorem findV4_least (calls : List AddRange) (ip : IPv4) (e : IPv4Data)
    (he : e ∈ (Db.build calls).entriesV4) (h1 : ip ≤ e.to_)
    (hmin : ∀ e2 ∈ (Db.build calls).entriesV4, ip ≤ e2.to_ → e.to_ ≤ e2.to_) :
    (Db.build calls).findV4 ip = if e.from_ ≤ ip then e.el else Element.empty := by
  obtain ⟨hs, hinv⟩ := build_ipv4_inv calls
  obtain ⟨p, hp, rfl⟩ := List.mem_map.1 he
  have : StdMap.lower_bound ltV4 ip (Db.build calls).ipv4_ = some p := by
    refine StdMap.lower_bound_eq_some ltV4_strictTotal ip _ p hs hp ?_ ?_
    · rw [hinv p hp]; simpa [ltV4] using h1
    · intro e2 he2 hk
      rw [hinv e2 he2] at hk ⊢
      rw [hinv p hp]
      have := hmin e2.2 (List.mem_map_of_mem _ he2) (by simpa [ltV4] using hk)
      simpa [ltV4] using this
  simp [Db.findV4, this, build_empty]

theorem findV6_none (calls : List AddRange) (ip : IPv6)
    (h : ∀ e ∈ (Db.build calls).entriesV6, IPv6.ge e.to_ ip = false) :
    (Db.build calls).findV6 ip = Element.empty := by
  have hinv := (build_ipv6_inv calls).2
  have : StdMap.lower_bound IPv6.lt ip (Db.build calls).ipv6_ = none := by
    rw [StdMap.lower_bound_eq_none]
    intro p hp
    have := h p.2 (List.mem_map_of_mem _ hp)
    rw [hinv p hp]
    cases hlt : IPv6.lt p.2.to_ ip
    · rw [(IPv6.ge_iff_not_lt _ _).2 hlt] at this; exact absurd this (by simp)
    · rfl
  simp [Db.findV6, this, build_empty]

theorem findV6_least (calls : List AddRange) (ip : IPv6) (e : IPv6Data)
    (he : e ∈ (Db.build calls).entriesV6) (h1 : IPv6.ge e.to_ ip = true)
    (hmin : ∀ e2 ∈ (Db.build calls).entriesV6, IPv6.ge e2.to_ ip = true →
      IPv6.le e.to_ e2.to_ = true) :
    (Db.build calls).findV6 ip
      = if IPv6.le e.from_ ip = true then e.el else Element.empty := by
  obtain ⟨hs, hinv⟩ := build_ipv6_inv calls
  obtain ⟨p, hp, rfl⟩ := List.mem_map.1 he
  have : StdMap.lower_bound IPv6.lt ip (Db.build calls).ipv6_ = some p := by
    refine StdMap.lower_bound_eq_some IPv6.lt_strictTotal ip _ p hs hp ?_ ?_
    · rw [hinv p hp]; exact (IPv6.ge_iff_not_lt _ _).1 h1
    · intro e2 he2 hk
      rw [hinv e2 he2] at hk ⊢
      rw [hinv p hp]
      exact (IPv6.le_iff_not_lt _ _).1
        (hmin e2.2 (List.mem_map_of_mem _ he2) ((IPv6.ge_iff_not_lt _ _).2 hk))
  simp [Db.findV6, this, build_empty]

/-- C2: in every snapshot, `find ip` goes by the stored entry with the smallest `to` that
is `>= ip`: when no stored entry has `to >= ip` the result is the empty Element; when `e`
is that entry the result is `e.el` if `e.from <= ip` and the empty Element otherwise. The
IPv6 overload does the same under the order of `operator<` on `(hi, lo)`. The empty
Element has its three ids 0 and its three strings empty. -/
theorem find_lower_bound_semantics (calls : List AddRange) :
    (∀ ip : IPv4, (∀ e ∈ (Db.build calls).entriesV4, ¬ ip ≤ e.to_) →
      (Db.build calls).findV4 ip = Element.empty) ∧
    (∀ (ip : IPv4) (e : IPv4Data), e ∈ (Db.build calls).entriesV4 → ip ≤ e.to_ →
      (∀ e2 ∈ (Db.build calls).entriesV4, ip ≤ e2.to_ → e.to_ ≤ e2.to_) →
      (Db.build calls).findV4 ip = if e.from_ ≤ ip then e.el else Element.empty) ∧
    (∀ ip : IPv6, (∀ e ∈ (Db.build calls).entriesV6, IPv6.ge e.to_ ip = false) →
      (Db.build calls).findV6 ip = Element.empty) ∧
    (∀ (ip : IPv6) (e : IPv6Data), e ∈ (Db.build calls).entriesV6 →
      IPv6.ge e.to_ ip = true →
      (∀ e2 ∈ (Db.build calls).entriesV6, IPv6.ge e2.to_ ip = true →
        IPv6.le e.to_ e2.to_ = true) →
      (Db.build calls).findV6 ip
        = if IPv6.le e.from_ ip = true then e.el else Element.empty) ∧
    Element.empty = ⟨0, 0, 0, "", "", ""⟩ := by
  refine ⟨?_, ?_, ?_, ?_, rfl⟩
  · intro ip h
    exact findV4_none calls ip (fun e he => Nat.lt_of_not_le (h e he))
  · intro ip e he h1 hmin
    exact findV4_least calls ip e he h1 hmin
  · intro ip h
    exact findV6_none calls ip h
  · intro ip e he h1 hmin
    exact findV6_least calls ip e he h1 hmin

theorem findV4_miss (calls : List AddRange) (ip : IPv4)
    (h : ∀ e ∈ (Db.build calls).entriesV4, ¬ (e.from_ ≤ ip ∧ ip ≤ e.to_)) :
    (Db.build calls).findV4 ip = Element.empty := by
  have hinv := (build_ipv4_inv calls).2
  unfold Db.findV4
  rw [build_empty]
  split
  · rename_i k el hlb
    have h0 := StdMap.lower_bound_some _ _ _ hlb
    have hk : ip ≤ el.to_ := by
      have := h0.2
      rw [hinv _ h0.1] at this
      simpa [ltV4] using this
    have := h el (List.mem_map_of_mem Prod.snd h0.1)
    split
    · rename_i hf
      exact absurd ⟨hf, hk⟩ this
    · rfl
  · rfl

theorem findV6_miss (calls : List AddRange) (ip : IPv6)
    (h : ∀ e ∈ (Db.build calls).entriesV6,
      ¬ (IPv6.le e.from_ ip = true ∧ IPv6.le ip e.to_ = true)) :
    (Db.build calls).findV6 ip = Element.empty := by
  have hinv := (build_ipv6_inv calls).2
  unfold Db.findV6
  rw [build_empty]
  split
  · rename_i k el hlb
    have h0 := StdMap.lower_bound_some _ _ _ hlb
    have hk : IPv6.le ip el.to_ = true := by
      have := h0.2
      rw [hinv _ h0.1] at this
      exact (IPv6.le_iff_not_lt _ _).2 this
    have := h el (List.mem_map_of_mem Prod.snd h0.1)
    split
    · rename_i hf
      exact absurd ⟨hf, hk⟩ this
    · rfl
  · rfl

/-- C4: in every snapshot, with no assumption of disjointness and the empty snapshot
included, an address that lies in none of the stored intervals `[from, to]` is answered
with the empty Element, for IPv4 and for IPv6; in particular the address one below the
smallest stored `from`, and every address above the largest stored `to`. -/
theorem find_outside_all_ranges_is_empty (calls : List AddRange) :
    (∀ ip : IPv4, (∀ e ∈ (Db.build calls).entriesV4, ¬ (e.from_ ≤ ip ∧ ip ≤ e.to_)) →
      (Db.build calls).findV4 ip = Element.empty) ∧
    (∀ ip : IPv6, (∀ e ∈ (Db.build calls).entriesV6,
        ¬ (IPv6.le e.from_ ip = true ∧ IPv6.le ip e.to_ = true)) →
      (Db.build calls).findV6 ip = Element.empty) ∧
    (∀ (ip : IPv4) (r : IPv4Data), r ∈ (Db.build calls).entriesV4 →
      (∀ e ∈ (Db.build calls).entriesV4, r.from_ ≤ e.from_) → ip + 1 = r.from_ →
      (Db.build calls).findV4 ip = Element.empty) ∧
    (∀ ip : IPv4, (∀ e ∈ (Db.build calls).entriesV4, e.to_ < ip) →
      (Db.build calls).findV4 ip = Element.empty) ∧
    (∀ ip : IPv6, (∀ e ∈ (Db.build calls).entriesV6, IPv6.lt e.to_ ip = true) →
      (Db.build calls).findV6 ip = Element.empty) ∧
    (∀ ip : IPv4, (Db.build []).findV4 ip = Element.empty) ∧
    (∀ ip : IPv6, (Db.build []).findV6 ip = Element.empty) := by
  refine ⟨findV4_miss calls, findV6_miss calls, ?_, ?_, ?_, ?_, ?_⟩
  · intro ip r _ hmin hip
    refine findV4_miss calls ip ?_
    intro e he hin
    have h1 : ip + 1 ≤ r.from_ := Nat.le_of_eq hip
    exact absurd (Nat.le_trans h1 (Nat.le_trans (hmin e he) hin.1)) (Nat.not_succ_le_self ip)
  · intro ip h
    refine findV4_miss calls ip ?_
    intro e he hin
    exact absurd (Nat.lt_of_lt_of_le (h e he) hin.2) (Nat.lt_irrefl _)
  · intro ip h
    refine findV6_miss calls ip ?_
    intro e he hin
    have h1 := h e he
    rw [(IPv6.le_iff_not_lt _ _).1 hin.2] at h1
    exact absurd h1 (by simp)
  · intro ip; rfl
  · intro ip; rfl

theorem find_lower_bound_semantics_witness :
    (Db.build exampleCalls).findV4 0x01000010 = ⟨1, 0, 0, "FRA", "", ""⟩ ∧
    (Db.build exampleCalls).findV4 0x00ffffff = Element.empty ∧
    (Db.build exampleCalls).findV4 0x01000100 = Element.empty ∧
    (Db.build exampleCalls).findV6 ⟨0x20010db900000000, 0⟩ = Element.empty :=
  have h := find_lower_bound_semantics exampleCalls
  ⟨h.2.1 0x01000010 ⟨0x01000000, 0x0100007F, ⟨1, 0, 0, "FRA", "", ""⟩⟩
      (by decide) (by decide) (by decide),
   h.2.1 0x00ffffff ⟨0x01000000, 0x0100007F, ⟨1, 0, 0, "FRA", "", ""⟩⟩
      (by decide) (by decide) (by decide),
   h.1 0x01000100 (by decide),
   h.2.2.1 ⟨0x20010db900000000, 0⟩ (by decide)⟩

theorem find_outside_all_ranges_is_empty_witness :
    (Db.build exampleCalls).findV4 0x00ffffff = Element.empty ∧
    (Db.build exampleCalls).findV4 0x01000100 = Element.empty ∧
    (Db.build exampleCalls).findV6 ⟨0x20010db700000000, 0⟩ = Element.empty :=
  have h := find_outside_all_ranges_is_empty exampleCalls
  ⟨h.2.2.1 0x00ffffff ⟨0x01000000, 0x0100007F, ⟨1, 0, 0, "FRA", "", ""⟩⟩
      (by decide) (by decide) (by decide),
   h.2.2.2.1 0x01000100 (by decide),
   h.2.1 ⟨0x20010db700000000, 0⟩ (by decide)⟩

end GeoDb

namespace GeoParser

open GeoDb

theorem foldl_addRangeV4 (es : List protobuf.IPv4Range) (db : Db) :
    (es.foldl (fun (db : Db) e =>
      db.addRangeV4 e.from_ e.to_ e.country_id e.state_id e.city_id
        e.country_key e.state_key e.city_name) db).ipv4_
      = StdMap.assignAll ltV4 IPv4Data.to_ (emittedV4 ⟨es, []⟩) db.ipv4_ ∧
    (es.foldl (fun (db : Db) e =>
      db.addRangeV4 e.from_ e.to_ e.country_id e.state_id e.city_id
        e.country_key e.state_key e.city_name) db).ipv6_ = db.ipv6_ := by
  induction es generalizing db with
  | nil => simp [emittedV4, StdMap.assignAll]
  | cons e es ih =>
    simp only [List.foldl_cons]
    rw [(ih _).1, (ih _).2]
    simp [emittedV4, StdMap.assignAll, Db.addRangeV4, intern_snd]

theorem foldl_addRangeV6 (es : List protobuf.IPv6Range) (db : Db) :
    (es.foldl (fun (db : Db) e =>
      db.addRangeV6 ⟨e.from_hi, e.from_lo⟩ ⟨e.to_hi, e.to_lo⟩ e.country_id e.state_id
        e.city_id e.country_key e.state_key e.city_name) db).ipv6_
      = StdMap.assignAll IPv6.lt IPv6Data.to_ (emittedV6 ⟨[], es⟩) db.ipv6_ ∧
    (es.foldl (fun (db : Db) e =>
      db.addRangeV6 ⟨e.from_hi, e.from_lo⟩ ⟨e.to_hi, e.to_lo⟩ e.country_id e.state_id
        e.city_id e.country_key e.state_key e.city_name) db).ipv4_ = db.ipv4_ := by
  induction es generalizing db with
  | nil => simp [emittedV6, StdMap.assignAll]
  | cons e es ih =>
    simp only [List.foldl_cons]
    rw [(ih _).1, (ih _).2]
    simp [emittedV6, StdMap.assignAll, Db.addRangeV6, intern_snd]

theorem loadDb_tables (geo : protobuf.Geo) :
    (loadDb geo).ipv4_ = StdMap.assignAll ltV4 IPv4Data.to_ (emittedV4 geo) [] ∧
    (loadDb geo).ipv6_ = StdMap.assignAll IPv6.lt IPv6Data.to_ (emittedV6 geo) [] := by
  unfold loadDb
  refine ⟨?_, ?_⟩
  · rw [(foldl_addRangeV6 _ _).2, (foldl_addRangeV4 _ _).1]; rfl
  · rw [(foldl_addRangeV6 _ _).1, (foldl_addRangeV4 _ _).2]; rfl

theorem assignAll_values_pairwise {K D : Type} {lt : K → K → Bool} (h : StrictTotal lt)
    (key : D → K) (R : D → D → Prop) (hsym : Symmetric R) (ds : List D)
    (hR : ds.Pairwise R) : ((StdMap.assignAll lt key ds []).map Prod.snd).Pairwise R := by
  rw [List.pairwise_map]
  have hs : StdMap.Sorted lt (StdMap.assignAll lt key ds []) :=
    StdMap.assignAll_sorted h ds [] (by simp [StdMap.Sorted])
  refine List.Pairwise.imp_of_mem ?_ hs
  intro a b ha hb hab
  rcases StdMap.assignAll_mem h ds [] a ha with h1 | ⟨da, hda, h1⟩
  · simp at h1
  rcases StdMap.assignAll_mem h ds [] b hb with h2 | ⟨d2, hd2, h2⟩
  · simp at h2
  subst h1; subst h2
  refine hR.forall hsym hda hd2 ?_
  intro heq
  simp only at hab
  rw [heq, h.irrefl] at hab
  exact absurd hab (by simp)

/-- C3 (counterexample): on two blocks rows whose networks are nested, `10.0.0.0/8` and
`10.1.0.0/16`, the Builder emits both ranges and the snapshot loaded from them stores two
entries that overlap. -/
theorem builder_snapshot_not_disjoint :
    loadIPv4Blocks atoi atoui exampleCodeTransf exampleLocations ⟨[], []⟩ blocksFields
      nestedRows = .ok nestedGeo ∧
    ¬ SnapshotDisjoint (loadDb nestedGeo) :=
  ⟨rfl, by decide⟩

/-- C3 (amended): a snapshot loaded through `addRange` from the emitted ranges satisfies
the invariant, any two distinct stored entries have disjoint intervals, whenever the
emitted ranges of each table are themselves pairwise disjoint. -/
theorem loaded_snapshot_disjoint_of_emitted_disjoint (geo : protobuf.Geo)
    (h4 : (emittedV4 geo).Pairwise DisjointV4)
    (h6 : (emittedV6 geo).Pairwise DisjointV6) :
    SnapshotDisjoint (loadDb geo) := by
  unfold SnapshotDisjoint Db.entriesV4 Db.entriesV6
  rw [(loadDb_tables geo).1, (loadDb_tables geo).2]
  exact ⟨assignAll_values_pairwise ltV4_strictTotal _ _ (fun a b hab => hab.symm) _ h4,
    assignAll_values_pairwise IPv6.lt_strictTotal _ _ (fun a b hab => hab.symm) _ h6⟩

theorem loaded_snapshot_disjoint_of_emitted_disjoint_witness :
    ((emittedV4 disjointGeo).Pairwise DisjointV4 ∧
      (emittedV6 disjointGeo).Pairwise DisjointV6) ∧
    SnapshotDisjoint (loadDb disjointGeo) :=
  ⟨⟨by decide, by decide⟩,
   loaded_snapshot_disjoint_of_emitted_disjoint disjointGeo (by decide) (by decide)⟩

end GeoParser

namespace GeoDb

/-! ## Masks -/

theorem or_low_ones (x k : Nat) : x ||| (2 ^ k - 1) = 2 ^ k * (x / 2 ^ k) + (2 ^ k - 1) := by
  apply Nat.eq_of_testBit_eq
  intro j
  have hlt : 2 ^ k - 1 < 2 ^ k := Nat.sub_lt (Nat.two_pow_pos k) (by decide)
  rw [Nat.testBit_mul_pow_two_add _ hlt, Nat.testBit_or, Nat.testBit_two_pow_sub_one]
  by_cases hj : j < k
  · simp [hj]
  · have : k + (j - k) = j := by omega
    simp [hj, ← Nat.shiftRight_eq_div_pow, Nat.testBit_shiftRight, this]

theorem two_pow_sub_two_pow (k w : Nat) (hk : k ≤ w) :
    2 ^ w - 2 ^ k = 2 ^ k * (2 ^ (w - k) - 1) := by
  rw [Nat.mul_sub, ← Nat.pow_add, Nat.add_sub_cancel' hk, Nat.mul_one]

theorem testBit_high_ones (k w j : Nat) (hk : k ≤ w) :
    (2 ^ w - 2 ^ k).testBit j = decide (k ≤ j ∧ j < w) := by
  rw [two_pow_sub_two_pow k w hk, Nat.testBit_mul_pow_two, Nat.testBit_two_pow_sub_one]
  by_cases h1 : k ≤ j
  · by_cases h2 : j < w
    · have : j - k < w - k := by omega
      simp [h1, h2, this]
    · have : ¬ j - k < w - k := by omega
      simp [h1, h2, this]
  · simp [h1]

theorem and_high_ones (x k w : Nat) (hk : k ≤ w) (hx : x < 2 ^ w) :
    x &&& (2 ^ w - 2 ^ k) = 2 ^ k * (x / 2 ^ k) := by
  apply Nat.eq_of_testBit_eq
  intro j
  rw [Nat.testBit_and, testBit_high_ones k w j hk, Nat.testBit_mul_pow_two,
    ← Nat.shiftRight_eq_div_pow, Nat.testBit_shiftRight]
  by_cases h1 : k ≤ j
  · have h3 : k + (j - k) = j := by omega
    by_cases h2 : j < w
    · simp [h1, h2, h3]
    · have : x.testBit j = false :=
        Nat.testBit_lt_two_pow (Nat.lt_of_lt_of_le hx (Nat.pow_le_pow_right (by decide) (by omega)))
      simp [h1, h2, h3, this]
  · simp [h1]

theorem shl_ones32 : ∀ k, k < 32 → (0xffffffff <<< k) % 2 ^ 32 = 2 ^ 32 - 2 ^ k := by decide
theorem shl_ones64 : ∀ k, k < 64 → (0xffffffffffffffff <<< k) % 2 ^ 64 = 2 ^ 64 - 2 ^ k := by decide

theorem shl32_ones (m : Nat) (h1 : 1 ≤ m) (h32 : m ≤ 32) :
    shl32 0xffffffff (32 - (m : Int)) = some (2 ^ 32 - 2 ^ (32 - m)) := by
  have hk : (32 - (m : Int)).toNat = 32 - m := by omega
  unfold shl32
  rw [if_pos (by omega), hk, shl_ones32 _ (by omega)]

theorem not32_high_ones (k : Nat) (hk : k ≤ 32) : not32 (2 ^ 32 - 2 ^ k) = 2 ^ k - 1 := by
  have h1 : 2 ^ k ≤ 2 ^ 32 := Nat.pow_le_pow_right (by decide) hk
  have h2 : 0 < 2 ^ k := Nat.two_pow_pos k
  unfold not32
  rw [Nat.mod_eq_of_lt (by omega)]
  omega

theorem ipv4FromStringLoop_lt (cs : List Char) (ip octet : Nat) (ho : octet < 2 ^ 32) :
    ipv4FromStringLoop cs ip octet < 2 ^ 32 := by
  induction cs generalizing ip octet with
  | nil => exact Nat.or_lt_two_pow (Nat.mod_lt _ (by decide)) ho
  | cons c cs ih =>
    simp only [ipv4FromStringLoop]
    split
    · exact ih _ _ (Nat.mod_lt _ (by decide))
    · split
      · exact ih _ _ (by decide)
      · decide

theorem ipv4FromString_lt (s : String) : ipv4FromString s < 2 ^ 32 :=
  ipv4FromStringLoop_lt _ _ _ (by decide)

/-- For a length `m` in `1 .. 32`, `net4ToRange` returns `(base & mask, base | ~mask)`
where `mask` has exactly the bits `32 - m .. 31` set. -/
theorem net4ToRange_of_length (atoi : String → Int) (net : String) (p m : Nat)
    (hp : memchr '/' net.data = some p)
    (hm : atoi (String.mk (net.data.drop (p + 1))) = (m : Int))
    (h1 : 1 ≤ m) (h32 : m ≤ 32) :
    net4ToRange atoi net
      = some (ipv4FromString (String.mk (net.data.take p)) &&& (2 ^ 32 - 2 ^ (32 - m)),
          ipv4FromString (String.mk (net.data.take p)) ||| not32 (2 ^ 32 - 2 ^ (32 - m))) ∧
    (∀ i, (2 ^ 32 - 2 ^ (32 - m)).testBit i = decide (32 - m ≤ i ∧ i < 32)) ∧
    (∀ i, (not32 (2 ^ 32 - 2 ^ (32 - m))).testBit i = decide (i < 32 - m)) := by
  refine ⟨?_, ?_, ?_⟩
  · simp only [net4ToRange, hp, hm, shl32_ones m h1 h32]
  · intro i; exact testBit_high_ones _ _ _ (by omega)
  · intro i; rw [not32_high_ones _ (by omega), Nat.testBit_two_pow_sub_one]

/-- For a length `m` in `1 .. 32`, the range returned by `net4ToRange` is
`[base - base mod 2^(32-m), base - base mod 2^(32-m) + 2^(32-m) - 1]`: it has
`from <= to` and holds `2^(32-m)` addresses. -/
theorem net4ToRange_count (atoi : String → Int) (net : String) (p m : Nat)
    (hp : memchr '/' net.data = some p)
    (hm : atoi (String.mk (net.data.drop (p + 1))) = (m : Int))
    (h1 : 1 ≤ m) (h32 : m ≤ 32) :
    ∃ from_ to_ : Nat, net4ToRange atoi net = some (from_, to_) ∧ from_ ≤ to_ ∧
      to_ - from_ + 1 = 2 ^ (32 - m) ∧ to_ < 2 ^ 32 := by
  have hb := ipv4FromString_lt (String.mk (net.data.take p))
  have h2 : 0 < 2 ^ (32 - m) := Nat.two_pow_pos _
  have h3 : 2 ^ (32 - m) ≤ 2 ^ 32 := Nat.pow_le_pow_right (by decide) (by omega)
  refine ⟨_, _, (net4ToRange_of_length atoi net p m hp hm h1 h32).1, ?_, ?_, ?_⟩
  · rw [not32_high_ones _ (by omega), or_low_ones, and_high_ones _ _ 32 (by omega) hb]
    exact Nat.le_add_right _ _
  · rw [not32_high_ones _ (by omega), or_low_ones, and_high_ones _ _ 32 (by omega) hb]
    generalize 2 ^ (32 - m) * (_ / 2 ^ (32 - m)) = q
    generalize 2 ^ (32 - m) = b at h2 ⊢
    omega
  · rw [not32_high_ones _ (by omega)]
    refine Nat.or_lt_two_pow hb ?_
    generalize 2 ^ (32 - m) = b at h2 h3 ⊢
    omega

theorem shl64_ones (k : Nat) (hk : k < 64) (n : Int) (hn : n = (k : Int)) :
    shl64 0xffffffffffffffff n = some (2 ^ 64 - 2 ^ k) := by
  subst hn
  unfold shl64
  rw [if_pos (by omega), Int.toNat_ofNat, shl_ones64 _ hk]

theorem net6Masks_hi (m : Nat) (h1 : 1 ≤ m) (h64 : m ≤ 64) :
    net6Masks (m : Int) = some (2 ^ 64 - 2 ^ (64 - m), 0) := by
  unfold net6Masks
  rw [if_neg (by omega), shl64_ones (64 - m) (by omega) _ (by omega)]
  rfl

theorem net6Masks_lo (m : Nat) (h65 : 65 ≤ m) (h128 : m ≤ 128) :
    net6Masks (m : Int) = some (2 ^ 64 - 1, 2 ^ 64 - 2 ^ (128 - m)) := by
  unfold net6Masks
  rw [if_pos (by omega), shl64_ones (128 - m) (by omega) _ (by omega)]
  rfl

theorem not64_high_ones (k : Nat) (hk : k ≤ 64) : not64 (2 ^ 64 - 2 ^ k) = 2 ^ k - 1 := by
  have h1 : 2 ^ k ≤ 2 ^ 64 := Nat.pow_le_pow_right (by decide) hk
  have h2 : 0 < 2 ^ k := Nat.two_pow_pos k
  unfold not64
  rw [Nat.mod_eq_of_lt (by omega)]
  omega

theorem pushByte_lt (ip byte : Nat) (hb : byte < 256) : pushByte ip byte < 2 ^ 64 :=
  Nat.or_lt_two_pow (Nat.mod_lt _ (by decide)) (Nat.lt_trans hb (by decide))

theorem foldl_pushByte_lt (b : Nat → Nat) (hb : ∀ i, b i < 256) (l : List Nat) (init : Nat)
    (h0 : init < 2 ^ 64) : l.foldl (fun ip i => pushByte ip (b i)) init < 2 ^ 64 := by
  induction l generalizing init with
  | nil => exact h0
  | cons i l ih => exact ih _ (pushByte_lt _ _ (hb i))

theorem ipv6FromString_lt (inet_pton6 : String → Option (List Nat)) (s : String) :
    (ipv6FromString inet_pton6 s).hi < 2 ^ 64 ∧ (ipv6FromString inet_pton6 s).lo < 2 ^ 64 := by
  unfold ipv6FromString
  split
  · exact ⟨by decide, by decide⟩
  · rename_i bytes _
    have hb : ∀ i, bytes.getD i 0 % 256 < 256 := fun i => Nat.mod_lt _ (by decide)
    exact ⟨foldl_pushByte_lt _ hb _ _ (Nat.lt_trans (hb 0) (by decide)),
      foldl_pushByte_lt _ hb _ _ (Nat.lt_trans (hb 8) (by decide))⟩


theorem mask128_hi (m : Nat) (h64 : m ≤ 64) :
    (2 ^ 64 - 2 ^ (64 - m)) * 2 ^ 64 + 0 = 2 ^ 128 - 2 ^ (128 - m) := by
  have h : 128 - m = 64 - m + 64 := by omega
  rw [Nat.add_zero, Nat.sub_mul, ← Nat.pow_add, ← Nat.pow_add, h]

theorem mask128_lo (m : Nat) (h65 : 65 ≤ m) (h128 : m ≤ 128) :
    (2 ^ 64 - 1) * 2 ^ 64 + (2 ^ 64 - 2 ^ (128 - m)) = 2 ^ 128 - 2 ^ (128 - m) := by
  have h1 : 2 ^ (128 - m) ≤ 2 ^ 64 := Nat.pow_le_pow_right (by decide) (by omega)
  generalize 2 ^ (128 - m) = b at h1 ⊢
  omega

/-- For a length `m` in `1 .. 128`, `net6ToRange` returns, word by word,
`(base & mask, base | ~mask)` where the mask `hi * 2^64 + lo` has exactly the bits
`128 - m .. 127` set. -/
theorem net6ToRange_of_length (inet_pton6 : String → Option (List Nat))
    (atoi : String → Int) (net : String) (p m : Nat)
    (hp : memchr '/' net.data = some p)
    (hm : atoi (String.mk (net.data.drop (p + 1))) = (m : Int))
    (h1 : 1 ≤ m) (h128 : m ≤ 128) :
    ∃ hi lo : Nat,
      net6ToRange inet_pton6 atoi net
        = some (⟨(ipv6FromString inet_pton6 (String.mk (net.data.take p))).hi &&& hi,
                 (ipv6FromString inet_pton6 (String.mk (net.data.take p))).lo &&& lo⟩,
                ⟨(ipv6FromString inet_pton6 (String.mk (net.data.take p))).hi ||| not64 hi,
                 (ipv6FromString inet_pton6 (String.mk (net.data.take p))).lo ||| not64 lo⟩) ∧
      hi < 2 ^ 64 ∧ lo < 2 ^ 64 ∧
      ∀ i, (hi * 2 ^ 64 + lo).testBit i = decide (128 - m ≤ i ∧ i < 128) := by
  by_cases h64 : m ≤ 64
  · refine ⟨2 ^ 64 - 2 ^ (64 - m), 0, ?_, ?_, by decide, ?_⟩
    · simp only [net6ToRange, hp, hm, net6Masks_hi m h1 h64]
    · have h2 : 0 < 2 ^ (64 - m) := Nat.two_pow_pos _
      generalize 2 ^ (64 - m) = b at h2 ⊢
      omega
    · intro i
      rw [mask128_hi m h64]
      exact testBit_high_ones _ _ _ (by omega)
  · refine ⟨2 ^ 64 - 1, 2 ^ 64 - 2 ^ (128 - m), ?_, by decide, ?_, ?_⟩
    · simp only [net6ToRange, hp, hm, net6Masks_lo m (by omega) h128]
    · have h2 : 0 < 2 ^ (128 - m) := Nat.two_pow_pos _
      generalize 2 ^ (128 - m) = b at h2 ⊢
      omega
    · intro i
      rw [mask128_lo m (by omega) h128]
      exact testBit_high_ones _ _ _ (by omega)

/-- For a length `m` in `1 .. 128`, the range returned by `net6ToRange` has `from <= to`
and holds `2^(128-m)` addresses. -/
theorem net6ToRange_count (inet_pton6 : String → Option (List Nat))
    (atoi : String → Int) (net : String) (p m : Nat)
    (hp : memchr '/' net.data = some p)
    (hm : atoi (String.mk (net.data.drop (p + 1))) = (m : Int))
    (h1 : 1 ≤ m) (h128 : m ≤ 128) :
    ∃ from_ to_ : IPv6, net6ToRange inet_pton6 atoi net = some (from_, to_) ∧
      IPv6.le from_ to_ = true ∧ to_.toNat - from_.toNat + 1 = 2 ^ (128 - m) := by
  obtain ⟨hbh, hbl⟩ := ipv6FromString_lt inet_pton6 (String.mk (net.data.take p))
  generalize hbase : ipv6FromString inet_pton6 (String.mk (net.data.take p)) = base at hbh hbl
  by_cases h64 : m ≤ 64
  · have h2 : 0 < 2 ^ (64 - m) := Nat.two_pow_pos _
    have h3 : 128 - m = 64 - m + 64 := by omega
    have hto : base.lo ||| not64 0 = 2 ^ 64 - 1 := by
      have : not64 0 = 2 ^ 64 - 1 := by decide
      rw [this, or_low_ones, Nat.div_eq_of_lt hbl, Nat.mul_zero, Nat.zero_add]
    refine ⟨⟨base.hi &&& (2 ^ 64 - 2 ^ (64 - m)), base.lo &&& 0⟩,
      ⟨base.hi ||| not64 (2 ^ 64 - 2 ^ (64 - m)), base.lo ||| not64 0⟩, ?_, ?_, ?_⟩
    · simp only [net6ToRange, hp, hm, net6Masks_hi m h1 h64, hbase]
    · rw [IPv6.le_iff]
      simp only [not64_high_ones _ (Nat.sub_le 64 m), or_low_ones,
        and_high_ones _ _ 64 (Nat.sub_le 64 m) hbh, Nat.and_zero]
      omega
    · simp only [IPv6.toNat, not64_high_ones _ (Nat.sub_le 64 m), or_low_ones,
        and_high_ones _ _ 64 (Nat.sub_le 64 m) hbh, Nat.and_zero, hto]
      rw [h3, Nat.pow_add]
      generalize 2 ^ (64 - m) * (base.hi / 2 ^ (64 - m)) = q
      generalize 2 ^ (64 - m) = b at h2 ⊢
      rw [Nat.add_mul]
      generalize q * 2 ^ 64 = q1
      have : (b - 1) * 2 ^ 64 + 2 ^ 64 = b * 2 ^ 64 := by
        rw [← Nat.succ_mul]; congr 1; omega
      generalize (b - 1) * 2 ^ 64 = q2 at this ⊢
      generalize b * 2 ^ 64 = q3 at this ⊢
      omega
  · have h2 : 0 < 2 ^ (128 - m) := Nat.two_pow_pos _
    have hk : 128 - m ≤ 64 := by omega
    have hhi : base.hi &&& (2 ^ 64 - 1) = base.hi := by
      rw [Nat.and_pow_two_sub_one_eq_mod, Nat.mod_eq_of_lt hbh]
    have hhi2 : base.hi ||| not64 (2 ^ 64 - 1) = base.hi := by
      have : not64 (2 ^ 64 - 1) = 0 := by decide
      rw [this, Nat.or_zero]
    refine ⟨⟨base.hi &&& (2 ^ 64 - 1), base.lo &&& (2 ^ 64 - 2 ^ (128 - m))⟩,
      ⟨base.hi ||| not64 (2 ^ 64 - 1), base.lo ||| not64 (2 ^ 64 - 2 ^ (128 - m))⟩, ?_, ?_, ?_⟩
    · simp only [net6ToRange, hp, hm, net6Masks_lo m (by omega) h128, hbase]
    · rw [IPv6.le_iff, hhi, hhi2]
      simp only [not64_high_ones _ hk, or_low_ones, and_high_ones _ _ 64 hk hbl]
      exact Or.inr ⟨trivial, Nat.le_add_right _ _⟩
    · rw [hhi, hhi2]
      simp only [IPv6.toNat, not64_high_ones _ hk, or_low_ones,
        and_high_ones _ _ 64 hk hbl]
      generalize 2 ^ (128 - m) * (base.lo / 2 ^ (128 - m)) = q
      generalize 2 ^ (128 - m) = b at h2 ⊢
      omega


theorem net4ToRange_undefined (atoi : String → Int) (net : String) (p : Nat)
    (hp : memchr '/' net.data = some p)
    (hm : atoi (String.mk (net.data.drop (p + 1))) = 0) :
    net4ToRange atoi net = none := by
  simp only [net4ToRange, hp, hm]
  rfl

theorem net6ToRange_undefined (inet_pton6 : String → Option (List Nat))
    (atoi : String → Int) (net : String) (p : Nat)
    (hp : memchr '/' net.data = some p)
    (hm : atoi (String.mk (net.data.drop (p + 1))) = 0) :
    net6ToRange inet_pton6 atoi net = none := by
  simp only [net6ToRange, hp, hm]
  rfl

theorem net4ToRange_full_length (atoi : String → Int) (net : String) (p : Nat)
    (hp : memchr '/' net.data = some p)
    (hm : atoi (String.mk (net.data.drop (p + 1))) = 32) :
    net4ToRange atoi net = some (ipv4FromString (String.mk (net.data.take p)),
      ipv4FromString (String.mk (net.data.take p))) := by
  have hb := ipv4FromString_lt (String.mk (net.data.take p))
  have h1 : ipv4FromString (String.mk (net.data.take p)) &&& (2 ^ 32 - 1)
      = ipv4FromString (String.mk (net.data.take p)) := by
    rw [Nat.and_pow_two_sub_one_eq_mod, Nat.mod_eq_of_lt hb]
  have h2 : not32 (2 ^ 32 - 1) = 0 := by decide
  rw [(net4ToRange_of_length atoi net p 32 hp hm (by decide) (by decide)).1]
  show some (_ &&& (2 ^ 32 - 1), _ ||| not32 (2 ^ 32 - 1)) = _
  rw [h1, h2, Nat.or_zero]

theorem net6ToRange_full_length (inet_pton6 : String → Option (List Nat))
    (atoi : String → Int) (net : String) (p : Nat)
    (hp : memchr '/' net.data = some p)
    (hm : atoi (String.mk (net.data.drop (p + 1))) = 128) :
    net6ToRange inet_pton6 atoi net
      = some (ipv6FromString inet_pton6 (String.mk (net.data.take p)),
          ipv6FromString inet_pton6 (String.mk (net.data.take p))) := by
  obtain ⟨hbh, hbl⟩ := ipv6FromString_lt inet_pton6 (String.mk (net.data.take p))
  generalize hbase : ipv6FromString inet_pton6 (String.mk (net.data.take p)) = base at hbh hbl
  have h1 : ∀ x, x < 2 ^ 64 → x &&& (2 ^ 64 - 1) = x := by
    intro x hx
    rw [Nat.and_pow_two_sub_one_eq_mod, Nat.mod_eq_of_lt hx]
  have h2 : not64 (2 ^ 64 - 1) = 0 := by decide
  have hmask : net6Masks 128 = some (2 ^ 64 - 1, 2 ^ 64 - 1) := by decide
  simp only [net6ToRange, hp, hm, hmask, hbase]
  show some ((⟨base.hi &&& (2 ^ 64 - 1), base.lo &&& (2 ^ 64 - 1)⟩ : IPv6),
    (⟨base.hi ||| not64 (2 ^ 64 - 1), base.lo ||| not64 (2 ^ 64 - 1)⟩ : IPv6)) = _
  rw [h1 _ hbh, h1 _ hbl, h2, Nat.or_zero, Nat.or_zero]

/-- C5 (failing input): on every IPv4 CIDR text whose length reads 0, such as
`10.0.0.0/0`, the mask is computed by `0xffffffff << 32`, a shift by the full width of
the operand, which has no defined value; no `(base & mask, base | ~mask)` is returned. -/
theorem net4ToRange_length_zero_has_no_mask (atoi : String → Int) (net : String) (p : Nat)
    (hp : memchr '/' net.data = some p)
    (hm : atoi (String.mk (net.data.drop (p + 1))) = 0) :
    shl32 0xffffffff (32 - 0) = none ∧ net4ToRange atoi net = none :=
  ⟨rfl, net4ToRange_undefined atoi net p hp hm⟩

theorem net4ToRange_length_zero_has_no_mask_witness :
    (memchr '/' "10.0.0.0/0".data = some 8 ∧
      atoi (String.mk ("10.0.0.0/0".data.drop (8 + 1))) = 0) ∧
    net4ToRange atoi "10.0.0.0/0" = none ∧
    net4ToRange atoi "192.168.1.0/24" = some (0xC0A80100, 0xC0A801FF) :=
  ⟨⟨by decide, by decide⟩,
   (net4ToRange_length_zero_has_no_mask atoi "10.0.0.0/0" 8 (by decide) (by decide)).2,
   by decide⟩

/-- C6 (failing input): on every IPv6 CIDR text whose length reads 0, such as
`2001:db8::/0`, the `hi` mask is computed by `0xffffffffffffffff << 64`, a shift by the
full width of the operand, which has no defined value; no range is returned. -/
theorem net6ToRange_length_zero_has_no_mask (inet_pton6 : String → Option (List Nat))
    (atoi : String → Int) (net : String) (p : Nat)
    (hp : memchr '/' net.data = some p)
    (hm : atoi (String.mk (net.data.drop (p + 1))) = 0) :
    net6Masks 0 = none ∧ net6ToRange inet_pton6 atoi net = none :=
  ⟨rfl, net6ToRange_undefined inet_pton6 atoi net p hp hm⟩

theorem net6ToRange_length_zero_has_no_mask_witness :
    (memchr '/' "2001:db8::/0".data = some 10 ∧
      atoi (String.mk ("2001:db8::/0".data.drop (10 + 1))) = 0) ∧
    net6ToRange examplePton6 atoi "2001:db8::/0" = none ∧
    net6ToRange examplePton6 atoi "2001:db8::/32"
      = some (⟨0x20010db800000000, 0⟩, ⟨0x20010db8ffffffff, 0xffffffffffffffff⟩) :=
  ⟨⟨by decide, by decide⟩,
   (net6ToRange_length_zero_has_no_mask examplePton6 atoi "2001:db8::/0" 10 (by decide)
      (by decide)).2,
   by decide⟩

/-- C7 (failing input): the two `/0` boundary cases have no defined result, for every
base address, because the mask shift is by the full operand width; the `/32` and `/128`
cases return `from = to = addr`. -/
theorem boundary_lengths (inet_pton6 : String → Option (List Nat)) (atoi : String → Int)
    (net : String) (p : Nat) (hp : memchr '/' net.data = some p) :
    (atoi (String.mk (net.data.drop (p + 1))) = 0 →
      net4ToRange atoi net = none ∧ net6ToRange inet_pton6 atoi net = none) ∧
    (atoi (String.mk (net.data.drop (p + 1))) = 32 →
      net4ToRange atoi net = some (ipv4FromString (String.mk (net.data.take p)),
        ipv4FromString (String.mk (net.data.take p)))) ∧
    (atoi (String.mk (net.data.drop (p + 1))) = 128 →
      net6ToRange inet_pton6 atoi net
        = some (ipv6FromString inet_pton6 (String.mk (net.data.take p)),
            ipv6FromString inet_pton6 (String.mk (net.data.take p)))) :=
  ⟨fun hm => ⟨net4ToRange_undefined atoi net p hp hm,
      net6ToRange_undefined inet_pton6 atoi net p hp hm⟩,
   fun hm => net4ToRange_full_length atoi net p hp hm,
   fun hm => net6ToRange_full_length inet_pton6 atoi net p hp hm⟩

theorem boundary_lengths_witness :
    memchr '/' "2001:db8::/0".data = some 10 ∧
    net4ToRange atoi "2001:db8::/0" = none ∧
    net6ToRange examplePton6 atoi "2001:db8::/0" = none :=
  ⟨by decide,
   ((boundary_lengths examplePton6 atoi "2001:db8::/0" 10 (by decide)).1 (by decide)).1,
   ((boundary_lengths examplePton6 atoi "2001:db8::/0" 10 (by decide)).1 (by decide)).2⟩

/-- C8 (failing input): at length 0 neither `net4ToRange` nor `net6ToRange` returns a
pair `(from, to)`, so there is no range of `2^32` or `2^128` addresses. -/
theorem length_zero_returns_no_range (inet_pton6 : String → Option (List Nat))
    (atoi : String → Int) (net : String) (p : Nat)
    (hp : memchr '/' net.data = some p)
    (hm : atoi (String.mk (net.data.drop (p + 1))) = 0) :
    (∀ r, net4ToRange atoi net ≠ some r) ∧ (∀ r, net6ToRange inet_pton6 atoi net ≠ some r) := by
  rw [net4ToRange_undefined atoi net p hp hm, net6ToRange_undefined inet_pton6 atoi net p hp hm]
  exact ⟨fun r h => Option.noConfusion h, fun r h => Option.noConfusion h⟩

theorem length_zero_returns_no_range_witness :
    (memchr '/' "0.0.0.0/0".data = some 7 ∧
      atoi (String.mk ("0.0.0.0/0".data.drop (7 + 1))) = 0) ∧
    (∀ r, net4ToRange atoi "0.0.0.0/0" ≠ some r) ∧
    (∀ r, net6ToRange examplePton6 atoi "0.0.0.0/0" ≠ some r) :=
  ⟨⟨by decide, by decide⟩,
   length_zero_returns_no_range examplePton6 atoi "0.0.0.0/0" 7 (by decide) (by decide)⟩


/-! ## Dotted quads -/

theorem digit_char (c : Char) (h : '0' ≤ c ∧ c ≤ '9') :
    c = Nat.digitChar (c.toNat - '0'.toNat) ∧ c.toNat - '0'.toNat < 10 := by
  have h1 : 48 ≤ c.toNat := by
    have := h.1
    rw [Char.le_def] at this
    exact this
  have h2 : c.toNat ≤ 57 := by
    have := h.2
    rw [Char.le_def] at this
    exact this
  have hc : c = Char.ofNat c.toNat := (Char.ofNat_toNat c).symm
  generalize c.toNat = n at *
  interval_cases n <;> subst hc <;> exact ⟨by decide, by decide⟩

theorem toDigitsCore_acc (fuel n : Nat) (ds : List Char) :
    Nat.toDigitsCore 10 fuel n ds = Nat.toDigitsCore 10 fuel n [] ++ ds := by
  induction fuel generalizing n ds with
  | zero => simp [Nat.toDigitsCore]
  | succ fuel ih =>
    simp only [Nat.toDigitsCore]
    split
    · simp
    · rw [ih, ih (n / 10) [_]]; simp

theorem toDigitsCore_fuel (n : Nat) : ∀ f1 f2, n < f1 → n < f2 →
    Nat.toDigitsCore 10 f1 n [] = Nat.toDigitsCore 10 f2 n [] := by
  induction n using Nat.strong_induction_on with
  | _ n ih =>
    intro f1 f2 h1 h2
    obtain ⟨g1, rfl⟩ : ∃ g, f1 = g + 1 := ⟨f1 - 1, by omega⟩
    obtain ⟨g2, rfl⟩ : ∃ g, f2 = g + 1 := ⟨f2 - 1, by omega⟩
    simp only [Nat.toDigitsCore]
    split
    · rfl
    · rw [toDigitsCore_acc g1, toDigitsCore_acc g2,
        ih (n / 10) (by omega) g1 g2 (by omega) (by omega)]

theorem toDigits_digit (k : Nat) (hk : k < 10) : Nat.toDigits 10 k = [Nat.digitChar k] := by
  simp [Nat.toDigits, Nat.toDigitsCore, Nat.div_eq_of_lt hk, Nat.mod_eq_of_lt hk]

theorem toDigits_snoc (n k : Nat) (hn : 0 < n) (hk : k < 10) :
    Nat.toDigits 10 (n * 10 + k) = Nat.toDigits 10 n ++ [Nat.digitChar k] := by
  have h1 : (n * 10 + k) / 10 = n := by omega
  have h2 : (n * 10 + k) % 10 = k := by omega
  have h3 : n ≠ 0 := by omega
  have e : Nat.toDigitsCore 10 (n * 10 + k + 1) (n * 10 + k) []
      = Nat.toDigitsCore 10 (n * 10 + k) n [Nat.digitChar k] := by
    simp only [Nat.toDigitsCore, h1, h2, h3, if_false]
  unfold Nat.toDigits
  rw [e, toDigitsCore_acc, toDigitsCore_fuel n (n * 10 + k) (n + 1) (by omega) (by omega)]

theorem foldl_digits_mono (ds : List Char) (acc : Nat) :
    acc ≤ ds.foldl (fun acc c => acc * 10 + (c.toNat - '0'.toNat)) acc := by
  induction ds generalizing acc with
  | nil => exact Nat.le_refl _
  | cons c ds ih =>
    refine Nat.le_trans ?_ (ih _)
    show acc ≤ acc * 10 + (c.toNat - '0'.toNat)
    omega

theorem decimalValue_snoc (ds : List Char) (c : Char) :
    decimalValue (ds ++ [c]) = decimalValue ds * 10 + (c.toNat - '0'.toNat) := by
  simp [decimalValue, List.foldl_append]

theorem toDigits_decimalValue (ds : List Char) (hne : ds ≠ [])
    (hd : ∀ c ∈ ds, '0' ≤ c ∧ c ≤ '9') (hz : NoLeadingZero ds) :
    Nat.toDigits 10 (decimalValue ds) = ds := by
  induction ds using List.reverseRecOn with
  | nil => exact absurd rfl hne
  | append_singleton ds c ih =>
    obtain ⟨hc, hk⟩ := digit_char c (hd c (by simp))
    rw [decimalValue_snoc]
    cases ds with
    | nil =>
      rw [show decimalValue [] = 0 from rfl, Nat.zero_mul, Nat.zero_add, toDigits_digit _ hk,
        ← hc]
      rfl
    | cons h t =>
      have hz2 : (h :: t).head? ≠ some '0' := by
        rcases hz with hz | hz
        · have := congrArg List.length hz
          simp at this
        · simpa using hz
      have hh : h ≠ '0' := by simpa using hz2
      obtain ⟨hhc, hhk⟩ := digit_char h (hd h (by simp))
      have hpos : 0 < decimalValue (h :: t) := by
        have h0 : h.toNat - '0'.toNat ≠ 0 := by
          intro h0
          rw [h0] at hhc
          exact hh hhc
        have := foldl_digits_mono t (0 * 10 + (h.toNat - '0'.toNat))
        simp only [decimalValue, List.foldl_cons]
        omega
      rw [toDigits_snoc _ _ hpos hk, ← hc,
        ih (by simp) (fun x hx => hd x (List.mem_append_left _ hx)) (Or.inr hz2)]

theorem loop_digits (ds : List Char) (hd : ∀ c ∈ ds, '0' ≤ c ∧ c ≤ '9') (rest : List Char)
    (ip acc : Nat)
    (hlt : ds.foldl (fun acc c => acc * 10 + (c.toNat - '0'.toNat)) acc < 2 ^ 32) :
    ipv4FromStringLoop (ds ++ rest) ip acc
      = ipv4FromStringLoop rest ip
          (ds.foldl (fun acc c => acc * 10 + (c.toNat - '0'.toNat)) acc) := by
  induction ds generalizing acc with
  | nil => rfl
  | cons c ds ih =>
    have hc := hd c (List.mem_cons_self _ _)
    have hm := foldl_digits_mono ds (acc * 10 + (c.toNat - '0'.toNat))
    simp only [List.foldl_cons] at hlt ⊢
    simp only [List.cons_append, ipv4FromStringLoop, if_pos hc]
    rw [Nat.mod_eq_of_lt (Nat.lt_of_le_of_lt hm hlt)]
    exact ih (fun x hx => hd x (List.mem_cons_of_mem _ hx)) _ hlt

theorem loop_dot (rest : List Char) (ip octet : Nat) :
    ipv4FromStringLoop ('.' :: rest) ip octet
      = ipv4FromStringLoop rest ((ip <<< 8) % 2 ^ 32 ||| octet) 0 := by
  rw [ipv4FromStringLoop, if_neg (by decide), if_pos rfl]

theorem shift_or_octet (x y : Nat) (hx : x < 2 ^ 24) (hy : y < 2 ^ 8) :
    (x <<< 8) % 2 ^ 32 ||| y = x * 2 ^ 8 + y := by
  rw [Nat.shiftLeft_eq, Nat.mod_eq_of_lt (by omega), Nat.mul_comm x, Nat.mul_add_lt_is_or hy]

theorem loop_octet (ds : List Char) (h : IsOctet ds) (rest : List Char) (ip : Nat) :
    ipv4FromStringLoop (ds ++ rest) ip 0 = ipv4FromStringLoop rest ip (decimalValue ds) :=
  loop_digits ds h.2.1 rest ip 0 (Nat.lt_of_le_of_lt h.2.2 (by decide))

theorem ipv4FromString_dottedQuad (a b c d : List Char)
    (ha : IsOctet a) (hb : IsOctet b) (hc : IsOctet c) (hd : IsOctet d) :
    ipv4FromString (dottedQuad a b c d)
      = (decimalValue a * 2 ^ 24 + decimalValue b * 2 ^ 16 + decimalValue c * 2 ^ 8
          + decimalValue d : Nat) := by
  have ha2 := ha.2.2
  have hb2 := hb.2.2
  have hc2 := hc.2.2
  have hd2 := hd.2.2
  have hd3 := fun ip => loop_octet d hd [] ip
  simp only [List.append_nil] at hd3
  unfold ipv4FromString dottedQuad
  simp only
  rw [loop_octet a ha, loop_dot, loop_octet b hb, loop_dot, loop_octet c hc, loop_dot, hd3]
  simp only [ipv4FromStringLoop]
  have e1 := shift_or_octet 0 (decimalValue a) (by decide) (by omega)
  rw [Nat.zero_mul, Nat.zero_add] at e1
  have e2 := shift_or_octet (decimalValue a) (decimalValue b) (by omega) (by omega)
  have e3 := shift_or_octet (decimalValue a * 2 ^ 8 + decimalValue b) (decimalValue c)
    (by omega) (by omega)
  have e4 := shift_or_octet ((decimalValue a * 2 ^ 8 + decimalValue b) * 2 ^ 8
    + decimalValue c) (decimalValue d) (by omega) (by omega)
  rw [e1, e2, e3, e4]
  show (_ : Nat) = _
  omega

theorem octets_of_value (va vb vc vd : Nat) (ha : va ≤ 255) (hb : vb ≤ 255) (hc : vc ≤ 255)
    (hd : vd ≤ 255) :
    ((va * 2 ^ 24 + vb * 2 ^ 16 + vc * 2 ^ 8 + vd) >>> 24) &&& 0xff = va ∧
    ((va * 2 ^ 24 + vb * 2 ^ 16 + vc * 2 ^ 8 + vd) >>> 16) &&& 0xff = vb ∧
    ((va * 2 ^ 24 + vb * 2 ^ 16 + vc * 2 ^ 8 + vd) >>> 8) &&& 0xff = vc ∧
    (va * 2 ^ 24 + vb * 2 ^ 16 + vc * 2 ^ 8 + vd) &&& 0xff = vd := by
  have h : ∀ x : Nat, x &&& 0xff = x % 2 ^ 8 := fun x => Nat.and_pow_two_sub_one_eq_mod x 8
  simp only [h, Nat.shiftRight_eq_div_pow]
  omega

theorem ipv4ToString_dottedQuad (a b c d : List Char)
    (ha : IsOctet a) (hb : IsOctet b) (hc : IsOctet c) (hd : IsOctet d)
    (ha0 : NoLeadingZero a) (hb0 : NoLeadingZero b) (hc0 : NoLeadingZero c)
    (hd0 : NoLeadingZero d) :
    ipv4ToString (ipv4FromString (dottedQuad a b c d)) = dottedQuad a b c d := by
  obtain ⟨h1, h2, h3, h4⟩ := octets_of_value _ _ _ _ ha.2.2 hb.2.2 hc.2.2 hd.2.2
  rw [ipv4FromString_dottedQuad a b c d ha hb hc hd]
  unfold ipv4ToString dottedQuad u32toa
  rw [h1, h2, h3, h4, toDigits_decimalValue a ha.1 ha.2.1 ha0,
    toDigits_decimalValue b hb.1 hb.2.1 hb0, toDigits_decimalValue c hc.1 hc.2.1 hc0,
    toDigits_decimalValue d hd.1 hd.2.1 hd0]
  simp

/-- C9 (counterexample): `01.2.3.4` is a dotted quad of four decimal octets with values
in `0 .. 255`, and `ipv4ToString (ipv4FromString "01.2.3.4")` is `1.2.3.4`, a different
string. -/
theorem ipv4_text_roundtrip_fails_on_leading_zero :
    (IsOctet "01".data ∧ IsOctet "2".data ∧ IsOctet "3".data ∧ IsOctet "4".data) ∧
    dottedQuad "01".data "2".data "3".data "4".data = "01.2.3.4" ∧
    ipv4ToString (ipv4FromString "01.2.3.4") = "1.2.3.4" ∧
    ipv4ToString (ipv4FromString "01.2.3.4") ≠ "01.2.3.4" := by
  decide

/-- C9 (amended): `ipv4ToString (ipv4FromString s) = s` for every dotted-quad string `s`
whose four decimal octets have values in `0 .. 255` and are written without leading
zeros. -/
theorem ipv4_text_roundtrip (a b c d : List Char)
    (ha : IsOctet a) (hb : IsOctet b) (hc : IsOctet c) (hd : IsOctet d)
    (ha0 : NoLeadingZero a) (hb0 : NoLeadingZero b) (hc0 : NoLeadingZero c)
    (hd0 : NoLeadingZero d) :
    ipv4ToString (ipv4FromString (dottedQuad a b c d)) = dottedQuad a b c d :=
  ipv4ToString_dottedQuad a b c d ha hb hc hd ha0 hb0 hc0 hd0

theorem ipv4_text_roundtrip_witness :
    ((IsOctet "192".data ∧ IsOctet "168".data ∧ IsOctet "1".data ∧ IsOctet "0".data) ∧
      NoLeadingZero "192".data ∧ NoLeadingZero "168".data ∧ NoLeadingZero "1".data ∧
      NoLeadingZero "0".data) ∧
    dottedQuad "192".data "168".data "1".data "0".data = "192.168.1.0" ∧
    ipv4ToString (ipv4FromString "192.168.1.0") = "192.168.1.0" :=
  ⟨by decide, by decide,
   ipv4_text_roundtrip "192".data "168".data "1".data "0".data (by decide) (by decide)
     (by decide) (by decide) (by decide) (by decide) (by decide) (by decide)⟩

/-- C10: for every dotted-quad string `a.b.c.d` whose four decimal octets have values in
`0 .. 255`, `ipv4FromString` returns `a*2^24 + b*2^16 + c*2^8 + d`, a value below `2^32`. -/
theorem ipv4FromString_big_endian (a b c d : List Char)
    (ha : IsOctet a) (hb : IsOctet b) (hc : IsOctet c) (hd : IsOctet d) :
    ipv4FromString (dottedQuad a b c d)
      = (decimalValue a * 2 ^ 24 + decimalValue b * 2 ^ 16 + decimalValue c * 2 ^ 8
          + decimalValue d : Nat) ∧
    ipv4FromString (dottedQuad a b c d) < 2 ^ 32 :=
  ⟨ipv4FromString_dottedQuad a b c d ha hb hc hd, ipv4FromString_lt _⟩

theorem ipv4FromString_big_endian_witness :
    (IsOctet "192".data ∧ IsOctet "168".data ∧ IsOctet "01".data ∧ IsOctet "0".data) ∧
    ipv4FromString "192.168.01.0" = 192 * 2 ^ 24 + 168 * 2 ^ 16 + 1 * 2 ^ 8 + 0 :=
  ⟨by decide,
   (ipv4FromString_big_endian "192".data "168".data "01".data "0".data (by decide) (by decide)
     (by decide) (by decide)).1⟩

end GeoDb

namespace GeoDb

/-! ## Parse failure -/

theorem ipv4FromStringLoop_bad_char (cs : List Char)
    (h : ∃ c ∈ cs, ¬ ('0' ≤ c ∧ c ≤ '9') ∧ c ≠ '.') (ip octet : Nat) :
    ipv4FromStringLoop cs ip octet = 0 := by
  induction cs generalizing ip octet with
  | nil => obtain ⟨c, hc, _⟩ := h; simp at hc
  | cons x xs ih =>
    simp only [ipv4FromStringLoop]
    split
    · rename_i hx
      refine ih ?_ _ _
      obtain ⟨c, hc, hbad⟩ := h
      rcases List.mem_cons.1 hc with hc | hc
      · rw [hc] at hbad; exact absurd hx hbad.1
      · exact ⟨c, hc, hbad⟩
    · split
      · rename_i hx hdot
        refine ih ?_ _ _
        obtain ⟨c, hc, hbad⟩ := h
        rcases List.mem_cons.1 hc with hc | hc
        · rw [hc] at hbad; exact absurd hdot hbad.2
        · exact ⟨c, hc, hbad⟩
      · rfl

theorem count_dot_octet (ds : List Char) (h : IsOctet ds) : ds.count '.' = 0 := by
  rw [List.count_eq_zero]
  intro hmem
  exact absurd (h.2.1 '.' hmem) (by decide)

theorem count_dot_dottedQuad (a b c d : List Char) (ha : IsOctet a) (hb : IsOctet b)
    (hc : IsOctet c) (hd : IsOctet d) : (dottedQuad a b c d).data.count '.' = 3 := by
  simp [dottedQuad, List.count_append, List.count_cons, count_dot_octet a ha,
    count_dot_octet b hb, count_dot_octet c hc, count_dot_octet d hd]

/-- C11 (counterexample): `1.2.3` is not a well-formed dotted quad, it has three octets,
and `ipv4FromString` returns `66051` for it, not `0`. -/
theorem ipv4FromString_malformed_nonzero :
    ¬ WellFormedDottedQuad "1.2.3" ∧ ipv4FromString "1.2.3" = 66051 ∧
      ipv4FromString "1.2.3" ≠ 0 := by
  refine ⟨?_, by decide, by decide⟩
  rintro ⟨a, b, c, d, ha, hb, hc, hd, hs⟩
  have h3 := count_dot_dottedQuad a b c d ha hb hc hd
  rw [← hs] at h3
  exact absurd h3 (by decide)

/-- C11 (amended): for every input string that contains a character other than a decimal
digit or `.`, `ipv4FromString` returns 0. -/
theorem ipv4FromString_zero_on_bad_char (s : String)
    (h : ∃ c ∈ s.data, ¬ ('0' ≤ c ∧ c ≤ '9') ∧ c ≠ '.') : ipv4FromString s = 0 :=
  ipv4FromStringLoop_bad_char s.data h 0 0

theorem ipv4FromString_zero_on_bad_char_witness :
    (∃ c ∈ "1.2.x.4".data, ¬ ('0' ≤ c ∧ c ≤ '9') ∧ c ≠ '.') ∧ ipv4FromString "1.2.x.4" = 0 :=
  ⟨⟨'x', by decide, by decide⟩,
   ipv4FromString_zero_on_bad_char "1.2.x.4" ⟨'x', by decide, by decide⟩⟩

/-! ## The order on IPv6 addresses -/

/-- C12: the IPv6 comparison operators implement the lexicographic order on `(hi, lo)`:
`operator<` is irreflexive, transitive, and for all `a`, `b` exactly one of `a < b`,
`a == b`, `b < a` holds; `a == b` iff both components are equal; `!=` is the negation of
`==`, `a <= b` iff not `b < a`, `a > b` iff `b < a`, `a >= b` iff not `a < b`. -/
theorem ipv6_operators_lexicographic :
    (∀ a b : IPv6, IPv6.lt a b = true ↔ a.hi < b.hi ∨ (a.hi = b.hi ∧ a.lo < b.lo)) ∧
    (∀ a : IPv6, IPv6.lt a a = false) ∧
    (∀ a b c : IPv6, IPv6.lt a b = true → IPv6.lt b c = true → IPv6.lt a c = true) ∧
    (∀ a b : IPv6,
      (IPv6.lt a b = true ∧ IPv6.eq a b = false ∧ IPv6.lt b a = false) ∨
      (IPv6.lt a b = false ∧ IPv6.eq a b = true ∧ IPv6.lt b a = false) ∨
      (IPv6.lt a b = false ∧ IPv6.eq a b = false ∧ IPv6.lt b a = true)) ∧
    (∀ a b : IPv6, IPv6.eq a b = true ↔ a.hi = b.hi ∧ a.lo = b.lo) ∧
    (∀ a b : IPv6, IPv6.eq a b = true ↔ a = b) ∧
    (∀ a b : IPv6, IPv6.ne a b = !IPv6.eq a b) ∧
    (∀ a b : IPv6, IPv6.le a b = !IPv6.lt b a) ∧
    (∀ a b : IPv6, IPv6.gt a b = IPv6.lt b a) ∧
    (∀ a b : IPv6, IPv6.ge a b = !IPv6.lt a b) := by
  have heq : ∀ a b : IPv6, IPv6.eq a b = true ↔ a.hi = b.hi ∧ a.lo = b.lo := by
    intro a b; simp [IPv6.eq]
  have heqf : ∀ a b : IPv6, IPv6.eq a b = false ↔ ¬ (a.hi = b.hi ∧ a.lo = b.lo) := by
    intro a b; rw [← Bool.not_eq_true, heq]
  refine ⟨IPv6.lt_iff, IPv6.lt_strictTotal.irrefl, IPv6.lt_strictTotal.trans, ?_, heq, ?_,
    fun a b => rfl, ?_, ?_, ?_⟩
  · intro a b
    simp only [IPv6.lt_iff, IPv6.lt_eq_false_iff, heq, heqf]
    omega
  · intro a b
    rw [heq]
    cases a; cases b; simp
  · intro a b
    cases h : IPv6.lt b a
    · exact (IPv6.le_iff_not_lt a b).2 h
    · cases h2 : IPv6.le a b
      · rfl
      · rw [(IPv6.le_iff_not_lt a b).1 h2] at h; exact absurd h (by simp)
  · intro a b
    rw [Bool.eq_iff_iff, IPv6.lt_iff]
    simp only [IPv6.gt, Bool.or_eq_true, Bool.and_eq_true, beq_iff_eq, decide_eq_true_eq,
      gt_iff_lt]
    omega
  · intro a b
    cases h : IPv6.lt a b
    · exact (IPv6.ge_iff_not_lt a b).2 h
    · cases h2 : IPv6.ge a b
      · rfl
      · rw [(IPv6.ge_iff_not_lt a b).1 h2] at h; exact absurd h (by simp)

end GeoDb

namespace GeoDb

/-! ## The watcher -/

theorem watcherSwitch_idle (w : Watcher) (g : Service) (m : Int)
    (load : Except Exception (Option Db)) (hs : w.state = .s_none) :
    watcherSwitch w g m load
      = if m > w.dbLastModified then
          .ok ({ w with state := .s_started, dbLastModified := m }, g)
        else .ok (w, g) := by
  simp only [watcherSwitch, hs]

theorem watcherSwitch_pending (w : Watcher) (g : Service) (m : Int)
    (load : Except Exception (Option Db)) (hs : w.state = .s_started) :
    watcherSwitch w g m load
      = if m = w.dbLastModified then
          match load with
          | .error e => .error e
          | .ok db =>
            .ok ({ w with state := .s_none, dbLastModified := m },
              match db with
              | some d => { g with db_ := some d }
              | none => g)
        else .ok ({ w with dbLastModified := m }, g) := by
  simp only [watcherSwitch, hs]

/-- C13: the per-tick step of the watcher on `(state, lastSeen)` with observed mtime `m`.
In IDLE (`s_none`): if `m > lastSeen` then `lastSeen := m` and the state becomes PENDING
(`s_started`), otherwise nothing changes; in neither case is anything loaded. In PENDING:
if `m == lastSeen` the snapshot is loaded, it becomes the current snapshot when the load
returns one, and the state becomes IDLE; otherwise `lastSeen := m`, the state stays PENDING
and nothing is loaded or published. -/
theorem watcher_step (w : Watcher) (g : Service) (m : Int)
    (load : Except Exception (Option Db)) :
    (w.state = .s_none → m > w.dbLastModified →
      watcherSwitch w g m load
        = .ok ({ w with state := .s_started, dbLastModified := m }, g)) ∧
    (w.state = .s_none → ¬ m > w.dbLastModified →
      watcherSwitch w g m load = .ok (w, g)) ∧
    (w.state = .s_started → m = w.dbLastModified → ∀ db, load = .ok (some db) →
      watcherSwitch w g m load = .ok ({ w with state := .s_none }, { g with db_ := some db })) ∧
    (w.state = .s_started → m = w.dbLastModified → load = .ok none →
      watcherSwitch w g m load = .ok ({ w with state := .s_none }, g)) ∧
    (w.state = .s_started → m ≠ w.dbLastModified →
      watcherSwitch w g m load = .ok ({ w with dbLastModified := m }, g)) := by
  refine ⟨?_, ?_, ?_, ?_, ?_⟩
  · intro hs hm
    rw [watcherSwitch_idle w g m load hs, if_pos hm]
  · intro hs hm
    rw [watcherSwitch_idle w g m load hs, if_neg hm]
  · intro hs hm db hl
    rw [watcherSwitch_pending w g m load hs, if_pos hm, hl, hm]
  · intro hs hm hl
    rw [watcherSwitch_pending w g m load hs, if_pos hm, hl, hm]
  · intro hs hm
    rw [watcherSwitch_pending w g m load hs, if_neg hm]

theorem watcher_step_witness :
    watcherSwitch exampleWatcher exampleService 101 (loadDbFrom .unparsable)
      = .ok (⟨.s_started, 101, 5000000⟩, exampleService) ∧
    watcherSwitch ⟨.s_started, 101, 5000000⟩ exampleService 101
        (loadDbFrom (.message GeoParser.disjointGeo))
      = .ok (⟨.s_none, 101, 5000000⟩,
          { exampleService with db_ := some (loadDb GeoParser.disjointGeo) }) ∧
    watcherSwitch ⟨.s_started, 101, 5000000⟩ exampleService 102
        (loadDbFrom (.message GeoParser.disjointGeo))
      = .ok (⟨.s_started, 102, 5000000⟩, exampleService) :=
  ⟨(watcher_step exampleWatcher exampleService 101 (loadDbFrom .unparsable)).1 rfl
      (by decide),
   (watcher_step ⟨.s_started, 101, 5000000⟩ exampleService 101
      (loadDbFrom (.message GeoParser.disjointGeo))).2.2.1 rfl rfl _ rfl,
   (watcher_step ⟨.s_started, 101, 5000000⟩ exampleService 102
      (loadDbFrom (.message GeoParser.disjointGeo))).2.2.2.2 rfl (by decide)⟩

theorem loadDbFrom_failure (file : GeoFile)
    (hf : file = .unmappable ∨ file = .empty ∨ file = .unparsable) :
    ∃ what, loadDbFrom file = .error (.geoDb what) := by
  rcases hf with h | h | h <;> subst h <;> exact ⟨_, rfl⟩

/-- C14 (failing input): in PENDING with an unchanged mtime, when the file cannot be
mapped, is empty or does not parse, `loadDb` throws; the exception is caught nowhere in
`watcherThreadLoop`, so it leaves the thread function: the pass yields no next watcher
state and no later pass is evaluated. -/
theorem watcher_load_failure_ends_watcher (w : Watcher) (g : Service) (m : Int)
    (file : GeoFile) (hs : w.state = .s_started) (hm : m = w.dbLastModified)
    (hf : file = .unmappable ∨ file = .empty ∨ file = .unparsable) :
    ∃ what, watcherSwitch w g m (loadDbFrom file) = .error (.geoDb what) ∧
      ∀ rest, watcherRun w g ((m, loadDbFrom file) :: rest) = .error (.geoDb what) := by
  obtain ⟨what, hw⟩ := loadDbFrom_failure file hf
  have h1 : watcherSwitch w g m (loadDbFrom file) = .error (.geoDb what) := by
    rw [watcherSwitch_pending w g m _ hs, if_pos hm, hw]
  exact ⟨what, h1, fun rest => by simp only [watcherRun, h1]⟩

theorem watcher_load_failure_ends_watcher_witness :
    watcherSwitch ⟨.s_started, 101, 5000000⟩ exampleService 101 (loadDbFrom .unparsable)
      = .error (.geoDb "can't parse geodb file") ∧
    watcherRun ⟨.s_started, 101, 5000000⟩ exampleService
        [(101, loadDbFrom .unparsable), (102, loadDbFrom (.message GeoParser.disjointGeo)),
         (102, loadDbFrom (.message GeoParser.disjointGeo))]
      = .error (.geoDb "can't parse geodb file") := by
  obtain ⟨what, h1, h2⟩ := watcher_load_failure_ends_watcher ⟨.s_started, 101, 5000000⟩
    exampleService 101 .unparsable rfl rfl (Or.inr (Or.inr rfl))
  have hw : what = "can't parse geodb file" := by
    have h3 : watcherSwitch ⟨.s_started, 101, 5000000⟩ exampleService 101
        (loadDbFrom .unparsable) = .error (.geoDb "can't parse geodb file") := rfl
    rw [h3] at h1
    injection h1 with h1
    injection h1 with h1
    exact h1.symm
  subst hw
  exact ⟨h1, h2 _⟩

end GeoDb

namespace GeoDb

/-! ## The service -/

theorem micros_five : micros 5 = 5000000 := by
  norm_num [micros]
  rfl

theorem initConfig_frame (g g1 : Service) (config : Option GeodbSection)
    (h : g.initConfig config = .ok g1) :
    g1.defaultCheckForUpdateTimeout_ = g.defaultCheckForUpdateTimeout_ ∧
    g1.defaultGeodbFile_ = g.defaultGeodbFile_ ∧ g1.empty_ = g.empty_ ∧ g1.db_ = g.db_ := by
  unfold Service.initConfig at h
  rcases config with _ | ⟨a, b, c⟩
  · simp only [Except.ok.injEq] at h
    subst h
    exact ⟨rfl, rfl, rfl, rfl⟩
  · rcases a with _ | (x | _ | _ | _) <;> rcases b with _ | (_ | s | _ | _) <;>
      rcases c with _ | (_ | _ | d | _)
    all_goals
      first
      | (by_cases hx : x < 2 <;> simp [hx] at h <;> subst h <;> exact ⟨rfl, rfl, rfl, rfl⟩)
      | (simp at h <;> subst h <;> exact ⟨rfl, rfl, rfl, rfl⟩)

end GeoDb

namespace GeoDb

theorem construct_frame (config : Option GeodbSection) (load : Except Exception (Option Db))
    (g : Service) (h : Service.construct config load = .ok g) :
    g.defaultCheckForUpdateTimeout_ = 5 ∧ g.empty_ = Element.empty := by
  unfold Service.construct at h
  split at h
  · cases h
  · rename_i g1 hg1
    have hf := initConfig_frame _ _ _ hg1
    split at h
    · split at h
      · cases h
      · cases h
      · simp only [Except.ok.injEq] at h
        subst h
        exact ⟨hf.1, hf.2.2.1⟩
    · simp only [Except.ok.injEq] at h
      subst h
      exact ⟨hf.1, hf.2.2.1⟩

theorem construct_dont_load (load : Except Exception (Option Db)) :
    Service.construct (some ⟨none, none, some (.bool true)⟩) load = .ok exampleService := rfl

theorem watcherRun_two_ticks (g : Service) (t0 t1 : Int) (now : Nat) (ht : t0 < t1)
    (db : Db) :
    watcherRun (watcherStart g t0 now) g [(t1, .ok (some db)), (t1, .ok (some db))]
      = .ok (⟨.s_none, t1, (now + micros g.defaultCheckForUpdateTimeout_) % 2 ^ 64⟩,
          { g with db_ := some db }) := by
  simp [watcherRun, watcherSwitch, watcherStart, ht]

/-- C15 (failing input): with `dont_load = true` the constructor skips the initial load,
but the watcher never consults the flag: after the file's mtime has grown and then stayed
the same for one pass, the watcher loads the file and publishes the snapshot, and lookups
are answered from it. -/
theorem dont_load_watcher_still_publishes (load0 : Except Exception (Option Db))
    (geo : protobuf.Geo) (t0 t1 : Int) (now : Nat) (ht : t0 < t1) :
    Service.construct (some ⟨none, none, some (.bool true)⟩) load0 = .ok exampleService ∧
    exampleService.dontLoadDb_ = true ∧ exampleService.db_ = none ∧
    (∃ w, watcherRun (watcherStart exampleService t0 now) exampleService
        [(t1, loadDbFrom (.message geo)), (t1, loadDbFrom (.message geo))]
      = .ok (w, { exampleService with db_ := some (loadDb geo) })) ∧
    ∀ ip, getIpv4 (some { exampleService with db_ := some (loadDb geo) }) ip
      = some ((loadDb geo).findV4 ip) :=
  ⟨rfl, rfl, rfl, ⟨_, watcherRun_two_ticks exampleService t0 t1 now ht (loadDb geo)⟩,
    fun _ => rfl⟩

theorem dont_load_watcher_still_publishes_witness :
    (100 : Int) < 101 ∧
    (∃ w, watcherRun (watcherStart exampleService 100 0) exampleService
        [(101, loadDbFrom (.message GeoParser.disjointGeo)),
         (101, loadDbFrom (.message GeoParser.disjointGeo))] = .ok (w, loadedService)) ∧
    getIpv4 (some loadedService) 0x01000010 = some ⟨1, 0, 0, "FRA", "", ""⟩ ∧
    getIpv4 (some loadedService) 0x01000010 ≠ some Element.empty :=
  ⟨by decide,
   (dont_load_watcher_still_publishes (.ok none) GeoParser.disjointGeo 100 101 0
      (by decide)).2.2.2.1,
   by decide, by decide⟩

/-- C16 (failing input): with `geodb.check_for_update_timeout` set to any accepted value
`x`, `initConfig` stores `x` in `checkForUpdateTimeout_`, but the watcher computes its first
deadline and every advance of `nextCheck` from `defaultCheckForUpdateTimeout_`: the interval
is 5 000 000 microseconds whatever `x` is. -/
theorem poll_interval_ignores_config (x : Rat) (hx : ¬ x < 2)
    (load : Except Exception (Option Db)) (g : Service)
    (hg : Service.construct (some ⟨some (.double x), none, none⟩) load = .ok g) :
    g.checkForUpdateTimeout_ = x ∧
    (∀ (t : Int) (now : Nat), (watcherStart g t now).nextCheck = (now + 5000000) % 2 ^ 64) ∧
    (∀ (now fuel : Nat) (w : Watcher), w.nextCheck < now →
      watcherAdvance g now (fuel + 1) w
        = watcherAdvance g now fuel { w with nextCheck := (w.nextCheck + 5000000) % 2 ^ 64 }) := by
  have hd := (construct_frame _ _ _ hg).1
  refine ⟨?_, ?_, ?_⟩
  · unfold Service.construct Service.initConfig at hg
    simp only [hx, if_false] at hg
    split at hg
    · split at hg
      · cases hg
      · cases hg
      · simp only [Except.ok.injEq] at hg
        subst hg
        rfl
    · simp only [Except.ok.injEq] at hg
      subst hg
      rfl
  · intro t now
    simp only [watcherStart, hd, micros_five]
  · intro now fuel w hw
    rw [watcherAdvance, if_pos hw, hd, micros_five]

theorem poll_interval_ignores_config_witness :
    ¬ (10 : Rat) < 2 ∧
    Service.construct (some ⟨some (.double 10), none, none⟩)
      (loadDbFrom (.message GeoParser.disjointGeo))
      = .ok ⟨"geodb.dat", 5, "geodb.dat", 10, false, Element.empty,
          some (loadDb GeoParser.disjointGeo)⟩ ∧
    (watcherStart ⟨"geodb.dat", 5, "geodb.dat", 10, false, Element.empty,
      some (loadDb GeoParser.disjointGeo)⟩ 100 0).nextCheck = 5000000 := by
  have h10 : ¬ (10 : Rat) < 2 := by norm_num
  have hc : Service.construct (some ⟨some (.double 10), none, none⟩)
      (loadDbFrom (.message GeoParser.disjointGeo))
      = .ok ⟨"geodb.dat", 5, "geodb.dat", 10, false, Element.empty,
          some (loadDb GeoParser.disjointGeo)⟩ := by
    simp [Service.construct, Service.initConfig, h10, loadDbFrom]
  exact ⟨h10, hc,
    (poll_interval_ignores_config 10 h10 _ _ hc).2.1 100 0⟩

end GeoDb

namespace GeoDb

/-- C17 (counterexample): after `stop()` the instance pointer is null, and a lookup fails
`assert(instance_ != nullptr)` instead of returning the empty Element. -/
theorem lookup_after_stop_is_not_empty :
    stop (some loadedService) = none ∧
    getIpv4 (stop (some loadedService)) 0x01000010 = none ∧
    getIpv4 (stop (some loadedService)) 0x01000010 ≠ some Element.empty :=
  ⟨rfl, rfl, by decide⟩

/-- C17 (amended): every lookup asserts `instance_ != nullptr`; after `stop()` the
instance is gone, so every new lookup (`getIpv4`, `getIpv6`, `getIp`, for any argument)
fails that assertion and returns no Element. A lookup returns the empty Element while the
service is initialised and holds no snapshot. -/
theorem lookup_after_stop_fails_assertion (inet_pton4 : String → Bool)
    (inet_pton6 : String → Option (List Nat)) (instance_ : Option Service) (ip : IPv4)
    (s : String) :
    getIpv4 (stop instance_) ip = none ∧ getIpv4Str (stop instance_) s = none ∧
    getIpv6Str inet_pton6 (stop instance_) s = none ∧
    getIp inet_pton4 inet_pton6 (stop instance_) s = none ∧
    (∀ g : Service, g.db_ = none →
      getIpv4 (some g) ip = some g.empty_ ∧ getIpv4Str (some g) s = some g.empty_ ∧
      getIpv6Str inet_pton6 (some g) s = some g.empty_ ∧
      getIp inet_pton4 inet_pton6 (some g) s = some g.empty_) := by
  refine ⟨rfl, rfl, rfl, rfl, ?_⟩
  intro g hg
  refine ⟨?_, ?_, ?_, ?_⟩
  · simp [getIpv4, hg]
  · simp [getIpv4Str, hg]
  · simp [getIpv6Str, hg]
  · simp only [getIp, getIpv4Str, getIpv6Str, hg]
    split
    · rfl
    · split <;> rfl

theorem lookup_after_stop_fails_assertion_witness :
    exampleService.db_ = none ∧
    getIp examplePton4 examplePton6 (stop (some exampleService)) "1.0.0.16" = none ∧
    getIp examplePton4 examplePton6 (some exampleService) "1.0.0.16" = some Element.empty :=
  ⟨rfl,
   (lookup_after_stop_fails_assertion examplePton4 examplePton6 (some exampleService) 0
      "1.0.0.16").2.2.2.1,
   ((lookup_after_stop_fails_assertion examplePton4 examplePton6 (some exampleService) 0
      "1.0.0.16").2.2.2.2 exampleService rfl).2.2.2⟩

/-- C18: with the service initialised, `getIp s` is `getIpv4 s` when `checkIpv4 s` holds,
otherwise `getIpv6 s` when `checkIpv6 s` holds, otherwise the empty Element; so for a
dotted quad `a.b.c.d` that `checkIpv4` accepts and a loaded snapshot `db`,
`getIp s = db.find (a*2^24 + b*2^16 + c*2^8 + d)`. -/
theorem getIp_dispatch (inet_pton4 : String → Bool)
    (inet_pton6 : String → Option (List Nat)) (g : Service) (s : String) :
    getIp inet_pton4 inet_pton6 (some g) s
      = (if checkIpv4 inet_pton4 s = true then getIpv4Str (some g) s
         else if checkIpv6 inet_pton6 s = true then getIpv6Str inet_pton6 (some g) s
         else some g.empty_) ∧
    (∀ (db : Db) (a b c d : List Char), g.db_ = some db →
      IsOctet a → IsOctet b → IsOctet c → IsOctet d → s = dottedQuad a b c d →
      checkIpv4 inet_pton4 s = true →
      getIp inet_pton4 inet_pton6 (some g) s
        = some (db.findV4 (decimalValue a * 2 ^ 24 + decimalValue b * 2 ^ 16
            + decimalValue c * 2 ^ 8 + decimalValue d))) := by
  refine ⟨rfl, ?_⟩
  intro db a b c d hdb ha hb hc hd hs hv
  simp only [getIp, hv, if_true, getIpv4Str, hdb]
  rw [hs, ipv4FromString_dottedQuad a b c d ha hb hc hd]

theorem getIp_dispatch_witness :
    (loadedService.db_ = some (loadDb GeoParser.disjointGeo) ∧
      IsOctet "1".data ∧ IsOctet "0".data ∧ IsOctet "16".data ∧
      "1.0.0.16" = dottedQuad "1".data "0".data "0".data "16".data ∧
      checkIpv4 examplePton4 "1.0.0.16" = true) ∧
    getIp examplePton4 examplePton6 (some loadedService) "1.0.0.16"
      = some ⟨1, 0, 0, "FRA", "", ""⟩ :=
  ⟨⟨rfl, by decide, by decide, by decide, by decide, by decide⟩,
   (getIp_dispatch examplePton4 examplePton6 loadedService "1.0.0.16").2
      (loadDb GeoParser.disjointGeo) "1".data "0".data "0".data "16".data rfl
      (by decide) (by decide) (by decide) (by decide) (by decide) (by decide)⟩

end GeoDb

namespace GeoDb

/-! ## The order on strings and `find` -/

theorem ltChars_cons (x y : Char) (xs ys : List Char) :
    ltChars (x :: xs) (y :: ys) = true ↔ x < y ∨ (x = y ∧ ltChars xs ys = true) := by
  simp only [ltChars]
  rcases lt_trichotomy x y with h | h | h
  · simp [h]
  · subst h; simp
  · simp [h, not_lt_of_gt h, ne_of_gt h]

theorem ltChars_irrefl (a : List Char) : ltChars a a = false := by
  induction a with
  | nil => rfl
  | cons x xs ih => simp [ltChars, ih]

theorem ltChars_trans (a b c : List Char) (h1 : ltChars a b = true) (h2 : ltChars b c = true) :
    ltChars a c = true := by
  induction a generalizing b c with
  | nil =>
    cases b with
    | nil => simp [ltChars] at h1
    | cons y ys =>
      cases c with
      | nil => simp [ltChars] at h2
      | cons z zs => rfl
  | cons x xs ih =>
    cases b with
    | nil => simp [ltChars] at h1
    | cons y ys =>
      cases c with
      | nil => simp [ltChars] at h2
      | cons z zs =>
        rw [ltChars_cons] at h1 h2 ⊢
        rcases h1 with h1 | ⟨h1, h1'⟩ <;> rcases h2 with h2 | ⟨h2, h2'⟩
        · exact Or.inl (lt_trans h1 h2)
        · exact Or.inl (h2 ▸ h1)
        · exact Or.inl (h1 ▸ h2)
        · exact Or.inr ⟨h1.trans h2, ih ys zs h1' h2'⟩

theorem ltChars_total (a b : List Char) (h1 : ltChars a b = false) (h2 : ltChars b a = false) :
    a = b := by
  induction a generalizing b with
  | nil =>
    cases b with
    | nil => rfl
    | cons y ys => simp [ltChars] at h1
  | cons x xs ih =>
    cases b with
    | nil => simp [ltChars] at h2
    | cons y ys =>
      rw [← Bool.not_eq_true, ltChars_cons] at h1 h2
      rcases lt_trichotomy x y with h | h | h
      · exact absurd (Or.inl h) h1
      · subst h
        have e1 : ltChars xs ys = false := by
          cases hh : ltChars xs ys
          · rfl
          · exact absurd (Or.inr ⟨rfl, hh⟩) h1
        have e2 : ltChars ys xs = false := by
          cases hh : ltChars ys xs
          · rfl
          · exact absurd (Or.inr ⟨rfl, hh⟩) h2
        rw [ih ys e1 e2]
      · exact absurd (Or.inl h) h2

theorem ltStr_strictTotal : StrictTotal ltStr where
  irrefl := fun a => ltChars_irrefl a.data
  trans := fun a b c h1 h2 => ltChars_trans a.data b.data c.data h1 h2
  total := fun a b h1 h2 => by
    have := ltChars_total a.data b.data h1 h2
    cases a; cases b; simp only at this; rw [this]

namespace StdMap

variable {K V : Type} {lt : K → K → Bool}

theorem equiv_iff (h : StrictTotal lt) (a b : K) : (lt a b || lt b a) = false ↔ a = b := by
  constructor
  · intro hab
    rw [Bool.or_eq_false_iff] at hab
    exact h.total a b hab.1 hab.2
  · intro hab
    subst hab
    rw [h.irrefl]; rfl

theorem ne_equiv (h : StrictTotal lt) {a b : K} (hab : a ≠ b) : (lt a b || lt b a) = true := by
  cases hh : (lt a b || lt b a)
  · exact absurd ((equiv_iff h a b).1 hh) hab
  · rfl

theorem find_assign_self (h : StrictTotal lt) (k : K) (v : V) (m : List (K × V)) :
    find lt k (assign lt k v m) = some v := by
  induction m with
  | nil => simp [assign, find, h.irrefl]
  | cons a m ih =>
    obtain ⟨k1, v1⟩ := a
    simp only [assign]
    split
    · simp [find, h.irrefl]
    · split
      · rename_i h1 h2
        simp only [find, h2, Bool.true_or, if_true]
        exact ih
      · rename_i h1 h2
        have hk : k = k1 := h.total k k1 (by simpa using h1) (by simpa using h2)
        subst hk
        simp [find, h.irrefl]

theorem find_assign_ne (h : StrictTotal lt) (k k2 : K) (v : V) (m : List (K × V))
    (hne : k2 ≠ k) : find lt k2 (assign lt k v m) = find lt k2 m := by
  have hskip : (lt k k2 || lt k2 k) = true := ne_equiv h (Ne.symm hne)
  induction m with
  | nil => simp [assign, find, hskip]
  | cons a m ih =>
    obtain ⟨k1, v1⟩ := a
    simp only [assign]
    split
    · simp only [find, hskip, if_true]
    · split
      · simp only [find]
        rw [ih]
      · rename_i h1 h2
        have hk : k = k1 := h.total k k1 (by simpa using h1) (by simpa using h2)
        subst hk
        simp only [find, hskip, if_true]

theorem find_eq_none_iff (h : StrictTotal lt) (k : K) (m : List (K × V)) :
    find lt k m = none ↔ ∀ e ∈ m, e.1 ≠ k := by
  induction m with
  | nil => simp [find]
  | cons a m ih =>
    obtain ⟨k1, v1⟩ := a
    simp only [find]
    by_cases hk : k1 = k
    · subst hk
      simp [h.irrefl]
    · rw [if_pos (ne_equiv h hk), ih]
      simp [hk]

theorem find_some_mem (h : StrictTotal lt) (k : K) (v : V) (m : List (K × V))
    (hf : find lt k m = some v) : (k, v) ∈ m := by
  induction m with
  | nil => simp [find] at hf
  | cons a m ih =>
    obtain ⟨k1, v1⟩ := a
    simp only [find] at hf
    split at hf
    · exact List.mem_cons_of_mem _ (ih hf)
    · rename_i hh
      have hk : k1 = k := (equiv_iff h k1 k).1 (by simpa using hh)
      cases hf
      rw [hk]
      exact List.mem_cons_self _ _

theorem assign_perm_of_find_none (h : StrictTotal lt) (k : K) (v : V) (m : List (K × V))
    (hf : find lt k m = none) : (assign lt k v m).Perm ((k, v) :: m) := by
  induction m with
  | nil => simp [assign]
  | cons a m ih =>
    obtain ⟨k1, v1⟩ := a
    simp only [find] at hf
    split at hf
    · simp only [assign]
      split
      · exact List.Perm.refl _
      · split
        · exact ((ih hf).cons _).trans (List.Perm.swap _ _ _)
        · rename_i hh h1 h2
          have hk : k = k1 := h.total k k1 (by simpa using h1) (by simpa using h2)
          subst hk
          rw [h.irrefl] at hh
          exact absurd hh (by simp)
    · cases hf

theorem assign_map_of_find_some {W : Type} (h : StrictTotal lt) (f : V → W) (k : K)
    (v v2 : V) (m : List (K × V)) (hs : Sorted lt m) (hf : find lt k m = some v)
    (hv : f v2 = f v) :
    (assign lt k v2 m).map (fun e => f e.2) = m.map (fun e => f e.2) := by
  induction m with
  | nil => simp [find] at hf
  | cons a m ih =>
    obtain ⟨k1, v1⟩ := a
    rw [sorted_cons] at hs
    simp only [find] at hf
    simp only [assign]
    split
    · rename_i h1
      exfalso
      have hnone : find lt k m = none := by
        rw [find_eq_none_iff h]
        intro e he hek
        have := h.trans _ _ _ h1 (hs.1 e he)
        rw [hek, h.irrefl] at this
        exact absurd this (by simp)
      rw [h1, Bool.or_true, if_pos rfl, hnone] at hf
      cases hf
    · split
      · rename_i h1 h2
        rw [h2, Bool.true_or, if_pos rfl] at hf
        simp only [List.map_cons, ih hs.2 hf]
      · rename_i h1 h2
        have h1' : lt k k1 = false := by simpa using h1
        have h2' : lt k1 k = false := by simpa using h2
        rw [h1', h2'] at hf
        simp only [Bool.or_self, Bool.false_eq_true, if_false, Option.some.injEq] at hf
        subst hf
        simp only [List.map_cons, hv]

end StdMap

end GeoDb

namespace GeoParser

open GeoDb

/-! ## Existing catalogue rows keep their identity -/

theorem keepsCatalogue_refl (b : Builder) : KeepsCatalogue b b :=
  ⟨fun _ c h => ⟨c, h, rfl, rfl, rfl⟩, fun _ s h => ⟨s, h, rfl, rfl, rfl, rfl⟩,
    fun _ c h => ⟨c, h, rfl, rfl, rfl, rfl⟩⟩

theorem keepsCatalogue_trans {b1 b2 b3 : Builder} (h12 : KeepsCatalogue b1 b2)
    (h23 : KeepsCatalogue b2 b3) : KeepsCatalogue b1 b3 := by
  refine ⟨?_, ?_, ?_⟩
  · intro k c h
    obtain ⟨c2, h2, e1, e2, e3⟩ := h12.1 k c h
    obtain ⟨c3, h3, f1, f2, f3⟩ := h23.1 k c2 h2
    exact ⟨c3, h3, f1.trans e1, f2.trans e2, f3.trans e3⟩
  · intro k c h
    obtain ⟨c2, h2, e1, e2, e3, e4⟩ := h12.2.1 k c h
    obtain ⟨c3, h3, f1, f2, f3, f4⟩ := h23.2.1 k c2 h2
    exact ⟨c3, h3, f1.trans e1, f2.trans e2, f3.trans e3, f4.trans e4⟩
  · intro k c h
    obtain ⟨c2, h2, e1, e2, e3, e4⟩ := h12.2.2 k c h
    obtain ⟨c3, h3, f1, f2, f3, f4⟩ := h23.2.2 k c2 h2
    exact ⟨c3, h3, f1.trans e1, f2.trans e2, f3.trans e3, f4.trans e4⟩

theorem find_after_assign {V : Type} (k : String) (v : V) (m : List (String × V))
    (k2 : String) (c : V) (hf : StdMap.find ltStr k2 m = some c) :
    (k2 = k ∧ StdMap.find ltStr k m = some c ∧
        StdMap.find ltStr k2 (StdMap.assign ltStr k v m) = some v) ∨
      StdMap.find ltStr k2 (StdMap.assign ltStr k v m) = some c := by
  by_cases hk : k2 = k
  · subst hk
    exact Or.inl ⟨rfl, hf, StdMap.find_assign_self ltStr_strictTotal _ _ _⟩
  · exact Or.inr (by rw [StdMap.find_assign_ne ltStr_strictTotal _ _ _ _ hk]; exact hf)

theorem countryStep_keeps (en : Bool) (b : Builder) (values : List String) (l : Location) :
    KeepsCatalogue b (countryStep en b values l).1 := by
  cases hfind : StdMap.find ltStr (values.getD 4 "") b.countries_ with
  | none =>
    have hnone := hfind
    simp only [countryStep, hfind]
    refine ⟨?_, fun _ s h => ⟨s, h, rfl, rfl, rfl, rfl⟩, fun _ c h => ⟨c, h, rfl, rfl, rfl, rfl⟩⟩
    intro k c h
    rcases find_after_assign (values.getD 4 "") _ b.countries_ k c h with ⟨_, h1, _⟩ | h1
    · rw [hnone] at h1; cases h1
    · exact ⟨c, h1, rfl, rfl, rfl⟩
  | some c0 =>
    have hsome := hfind
    simp only [countryStep, hfind]
    refine ⟨?_, fun _ s h => ⟨s, h, rfl, rfl, rfl, rfl⟩, fun _ c h => ⟨c, h, rfl, rfl, rfl, rfl⟩⟩
    intro k c h
    rcases find_after_assign (values.getD 4 "") _ b.countries_ k c h with ⟨_, h1, h2⟩ | h1
    · rw [hsome] at h1
      cases h1
      exact ⟨_, h2, rfl, rfl, rfl⟩
    · exact ⟨c, h1, rfl, rfl, rfl⟩

theorem stateStep_keeps (en : Bool) (b : Builder) (values : List String) (l : Location) :
    KeepsCatalogue b (stateStep en b values l).1 := by
  cases hfind : StdMap.find ltStr (values.getD 4 "" ++ "." ++ values.getD 6 "") b.states_ with
  | none =>
    have hnone := hfind
    simp only [stateStep, hfind]
    refine ⟨fun _ c h => ⟨c, h, rfl, rfl, rfl⟩, ?_, fun _ c h => ⟨c, h, rfl, rfl, rfl, rfl⟩⟩
    intro k c h
    rcases find_after_assign _ _ b.states_ k c h with ⟨_, h1, _⟩ | h1
    · rw [hnone] at h1; cases h1
    · exact ⟨c, h1, rfl, rfl, rfl, rfl⟩
  | some c0 =>
    have hsome := hfind
    simp only [stateStep, hfind]
    refine ⟨fun _ c h => ⟨c, h, rfl, rfl, rfl⟩, ?_, fun _ c h => ⟨c, h, rfl, rfl, rfl, rfl⟩⟩
    intro k c h
    rcases find_after_assign _ _ b.states_ k c h with ⟨_, h1, h2⟩ | h1
    · rw [hsome] at h1
      cases h1
      exact ⟨_, h2, rfl, rfl, rfl, rfl⟩
    · exact ⟨c, h1, rfl, rfl, rfl, rfl⟩

theorem cityStep_keeps (en : Bool) (b : Builder) (values : List String) (l : Location) :
    KeepsCatalogue b (cityStep en b values l).1 := by
  cases hfind : StdMap.find ltStr (values.getD 4 "" ++ "." ++ values.getD 6 "" ++ "." ++ values.getD 0 "") b.cities_ with
  | none =>
    have hnone := hfind
    simp only [cityStep, hfind]
    refine ⟨fun _ c h => ⟨c, h, rfl, rfl, rfl⟩, fun _ s h => ⟨s, h, rfl, rfl, rfl, rfl⟩, ?_⟩
    intro k c h
    rcases find_after_assign _ _ b.cities_ k c h with ⟨_, h1, _⟩ | h1
    · rw [hnone] at h1; cases h1
    · exact ⟨c, h1, rfl, rfl, rfl, rfl⟩
  | some c0 =>
    have hsome := hfind
    simp only [cityStep, hfind]
    refine ⟨fun _ c h => ⟨c, h, rfl, rfl, rfl⟩, fun _ s h => ⟨s, h, rfl, rfl, rfl, rfl⟩, ?_⟩
    intro k c h
    rcases find_after_assign _ _ b.cities_ k c h with ⟨_, h1, h2⟩ | h1
    · rw [hsome] at h1
      cases h1
      exact ⟨_, h2, rfl, rfl, rfl, rfl⟩
    · exact ⟨c, h1, rfl, rfl, rfl, rfl⟩

theorem stateCityStep_keeps (en : Bool) (b : Builder) (values : List String) (l : Location) :
    KeepsCatalogue b (stateCityStep en b values l).1 := by
  unfold stateCityStep
  split
  · split
    · exact keepsCatalogue_trans (stateStep_keeps en b values l) (cityStep_keeps en _ values _)
    · exact stateStep_keeps en b values l
  · exact keepsCatalogue_refl b

theorem locationsRow_keeps (atoui : String → Nat) (en : Bool) (b b2 : Builder)
    (values : List String) (h : locationsRow atoui en b values = .ok b2) :
    KeepsCatalogue b b2 := by
  unfold locationsRow at h
  split at h
  · cases h
  · split at h
    · cases h; exact keepsCatalogue_refl b
    · simp only [Except.ok.injEq] at h
      subst h
      exact keepsCatalogue_trans (countryStep_keeps en b values _)
        (stateCityStep_keeps en _ values _)

theorem foldlM_locationsRow_keeps (atoui : String → Nat) (en : Bool)
    (rows : List (List String)) (b b2 : Builder)
    (h : rows.foldlM (locationsRow atoui en) b = .ok b2) : KeepsCatalogue b b2 := by
  induction rows generalizing b with
  | nil =>
    simp only [List.foldlM, pure, Except.pure, Except.ok.injEq] at h
    subst h
    exact keepsCatalogue_refl b
  | cons values rows ih =>
    simp only [List.foldlM, bind, Except.bind] at h
    split at h
    · cases h
    · rename_i b1 h1
      exact keepsCatalogue_trans (locationsRow_keeps atoui en b b1 values h1) (ih b1 h)

/-- C20: `loadLocations` never changes the identity of an existing catalogue row: for
every country, state or city key present in its table before a row is processed, or
before a whole file is, the row stored under that key afterwards has the same id, key and
weight, and for a state or city the same parent id. -/
theorem loadLocations_keeps_existing_rows (atoui : String → Nat) (en : Bool)
    (b b2 : Builder) :
    (∀ values, locationsRow atoui en b values = .ok b2 → KeepsCatalogue b b2) ∧
    (∀ header rows, loadLocations atoui en b header rows = .ok b2 → KeepsCatalogue b b2) := by
  refine ⟨fun values h => locationsRow_keeps atoui en b b2 values h, ?_⟩
  intro header rows h
  unfold loadLocations at h
  split at h
  · cases h
  · split at h
    · cases h
    · exact foldlM_locationsRow_keeps atoui en rows b b2 h

theorem loadLocations_keeps_existing_rows_witness :
    (∃ c2, StdMap.find ltStr "DE"
        (⟨8, 4, 2, [("DE", ⟨7, "DE", "Germany", "Germany", 7, true⟩)],
          [("DE.BY", ⟨3, "DE.BY", "Bavaria", "Bavaria", 3, true, 7⟩)],
          [("DE.BY.2867714", ⟨1, "DE.BY.2867714", "Munich", "Munich", 1, true, 3⟩)],
          [(2867714, ⟨7, 3, 1, "DE", "BY", ""⟩)]⟩ : Builder).countries_ = some c2 ∧
      c2.id = 7 ∧ c2.key = "DE" ∧ c2.weight = 7) :=
  ((loadLocations_keeps_existing_rows atoui true exampleBuilder
      ⟨8, 4, 2, [("DE", ⟨7, "DE", "Germany", "Germany", 7, true⟩)],
        [("DE.BY", ⟨3, "DE.BY", "Bavaria", "Bavaria", 3, true, 7⟩)],
        [("DE.BY.2867714", ⟨1, "DE.BY.2867714", "Munich", "Munich", 1, true, 3⟩)],
        [(2867714, ⟨7, 3, 1, "DE", "BY", ""⟩)]⟩).1 munichRow rfl).1 "DE"
    ⟨7, "DE", "Deutschland", "Germany", 7, false⟩ rfl

end GeoParser

namespace GeoParser

open GeoDb

/-! ## Ids and keys stay unique -/

theorem tableOk_mono {V : Type} {idOf : V → Nat} {keyOf : V → String} {next next2 : Nat}
    {tbl : List (String × V)} (h : TableOk idOf keyOf next tbl) (hn : next ≤ next2) :
    TableOk idOf keyOf next2 tbl :=
  ⟨h.1, h.2.1, fun e he => Nat.lt_of_lt_of_le (h.2.2.1 e he) hn, h.2.2.2⟩

theorem tableOk_insert {V : Type} {idOf : V → Nat} {keyOf : V → String} {next : Nat}
    {tbl : List (String × V)} (h : TableOk idOf keyOf next tbl) (k : String) (v : V)
    (hnone : StdMap.find ltStr k tbl = none) (hkey : keyOf v = k) (hid : idOf v = next) :
    TableOk idOf keyOf (next + 1) (StdMap.assign ltStr k v tbl) := by
  have hperm := StdMap.assign_perm_of_find_none ltStr_strictTotal k v tbl hnone
  refine ⟨StdMap.assign_sorted ltStr_strictTotal k v tbl h.1, ?_, ?_, ?_⟩
  · intro e he
    rcases StdMap.assign_keys ltStr_strictTotal k v tbl e he with h1 | h1
    · rw [h1]; exact hkey
    · exact h.2.1 e h1
  · intro e he
    rcases StdMap.assign_keys ltStr_strictTotal k v tbl e he with h1 | h1
    · rw [h1]; simp only; omega
    · have := h.2.2.1 e h1
      omega
  · rw [(hperm.map (fun e => idOf e.2)).nodup_iff, List.map_cons, List.nodup_cons]
    refine ⟨?_, h.2.2.2⟩
    intro hmem
    obtain ⟨e, he, heq⟩ := List.mem_map.1 hmem
    have := h.2.2.1 e he
    simp only at heq
    omega

theorem tableOk_update {V : Type} {idOf : V → Nat} {keyOf : V → String} {next : Nat}
    {tbl : List (String × V)} (h : TableOk idOf keyOf next tbl) (k : String) (v0 v : V)
    (hsome : StdMap.find ltStr k tbl = some v0) (hkey : keyOf v = keyOf v0)
    (hid : idOf v = idOf v0) :
    TableOk idOf keyOf next (StdMap.assign ltStr k v tbl) := by
  have hmem := StdMap.find_some_mem ltStr_strictTotal k v0 tbl hsome
  refine ⟨StdMap.assign_sorted ltStr_strictTotal k v tbl h.1, ?_, ?_, ?_⟩
  · intro e he
    rcases StdMap.assign_keys ltStr_strictTotal k v tbl e he with h1 | h1
    · rw [h1]; simp only; rw [hkey]; exact h.2.1 _ hmem
    · exact h.2.1 e h1
  · intro e he
    rcases StdMap.assign_keys ltStr_strictTotal k v tbl e he with h1 | h1
    · rw [h1]; simp only; rw [hid]; exact h.2.2.1 _ hmem
    · exact h.2.2.1 e h1
  · rw [StdMap.assign_map_of_find_some ltStr_strictTotal idOf k v0 v tbl h.1 hsome hid]
    exact h.2.2.2

theorem tableOk_keys_nodup {V : Type} {idOf : V → Nat} {keyOf : V → String} {next : Nat}
    {tbl : List (String × V)} (h : TableOk idOf keyOf next tbl) :
    (tbl.map (fun e => keyOf e.2)).Nodup := by
  have h1 : tbl.map (fun e => keyOf e.2) = tbl.map Prod.fst :=
    List.map_congr_left (fun e he => h.2.1 e he)
  rw [h1, List.Nodup, List.pairwise_map]
  refine List.Pairwise.imp ?_ h.1
  intro a b hab heq
  rw [heq, ltStr_strictTotal.irrefl] at hab
  exact absurd hab (by simp)

theorem catalogueOk_unique (b : Builder) (h : CatalogueOk b) : UniqueIdsAndKeys b :=
  ⟨⟨h.1.2.2.2, tableOk_keys_nodup h.1⟩, ⟨h.2.1.2.2.2, tableOk_keys_nodup h.2.1⟩,
    ⟨h.2.2.2.2.2, tableOk_keys_nodup h.2.2⟩⟩

end GeoParser

namespace GeoParser

open GeoDb

theorem find_of_mem_sorted {V : Type} (k : String) (v : V) (m : List (String × V))
    (hs : StdMap.Sorted ltStr m) (hmem : (k, v) ∈ m) : StdMap.find ltStr k m = some v := by
  induction m with
  | nil => simp at hmem
  | cons a m ih =>
    obtain ⟨k1, v1⟩ := a
    rw [StdMap.sorted_cons] at hs
    rcases List.mem_cons.1 hmem with h | h
    · cases h
      simp [StdMap.find, ltStr_strictTotal.irrefl]
    · have hlt : ltStr k1 k = true := hs.1 (k, v) h
      simp only [StdMap.find, hlt, Bool.true_or, if_true]
      exact ih hs.2 h

theorem created_insert {V : Type} {idOf : V → Nat} {keyOf : V → String} {next : Nat}
    {tbl : List (String × V)} (h : TableOk idOf keyOf next tbl) (k : String) (v : V)
    (hid : idOf v = next) (k2 : String) (c2 : V)
    (h1 : StdMap.find ltStr k2 (StdMap.assign ltStr k v tbl) = some c2)
    (h2 : StdMap.find ltStr k2 tbl = none) : ∀ e ∈ tbl, idOf e.2 < idOf c2 := by
  by_cases hk : k2 = k
  · subst hk
    rw [StdMap.find_assign_self ltStr_strictTotal] at h1
    cases h1
    intro e he
    rw [hid]
    exact h.2.2.1 e he
  · rw [StdMap.find_assign_ne ltStr_strictTotal _ _ _ _ hk, h2] at h1
    cases h1

theorem created_update {V : Type} {idOf : V → Nat} {tbl : List (String × V)} (k : String)
    (v0 v : V) (hsome : StdMap.find ltStr k tbl = some v0) (k2 : String) (c2 : V)
    (h1 : StdMap.find ltStr k2 (StdMap.assign ltStr k v tbl) = some c2)
    (h2 : StdMap.find ltStr k2 tbl = none) : ∀ e ∈ tbl, idOf e.2 < idOf c2 := by
  by_cases hk : k2 = k
  · subst hk
    rw [hsome] at h2
    cases h2
  · rw [StdMap.find_assign_ne ltStr_strictTotal _ _ _ _ hk, h2] at h1
    cases h1

theorem created_same {V : Type} {idOf : V → Nat} {tbl : List (String × V)} (k2 : String)
    (c2 : V) (h1 : StdMap.find ltStr k2 tbl = some c2) (h2 : StdMap.find ltStr k2 tbl = none) :
    ∀ e ∈ tbl, idOf e.2 < idOf c2 := by
  rw [h2] at h1
  cases h1

theorem countryStep_ok (en : Bool) (b : Builder) (values : List String) (l : Location)
    (hok : CatalogueOk b) (hw : b.countryId_ + 1 < 2 ^ 32) :
    CatalogueOk (countryStep en b values l).1 ∧
    ((countryStep en b values l).1.countryId_ ≤ b.countryId_ + 1 ∧
      (countryStep en b values l).1.stateId_ = b.stateId_ ∧
      (countryStep en b values l).1.cityId_ = b.cityId_) ∧
    CreatedAbove b (countryStep en b values l).1 := by
  cases hfind : StdMap.find ltStr (values.getD 4 "") b.countries_ with
  | none =>
    simp only [countryStep, hfind]
    rw [Nat.mod_eq_of_lt hw]
    exact ⟨⟨tableOk_insert hok.1 _ _ hfind rfl rfl, hok.2.1, hok.2.2⟩,
      ⟨Nat.le_refl _, trivial, trivial⟩,
      fun k c2 h1 h2 => created_insert hok.1 _ _ rfl k c2 h1 h2,
      fun k c2 h1 h2 => created_same k c2 h1 h2,
      fun k c2 h1 h2 => created_same k c2 h1 h2⟩
  | some c0 =>
    simp only [countryStep, hfind]
    exact ⟨⟨tableOk_update hok.1 _ c0 _ hfind rfl rfl, hok.2.1, hok.2.2⟩,
      ⟨Nat.le_succ _, trivial, trivial⟩,
      fun k c2 h1 h2 => created_update _ c0 _ hfind k c2 h1 h2,
      fun k c2 h1 h2 => created_same k c2 h1 h2,
      fun k c2 h1 h2 => created_same k c2 h1 h2⟩

theorem stateStep_ok (en : Bool) (b : Builder) (values : List String) (l : Location)
    (hok : CatalogueOk b) (hw : b.stateId_ + 1 < 2 ^ 32) :
    CatalogueOk (stateStep en b values l).1 ∧
    ((stateStep en b values l).1.countryId_ = b.countryId_ ∧
      (stateStep en b values l).1.stateId_ ≤ b.stateId_ + 1 ∧
      (stateStep en b values l).1.cityId_ = b.cityId_) ∧
    CreatedAbove b (stateStep en b values l).1 := by
  cases hfind : StdMap.find ltStr (values.getD 4 "" ++ "." ++ values.getD 6 "") b.states_ with
  | none =>
    simp only [stateStep, hfind]
    rw [Nat.mod_eq_of_lt hw]
    exact ⟨⟨hok.1, tableOk_insert hok.2.1 _ _ hfind rfl rfl, hok.2.2⟩,
      ⟨trivial, Nat.le_refl _, trivial⟩,
      fun k c2 h1 h2 => created_same k c2 h1 h2,
      fun k c2 h1 h2 => created_insert hok.2.1 _ _ rfl k c2 h1 h2,
      fun k c2 h1 h2 => created_same k c2 h1 h2⟩
  | some c0 =>
    simp only [stateStep, hfind]
    exact ⟨⟨hok.1, tableOk_update hok.2.1 _ c0 _ hfind rfl rfl, hok.2.2⟩,
      ⟨trivial, Nat.le_succ _, trivial⟩,
      fun k c2 h1 h2 => created_same k c2 h1 h2,
      fun k c2 h1 h2 => created_update _ c0 _ hfind k c2 h1 h2,
      fun k c2 h1 h2 => created_same k c2 h1 h2⟩

theorem cityStep_ok (en : Bool) (b : Builder) (values : List String) (l : Location)
    (hok : CatalogueOk b) (hw : b.cityId_ + 1 < 2 ^ 32) :
    CatalogueOk (cityStep en b values l).1 ∧
    ((cityStep en b values l).1.countryId_ = b.countryId_ ∧
      (cityStep en b values l).1.stateId_ = b.stateId_ ∧
      (cityStep en b values l).1.cityId_ ≤ b.cityId_ + 1) ∧
    CreatedAbove b (cityStep en b values l).1 := by
  cases hfind : StdMap.find ltStr
      (values.getD 4 "" ++ "." ++ values.getD 6 "" ++ "." ++ values.getD 0 "") b.cities_ with
  | none =>
    simp only [cityStep, hfind]
    rw [Nat.mod_eq_of_lt hw]
    exact ⟨⟨hok.1, hok.2.1, tableOk_insert hok.2.2 _ _ hfind rfl rfl⟩,
      ⟨trivial, trivial, Nat.le_refl _⟩,
      fun k c2 h1 h2 => created_same k c2 h1 h2,
      fun k c2 h1 h2 => created_same k c2 h1 h2,
      fun k c2 h1 h2 => created_insert hok.2.2 _ _ rfl k c2 h1 h2⟩
  | some c0 =>
    simp only [cityStep, hfind]
    exact ⟨⟨hok.1, hok.2.1, tableOk_update hok.2.2 _ c0 _ hfind rfl rfl⟩,
      ⟨trivial, trivial, Nat.le_succ _⟩,
      fun k c2 h1 h2 => created_same k c2 h1 h2,
      fun k c2 h1 h2 => created_same k c2 h1 h2,
      fun k c2 h1 h2 => created_update _ c0 _ hfind k c2 h1 h2⟩

end GeoParser

namespace GeoParser

open GeoDb

theorem created_trans {V : Type} (idOf : V → Nat) (t t1 t2 : List (String × V))
    (hs : StdMap.Sorted ltStr t)
    (hk01 : ∀ k c, StdMap.find ltStr k t = some c →
      ∃ c1, StdMap.find ltStr k t1 = some c1 ∧ idOf c1 = idOf c)
    (hk12 : ∀ k c, StdMap.find ltStr k t1 = some c →
      ∃ c2, StdMap.find ltStr k t2 = some c2 ∧ idOf c2 = idOf c)
    (h01 : ∀ k c1, StdMap.find ltStr k t1 = some c1 → StdMap.find ltStr k t = none →
      ∀ e ∈ t, idOf e.2 < idOf c1)
    (h12 : ∀ k c2, StdMap.find ltStr k t2 = some c2 → StdMap.find ltStr k t1 = none →
      ∀ e ∈ t1, idOf e.2 < idOf c2)
    (k : String) (c2 : V) (hf2 : StdMap.find ltStr k t2 = some c2)
    (hf0 : StdMap.find ltStr k t = none) : ∀ e ∈ t, idOf e.2 < idOf c2 := by
  intro e he
  cases hf1 : StdMap.find ltStr k t1 with
  | none =>
    obtain ⟨c1, hc1, hid⟩ := hk01 e.1 e.2 (find_of_mem_sorted e.1 e.2 t hs he)
    have := h12 k c2 hf2 hf1 (e.1, c1) (StdMap.find_some_mem ltStr_strictTotal _ _ _ hc1)
    simp only at this
    omega
  | some c1 =>
    obtain ⟨c3, hc3, hid⟩ := hk12 k c1 hf1
    rw [hf2] at hc3
    cases hc3
    have := h01 k c1 hf1 hf0 e he
    omega

theorem createdAbove_trans {b b1 b2 : Builder} (hok : CatalogueOk b)
    (k01 : KeepsCatalogue b b1) (c01 : CreatedAbove b b1) (k12 : KeepsCatalogue b1 b2)
    (c12 : CreatedAbove b1 b2) : CreatedAbove b b2 := by
  refine ⟨?_, ?_, ?_⟩
  · exact created_trans Country.id _ _ _ hok.1.1
      (fun k c h => (k01.1 k c h).imp fun _ hh => ⟨hh.1, hh.2.1⟩)
      (fun k c h => (k12.1 k c h).imp fun _ hh => ⟨hh.1, hh.2.1⟩) c01.1 c12.1
  · exact created_trans State.id _ _ _ hok.2.1.1
      (fun k c h => (k01.2.1 k c h).imp fun _ hh => ⟨hh.1, hh.2.1⟩)
      (fun k c h => (k12.2.1 k c h).imp fun _ hh => ⟨hh.1, hh.2.1⟩) c01.2.1 c12.2.1
  · exact created_trans City.id _ _ _ hok.2.2.1
      (fun k c h => (k01.2.2 k c h).imp fun _ hh => ⟨hh.1, hh.2.1⟩)
      (fun k c h => (k12.2.2 k c h).imp fun _ hh => ⟨hh.1, hh.2.1⟩) c01.2.2 c12.2.2

theorem createdAbove_refl (b : Builder) : CreatedAbove b b :=
  ⟨fun k c2 h1 h2 => created_same k c2 h1 h2, fun k c2 h1 h2 => created_same k c2 h1 h2,
    fun k c2 h1 h2 => created_same k c2 h1 h2⟩

theorem stateCityStep_ok (en : Bool) (b : Builder) (values : List String) (l : Location)
    (hok : CatalogueOk b) (hws : b.stateId_ + 1 < 2 ^ 32) (hwc : b.cityId_ + 1 < 2 ^ 32) :
    CatalogueOk (stateCityStep en b values l).1 ∧
    ((stateCityStep en b values l).1.countryId_ = b.countryId_ ∧
      (stateCityStep en b values l).1.stateId_ ≤ b.stateId_ + 1 ∧
      (stateCityStep en b values l).1.cityId_ ≤ b.cityId_ + 1) ∧
    CreatedAbove b (stateCityStep en b values l).1 := by
  obtain ⟨h1, ⟨e1, e2, e3⟩, h3⟩ := stateStep_ok en b values l hok hws
  unfold stateCityStep
  split
  · split
    · obtain ⟨g1, ⟨f1, f2, f3⟩, g3⟩ :=
        cityStep_ok en (stateStep en b values l).1 values (stateStep en b values l).2 h1
          (by rw [e3]; exact hwc)
      refine ⟨g1, ⟨f1.trans e1, ?_, ?_⟩, ?_⟩
      · rw [f2]; exact e2
      · rw [e3] at f3; exact f3
      · exact createdAbove_trans hok (stateStep_keeps en b values l) h3
          (cityStep_keeps en _ values _) g3
    · exact ⟨h1, ⟨e1, e2, by rw [e3]; exact Nat.le_succ _⟩, h3⟩
  · exact ⟨hok, ⟨rfl, Nat.le_succ _, Nat.le_succ _⟩, createdAbove_refl b⟩

theorem locationsRow_ok (atoui : String → Nat) (en : Bool) (b b2 : Builder)
    (values : List String) (hok : CatalogueOk b) (hw : NoWrap b 1)
    (h : locationsRow atoui en b values = .ok b2) :
    CatalogueOk b2 ∧
    (b2.countryId_ ≤ b.countryId_ + 1 ∧ b2.stateId_ ≤ b.stateId_ + 1 ∧
      b2.cityId_ ≤ b.cityId_ + 1) ∧
    CreatedAbove b b2 := by
  unfold locationsRow at h
  split at h
  · cases h
  · split at h
    · cases h
      exact ⟨hok, ⟨Nat.le_succ _, Nat.le_succ _, Nat.le_succ _⟩, createdAbove_refl b⟩
    · simp only [Except.ok.injEq] at h
      subst h
      obtain ⟨h1, ⟨e1, e2, e3⟩, h3⟩ :=
        countryStep_ok en b values ⟨0, 0, 0, "", "", ""⟩ hok hw.1
      obtain ⟨g1, ⟨f1, f2, f3⟩, g3⟩ :=
        stateCityStep_ok en (countryStep en b values ⟨0, 0, 0, "", "", ""⟩).1 values
          (countryStep en b values ⟨0, 0, 0, "", "", ""⟩).2 h1
          (by rw [e2]; exact hw.2.1) (by rw [e3]; exact hw.2.2)
      refine ⟨g1, ⟨?_, ?_, ?_⟩, ?_⟩
      · show (stateCityStep en _ values _).1.countryId_ ≤ _
        rw [f1]; exact e1
      · show (stateCityStep en _ values _).1.stateId_ ≤ _
        rw [e2] at f2; exact f2
      · show (stateCityStep en _ values _).1.cityId_ ≤ _
        rw [e3] at f3; exact f3
      · exact createdAbove_trans hok (countryStep_keeps en b values _) h3
          (stateCityStep_keeps en _ values _) g3

theorem locationsRows_ok (atoui : String → Nat) (rows : List (Bool × List String))
    (n : Nat) (b b2 : Builder) (hok : CatalogueOk b) (hw : NoWrap b (rows.length + n))
    (h : locationsRows atoui b rows = .ok b2) :
    CatalogueOk b2 ∧ NoWrap b2 n := by
  induction rows generalizing b with
  | nil =>
    simp only [locationsRows, List.foldlM, pure, Except.pure, Except.ok.injEq] at h
    subst h
    obtain ⟨hw1, hw2, hw3⟩ := hw
    simp only [List.length_nil] at hw1 hw2 hw3
    exact ⟨hok, by omega, by omega, by omega⟩
  | cons r rows ih =>
    simp only [locationsRows, List.foldlM, bind, Except.bind] at h
    split at h
    · cases h
    · rename_i b1 h1
      obtain ⟨hw1, hw2, hw3⟩ := hw
      simp only [List.length_cons] at hw1 hw2 hw3
      obtain ⟨g1, ⟨f1, f2, f3⟩, _⟩ :=
        locationsRow_ok atoui r.1 b b1 r.2 hok ⟨by omega, by omega, by omega⟩ h1
      exact ih b1 g1 ⟨by omega, by omega, by omega⟩ h

end GeoParser

namespace GeoParser

open GeoDb

/-! ## The catalogue after `loadFromDb` -/

theorem foldl_loadCountries (rows : List Country) (b : Builder) :
    (rows.foldl (fun (b : Builder) country =>
      { b with
        countries_ := StdMap.assign ltStr country.key { country with store := false } b.countries_
        countryId_ := if country.id > b.countryId_ then country.id else b.countryId_ }) b)
      = { b with
          countries_ := StdMap.assignAll ltStr Country.key
            (rows.map (fun country => { country with store := false })) b.countries_
          countryId_ := (rows.map Country.id).foldl max b.countryId_ } := by
  induction rows generalizing b with
  | nil => rfl
  | cons r rows ih =>
    rw [List.foldl_cons, ih]
    have hmax : (if r.id > b.countryId_ then r.id else b.countryId_) = max b.countryId_ r.id := by
      split <;> omega
    simp only [StdMap.assignAll, List.map_cons, List.foldl_cons, hmax]

theorem loadCountries_eq (rows : List Country) (b : Builder) :
    loadCountries b rows
      = { b with
          countries_ := StdMap.assignAll ltStr Country.key
            (rows.map (fun country => { country with store := false })) b.countries_
          countryId_ := ((rows.map Country.id).foldl max b.countryId_ + 1) % 2 ^ 32 } := by
  unfold loadCountries
  rw [foldl_loadCountries]

theorem loadCountries_tableOk (rows : List Country) (next : Nat)
    (hids : (rows.map Country.id).Nodup) (hmax : ∀ r ∈ rows, r.id < next) :
    TableOk Country.id Country.key next
      (StdMap.assignAll ltStr Country.key (rows.map (fun country => { country with store := false })) []) := by
  have hs : StdMap.Sorted ltStr (StdMap.assignAll ltStr Country.key
      (rows.map (fun country => { country with store := false })) []) :=
    StdMap.assignAll_sorted ltStr_strictTotal _ _ (by simp [StdMap.Sorted])
  have hmem : ∀ e ∈ StdMap.assignAll ltStr Country.key
      (rows.map (fun country => { country with store := false })) [],
      e.2.key = e.1 ∧ ∃ r ∈ rows, e.2.id = r.id := by
    intro e he
    rcases StdMap.assignAll_mem ltStr_strictTotal _ _ _ he with h | ⟨d, hd, h⟩
    · simp at h
    · obtain ⟨r, hr, hrd⟩ := List.mem_map.1 hd
      subst h
      subst hrd
      exact ⟨rfl, r, hr, rfl⟩
  refine ⟨hs, fun e he => (hmem e he).1, ?_, ?_⟩
  · intro e he
    obtain ⟨r, hr, hid⟩ := (hmem e he).2
    rw [hid]
    exact hmax r hr
  · rw [List.Nodup, List.pairwise_map]
    refine List.Pairwise.imp_of_mem ?_ hs
    intro x y hx hy hxy hid
    rcases StdMap.assignAll_mem ltStr_strictTotal _ _ _ hx with h | ⟨d1, hd1, h1⟩
    · simp at h
    rcases StdMap.assignAll_mem ltStr_strictTotal _ _ _ hy with h | ⟨d2, hd2, h2⟩
    · simp at h
    obtain ⟨r1, hr1, e1⟩ := List.mem_map.1 hd1
    obtain ⟨r2, hr2, e2⟩ := List.mem_map.1 hd2
    subst h1; subst h2; subst e1; subst e2
    have hr : r1 = r2 := List.inj_on_of_nodup_map hids hr1 hr2 hid
    subst hr
    simp only at hxy
    rw [ltStr_strictTotal.irrefl] at hxy
    exact absurd hxy (by simp)

theorem foldl_loadStates (rows : List State) (b : Builder) :
    (rows.foldl (fun (b : Builder) state =>
      { b with
        states_ := StdMap.assign ltStr state.key { state with store := false } b.states_
        stateId_ := if state.id > b.stateId_ then state.id else b.stateId_ }) b)
      = { b with
          states_ := StdMap.assignAll ltStr State.key
            (rows.map (fun state => { state with store := false })) b.states_
          stateId_ := (rows.map State.id).foldl max b.stateId_ } := by
  induction rows generalizing b with
  | nil => rfl
  | cons r rows ih =>
    rw [List.foldl_cons, ih]
    have hmax : (if r.id > b.stateId_ then r.id else b.stateId_) = max b.stateId_ r.id := by
      split <;> omega
    simp only [StdMap.assignAll, List.map_cons, List.foldl_cons, hmax]

theorem loadStates_eq (rows : List State) (b : Builder) :
    loadStates b rows
      = { b with
          states_ := StdMap.assignAll ltStr State.key
            (rows.map (fun state => { state with store := false })) b.states_
          stateId_ := ((rows.map State.id).foldl max b.stateId_ + 1) % 2 ^ 32 } := by
  unfold loadStates
  rw [foldl_loadStates]

theorem loadStates_tableOk (rows : List State) (next : Nat)
    (hids : (rows.map State.id).Nodup) (hmax : ∀ r ∈ rows, r.id < next) :
    TableOk State.id State.key next
      (StdMap.assignAll ltStr State.key (rows.map (fun state => { state with store := false })) []) := by
  have hs : StdMap.Sorted ltStr (StdMap.assignAll ltStr State.key
      (rows.map (fun state => { state with store := false })) []) :=
    StdMap.assignAll_sorted ltStr_strictTotal _ _ (by simp [StdMap.Sorted])
  have hmem : ∀ e ∈ StdMap.assignAll ltStr State.key
      (rows.map (fun state => { state with store := false })) [],
      e.2.key = e.1 ∧ ∃ r ∈ rows, e.2.id = r.id := by
    intro e he
    rcases StdMap.assignAll_mem ltStr_strictTotal _ _ _ he with h | ⟨d, hd, h⟩
    · simp at h
    · obtain ⟨r, hr, hrd⟩ := List.mem_map.1 hd
      subst h
      subst hrd
      exact ⟨rfl, r, hr, rfl⟩
  refine ⟨hs, fun e he => (hmem e he).1, ?_, ?_⟩
  · intro e he
    obtain ⟨r, hr, hid⟩ := (hmem e he).2
    rw [hid]
    exact hmax r hr
  · rw [List.Nodup, List.pairwise_map]
    refine List.Pairwise.imp_of_mem ?_ hs
    intro x y hx hy hxy hid
    rcases StdMap.assignAll_mem ltStr_strictTotal _ _ _ hx with h | ⟨d1, hd1, h1⟩
    · simp at h
    rcases StdMap.assignAll_mem ltStr_strictTotal _ _ _ hy with h | ⟨d2, hd2, h2⟩
    · simp at h
    obtain ⟨r1, hr1, e1⟩ := List.mem_map.1 hd1
    obtain ⟨r2, hr2, e2⟩ := List.mem_map.1 hd2
    subst h1; subst h2; subst e1; subst e2
    have hr : r1 = r2 := List.inj_on_of_nodup_map hids hr1 hr2 hid
    subst hr
    simp only at hxy
    rw [ltStr_strictTotal.irrefl] at hxy
    exact absurd hxy (by simp)

theorem foldl_loadCities (rows : List City) (b : Builder) :
    (rows.foldl (fun (b : Builder) city =>
      { b with
        cities_ := StdMap.assign ltStr city.key { city with store := false } b.cities_
        cityId_ := if city.id > b.cityId_ then city.id else b.cityId_ }) b)
      = { b with
          cities_ := StdMap.assignAll ltStr City.key
            (rows.map (fun city => { city with store := false })) b.cities_
          cityId_ := (rows.map City.id).foldl max b.cityId_ } := by
  induction rows generalizing b with
  | nil => rfl
  | cons r rows ih =>
    rw [List.foldl_cons, ih]
    have hmax : (if r.id > b.cityId_ then r.id else b.cityId_) = max b.cityId_ r.id := by
      split <;> omega
    simp only [StdMap.assignAll, List.map_cons, List.foldl_cons, hmax]

theorem loadCities_eq (rows : List City) (b : Builder) :
    loadCities b rows
      = { b with
          cities_ := StdMap.assignAll ltStr City.key
            (rows.map (fun city => { city with store := false })) b.cities_
          cityId_ := ((rows.map City.id).foldl max b.cityId_ + 1) % 2 ^ 32 } := by
  unfold loadCities
  rw [foldl_loadCities]

theorem loadCities_tableOk (rows : List City) (next : Nat)
    (hids : (rows.map City.id).Nodup) (hmax : ∀ r ∈ rows, r.id < next) :
    TableOk City.id City.key next
      (StdMap.assignAll ltStr City.key (rows.map (fun city => { city with store := false })) []) := by
  have hs : StdMap.Sorted ltStr (StdMap.assignAll ltStr City.key
      (rows.map (fun city => { city with store := false })) []) :=
    StdMap.assignAll_sorted ltStr_strictTotal _ _ (by simp [StdMap.Sorted])
  have hmem : ∀ e ∈ StdMap.assignAll ltStr City.key
      (rows.map (fun city => { city with store := false })) [],
      e.2.key = e.1 ∧ ∃ r ∈ rows, e.2.id = r.id := by
    intro e he
    rcases StdMap.assignAll_mem ltStr_strictTotal _ _ _ he with h | ⟨d, hd, h⟩
    · simp at h
    · obtain ⟨r, hr, hrd⟩ := List.mem_map.1 hd
      subst h
      subst hrd
      exact ⟨rfl, r, hr, rfl⟩
  refine ⟨hs, fun e he => (hmem e he).1, ?_, ?_⟩
  · intro e he
    obtain ⟨r, hr, hid⟩ := (hmem e he).2
    rw [hid]
    exact hmax r hr
  · rw [List.Nodup, List.pairwise_map]
    refine List.Pairwise.imp_of_mem ?_ hs
    intro x y hx hy hxy hid
    rcases StdMap.assignAll_mem ltStr_strictTotal _ _ _ hx with h | ⟨d1, hd1, h1⟩
    · simp at h
    rcases StdMap.assignAll_mem ltStr_strictTotal _ _ _ hy with h | ⟨d2, hd2, h2⟩
    · simp at h
    obtain ⟨r1, hr1, e1⟩ := List.mem_map.1 hd1
    obtain ⟨r2, hr2, e2⟩ := List.mem_map.1 hd2
    subst h1; subst h2; subst e1; subst e2
    have hr : r1 = r2 := List.inj_on_of_nodup_map hids hr1 hr2 hid
    subst hr
    simp only at hxy
    rw [ltStr_strictTotal.irrefl] at hxy
    exact absurd hxy (by simp)

theorem foldl_max_ge (ids : List Nat) (cur : Nat) :
    cur ≤ ids.foldl max cur ∧ ∀ i ∈ ids, i ≤ ids.foldl max cur := by
  induction ids generalizing cur with
  | nil => simp
  | cons x xs ih =>
    simp only [List.foldl_cons, List.mem_cons]
    obtain ⟨h1, h2⟩ := ih (max cur x)
    refine ⟨by omega, ?_⟩
    intro i hi
    rcases hi with hi | hi
    · subst hi; omega
    · exact h2 i hi

theorem foldl_max_lt (ids : List Nat) (cur bound : Nat) (hc : cur < bound)
    (h : ∀ i ∈ ids, i < bound) : ids.foldl max cur < bound := by
  induction ids generalizing cur with
  | nil => exact hc
  | cons x xs ih =>
    simp only [List.foldl_cons]
    have := h x (List.mem_cons_self _ _)
    exact ih (max cur x) (by omega) (fun i hi => h i (List.mem_cons_of_mem _ hi))

end GeoParser

namespace GeoParser

open GeoDb

theorem loadFromDb_new_eq (countries : List Country) (states : List State)
    (cities : List City) :
    loadFromDb Builder.new countries states cities
      = ⟨((countries.map Country.id).foldl max 0 + 1) % 2 ^ 32,
          ((states.map State.id).foldl max 0 + 1) % 2 ^ 32,
          ((cities.map City.id).foldl max 0 + 1) % 2 ^ 32,
          StdMap.assignAll ltStr Country.key
            (countries.map (fun country => { country with store := false })) [],
          StdMap.assignAll ltStr State.key
            (states.map (fun state => { state with store := false })) [],
          StdMap.assignAll ltStr City.key
            (cities.map (fun city => { city with store := false })) [], []⟩ := by
  unfold loadFromDb
  rw [loadCities_eq, loadStates_eq, loadCountries_eq]
  rfl

theorem loadFromDb_new_ok (countries : List Country) (states : List State)
    (cities : List City)
    (hci : (countries.map Country.id).Nodup) (hsi : (states.map State.id).Nodup)
    (hti : (cities.map City.id).Nodup)
    (hwc : (countries.map Country.id).foldl max 0 + 1 < 2 ^ 32)
    (hws : (states.map State.id).foldl max 0 + 1 < 2 ^ 32)
    (hwt : (cities.map City.id).foldl max 0 + 1 < 2 ^ 32) :
    ((loadFromDb Builder.new countries states cities).countryId_
        = (countries.map Country.id).foldl max 0 + 1 ∧
      (loadFromDb Builder.new countries states cities).stateId_
        = (states.map State.id).foldl max 0 + 1 ∧
      (loadFromDb Builder.new countries states cities).cityId_
        = (cities.map City.id).foldl max 0 + 1) ∧
    CatalogueOk (loadFromDb Builder.new countries states cities) := by
  rw [loadFromDb_new_eq]
  refine ⟨⟨Nat.mod_eq_of_lt hwc, Nat.mod_eq_of_lt hws, Nat.mod_eq_of_lt hwt⟩, ?_, ?_, ?_⟩
  · show TableOk Country.id Country.key
      (((countries.map Country.id).foldl max 0 + 1) % 2 ^ 32) _
    rw [Nat.mod_eq_of_lt hwc]
    refine loadCountries_tableOk countries _ hci ?_
    intro r hr
    have := (foldl_max_ge (countries.map Country.id) 0).2 r.id (List.mem_map_of_mem _ hr)
    omega
  · show TableOk State.id State.key
      (((states.map State.id).foldl max 0 + 1) % 2 ^ 32) _
    rw [Nat.mod_eq_of_lt hws]
    refine loadStates_tableOk states _ hsi ?_
    intro r hr
    have := (foldl_max_ge (states.map State.id) 0).2 r.id (List.mem_map_of_mem _ hr)
    omega
  · show TableOk City.id City.key
      (((cities.map City.id).foldl max 0 + 1) % 2 ^ 32) _
    rw [Nat.mod_eq_of_lt hwt]
    refine loadCities_tableOk cities _ hti ?_
    intro r hr
    have := (foldl_max_ge (cities.map City.id) 0).2 r.id (List.mem_map_of_mem _ hr)
    omega

theorem loaded_row_present {R : Type} (key : R → String) (f : R → R)
    (hkey : ∀ r, key (f r) = key r) (rows : List R) (hk : (rows.map key).Nodup)
    (r : R) (hr : r ∈ rows) :
    StdMap.find ltStr (key r) (StdMap.assignAll ltStr key (rows.map f) []) = some (f r) := by
  have hs : StdMap.Sorted ltStr (StdMap.assignAll ltStr key (rows.map f) []) :=
    StdMap.assignAll_sorted ltStr_strictTotal _ _ (by simp [StdMap.Sorted])
  have hp : (rows.map f).Pairwise (fun a b => key a ≠ key b) := by
    rw [List.pairwise_map]
    rw [List.Nodup, List.pairwise_map] at hk
    exact hk.imp (fun h => by rw [hkey, hkey]; exact h)
  have hmem := StdMap.assignAll_present ltStr_strictTotal (rows.map f) hp (f r)
    (List.mem_map_of_mem _ hr)
  rw [hkey] at hmem
  exact find_of_mem_sorted _ _ _ hs hmem

end GeoParser

namespace GeoParser

open GeoDb

/-- C19: after `loadFromDb` on a fresh builder each table's next id is the largest loaded
id plus one (1 for an empty table) and every loaded row is filed under its key; a row
that `loadLocations` then processes files each entity it creates under an id above every
id already in its table; and, when the loaded ids and keys are unique and the counters do
not leave 32 bits, no id and no key occurs twice in a table after loading, after any
sequence of processed rows, and after one more row. -/
theorem catalogue_ids_stay_unique (atoui : String → Nat) (countries : List Country)
    (states : List State) (cities : List City) (rows : List (Bool × List String))
    (row : Bool × List String) (b2 b3 : Builder)
    (hci : (countries.map Country.id).Nodup) (hck : (countries.map Country.key).Nodup)
    (hsi : (states.map State.id).Nodup) (hsk : (states.map State.key).Nodup)
    (hti : (cities.map City.id).Nodup) (htk : (cities.map City.key).Nodup)
    (hwc : (countries.map Country.id).foldl max 0 + 1 + (rows.length + 1) < 2 ^ 32)
    (hws : (states.map State.id).foldl max 0 + 1 + (rows.length + 1) < 2 ^ 32)
    (hwt : (cities.map City.id).foldl max 0 + 1 + (rows.length + 1) < 2 ^ 32)
    (h2 : locationsRows atoui (loadFromDb Builder.new countries states cities) rows = .ok b2)
    (h3 : locationsRow atoui row.1 b2 row.2 = .ok b3) :
    ((loadFromDb Builder.new countries states cities).countryId_
        = (countries.map Country.id).foldl max 0 + 1 ∧
      (loadFromDb Builder.new countries states cities).stateId_
        = (states.map State.id).foldl max 0 + 1 ∧
      (loadFromDb Builder.new countries states cities).cityId_
        = (cities.map City.id).foldl max 0 + 1) ∧
    ((∀ r ∈ countries,
        StdMap.find ltStr r.key (loadFromDb Builder.new countries states cities).countries_
          = some { r with store := false }) ∧
      (∀ r ∈ states,
        StdMap.find ltStr r.key (loadFromDb Builder.new countries states cities).states_
          = some { r with store := false }) ∧
      (∀ r ∈ cities,
        StdMap.find ltStr r.key (loadFromDb Builder.new countries states cities).cities_
          = some { r with store := false })) ∧
    CreatedAbove b2 b3 ∧
    UniqueIdsAndKeys (loadFromDb Builder.new countries states cities) ∧
    UniqueIdsAndKeys b2 ∧ UniqueIdsAndKeys b3 := by
  obtain ⟨hnext, hok⟩ := loadFromDb_new_ok countries states cities hci hsi hti
    (by omega) (by omega) (by omega)
  have hw : NoWrap (loadFromDb Builder.new countries states cities) (rows.length + 1) := by
    unfold NoWrap
    rw [hnext.1, hnext.2.1, hnext.2.2]
    exact ⟨hwc, hws, hwt⟩
  obtain ⟨hok2, hw2⟩ := locationsRows_ok atoui rows 1 _ b2 hok hw h2
  obtain ⟨hok3, _, hcr⟩ := locationsRow_ok atoui row.1 b2 b3 row.2 hok2 hw2 h3
  refine ⟨hnext, ⟨?_, ?_, ?_⟩, hcr, catalogueOk_unique _ hok, catalogueOk_unique _ hok2,
    catalogueOk_unique _ hok3⟩
  · intro r hr
    rw [loadFromDb_new_eq]
    exact loaded_row_present Country.key (fun country => { country with store := false })
      (fun _ => rfl) countries hck r hr
  · intro r hr
    rw [loadFromDb_new_eq]
    exact loaded_row_present State.key (fun state => { state with store := false })
      (fun _ => rfl) states hsk r hr
  · intro r hr
    rw [loadFromDb_new_eq]
    exact loaded_row_present City.key (fun city => { city with store := false })
      (fun _ => rfl) cities htk r hr

theorem catalogue_ids_stay_unique_witness :
    ((loadFromDb Builder.new exampleCountries exampleStates []).countryId_ = 8 ∧
      (loadFromDb Builder.new exampleCountries exampleStates []).stateId_ = 4 ∧
      (loadFromDb Builder.new exampleCountries exampleStates []).cityId_ = 1) ∧
    CreatedAbove munichBuilder parisBuilder ∧ UniqueIdsAndKeys parisBuilder :=
  have h := catalogue_ids_stay_unique atoui exampleCountries exampleStates []
    [(true, munichRow)] (true, parisRow) munichBuilder parisBuilder
    (by decide) (by decide) (by decide) (by decide) (by decide) (by decide)
    (by decide) (by decide) (by decide) rfl rfl
  ⟨h.1, h.2.2.1, h.2.2.2.2.2⟩

end GeoParser

namespace GeoDb

/-! ## From a value to text and back -/

set_option maxRecDepth 100000 in
theorem u32toa_octet : ∀ v, v < 256 →
    (IsOctet (u32toa v) ∧ NoLeadingZero (u32toa v) ∧ decimalValue (u32toa v) = v ∧
      (u32toa v).length ≤ 3) := by
  decide

theorem value_of_octets (ip : Nat) (h : ip < 2 ^ 32) :
    ((ip >>> 24) &&& 0xff) * 2 ^ 24 + ((ip >>> 16) &&& 0xff) * 2 ^ 16
      + ((ip >>> 8) &&& 0xff) * 2 ^ 8 + (ip &&& 0xff) = ip ∧
    (ip >>> 24) &&& 0xff < 256 ∧ (ip >>> 16) &&& 0xff < 256 ∧ (ip >>> 8) &&& 0xff < 256 ∧
    ip &&& 0xff < 256 := by
  have hm : ∀ x : Nat, x &&& 0xff = x % 2 ^ 8 := fun x => Nat.and_pow_two_sub_one_eq_mod x 8
  simp only [hm, Nat.shiftRight_eq_div_pow]
  omega

theorem ipv4ToString_eq_dottedQuad (ip : Nat) :
    ipv4ToString ip = dottedQuad (u32toa ((ip >>> 24) &&& 0xff))
      (u32toa ((ip >>> 16) &&& 0xff)) (u32toa ((ip >>> 8) &&& 0xff)) (u32toa (ip &&& 0xff)) := by
  simp [ipv4ToString, dottedQuad]

/-- C30: for every unsigned 32-bit value `ip`, `ipv4FromString (ipv4ToString ip) = ip`, and
`ipv4ToString ip` is a dotted quad of four decimal octets with values in `0 .. 255`, each
written without leading zeros, at most 15 characters long. -/
theorem ipv4_value_roundtrip (ip : Nat) (h : ip < 2 ^ 32) :
    ipv4FromString (ipv4ToString ip) = ip ∧
    (∃ a b c d : List Char, (IsOctet a ∧ IsOctet b ∧ IsOctet c ∧ IsOctet d) ∧
      (NoLeadingZero a ∧ NoLeadingZero b ∧ NoLeadingZero c ∧ NoLeadingZero d) ∧
      ipv4ToString ip = dottedQuad a b c d) ∧
    (ipv4ToString ip).data.length ≤ 15 := by
  obtain ⟨hv, ha, hb, hc, hd⟩ := value_of_octets ip h
  obtain ⟨a1, a2, a3, a4⟩ := u32toa_octet _ ha
  obtain ⟨b1, b2, b3, b4⟩ := u32toa_octet _ hb
  obtain ⟨c1, c2, c3, c4⟩ := u32toa_octet _ hc
  obtain ⟨d1, d2, d3, d4⟩ := u32toa_octet _ hd
  refine ⟨?_, ⟨_, _, _, _, ⟨a1, b1, c1, d1⟩, ⟨a2, b2, c2, d2⟩,
    ipv4ToString_eq_dottedQuad ip⟩, ?_⟩
  · rw [ipv4ToString_eq_dottedQuad, ipv4FromString_dottedQuad _ _ _ _ a1 b1 c1 d1, a3, b3, c3,
      d3]
    exact hv
  · rw [ipv4ToString_eq_dottedQuad]
    simp only [dottedQuad, List.length_append, List.length_cons]
    omega

theorem ipv4_value_roundtrip_witness :
    (3232235776 : Nat) < 2 ^ 32 ∧ ipv4ToString 3232235776 = "192.168.1.0" ∧
    ipv4FromString (ipv4ToString 3232235776) = 3232235776 :=
  ⟨by decide, by decide, (ipv4_value_roundtrip 3232235776 (by decide)).1⟩

end GeoDb

namespace GeoDb

/-! ## Two-tick quiescence -/

theorem watcherRun_append (w : Watcher) (g : Service)
    (pre : List (Int × Except Exception (Option Db))) (m : Int)
    (load : Except Exception (Option Db)) :
    watcherRun w g (pre ++ [(m, load)])
      = match watcherRun w g pre with
        | .error e => .error e
        | .ok (w1, g1) => watcherSwitch w1 g1 m load := by
  induction pre generalizing w g with
  | nil =>
    simp only [List.nil_append, watcherRun]
    cases watcherSwitch w g m load with
    | error e => rfl
    | ok r => rfl
  | cons x pre ih =>
    obtain ⟨m1, l1⟩ := x
    simp only [List.cons_append, watcherRun]
    cases watcherSwitch w g m1 l1 with
    | error e => rfl
    | ok r => exact ih r.1 r.2

theorem watcherSwitch_started (w w2 : Watcher) (g g2 : Service) (m : Int)
    (load : Except Exception (Option Db)) (h : watcherSwitch w g m load = .ok (w2, g2))
    (hs : w2.state = .s_started) : w2.dbLastModified = m := by
  unfold watcherSwitch at h
  cases hw : w.state with
  | s_none =>
    simp only [hw] at h
    by_cases hm : m > w.dbLastModified
    · simp only [hm, if_true, Except.ok.injEq, Prod.mk.injEq] at h
      rw [← h.1]
    · simp only [hm, if_false, Except.ok.injEq, Prod.mk.injEq] at h
      rw [← h.1, hw] at hs
      cases hs
  | s_started =>
    simp only [hw] at h
    by_cases hm : m = w.dbLastModified
    · simp only [hm, if_true] at h
      cases load with
      | error e => cases h
      | ok db =>
        simp only [Except.ok.injEq, Prod.mk.injEq] at h
        rw [← h.1] at hs
        cases hs
    · simp only [hm, if_false, Except.ok.injEq, Prod.mk.injEq] at h
      rw [← h.1]

theorem watcherSwitch_quiet (w : Watcher) (g : Service) (m : Int)
    (h : ¬ (w.state = .s_started ∧ m = w.dbLastModified)) :
    ∃ w2, ∀ load, watcherSwitch w g m load = .ok (w2, g) := by
  cases hw : w.state with
  | s_none =>
    by_cases hm : m > w.dbLastModified
    · exact ⟨{ w with state := .s_started, dbLastModified := m },
        fun load => by simp only [watcherSwitch, hw, hm, if_true]⟩
    · exact ⟨w, fun load => by simp only [watcherSwitch, hw, hm, if_false]⟩
  | s_started =>
    have hm : ¬ m = w.dbLastModified := fun hm => h ⟨hw, hm⟩
    exact ⟨{ w with dbLastModified := m },
      fun load => by simp only [watcherSwitch, hw, hm, if_false]⟩

theorem watcherRun_started (w0 w : Watcher) (g g1 : Service)
    (pre : List (Int × Except Exception (Option Db))) (h0 : w0.state = .s_none)
    (hrun : watcherRun w0 g pre = .ok (w, g1)) (hs : w.state = .s_started) :
    ∃ pre0 m0 l0, pre = pre0 ++ [(m0, l0)] ∧ m0 = w.dbLastModified := by
  rcases List.eq_nil_or_concat pre with hp | ⟨pre0, x, hp⟩
  · subst hp
    simp only [watcherRun, Except.ok.injEq, Prod.mk.injEq] at hrun
    rw [← hrun.1, h0] at hs
    cases hs
  · obtain ⟨m0, l0⟩ := x
    subst hp
    refine ⟨pre0, m0, l0, by simp, ?_⟩
    have hrun2 : watcherRun w0 g (pre0 ++ [(m0, l0)]) = .ok (w, g1) := by simpa using hrun
    rw [watcherRun_append] at hrun2
    cases hpre : watcherRun w0 g pre0 with
    | error e => rw [hpre] at hrun2; cases hrun2
    | ok r =>
      rw [hpre] at hrun2
      exact (watcherSwitch_started r.1 w r.2 g1 m0 l0 hrun2 hs).symm

/-- C28: two-tick quiescence. In a run of the watcher from its start, let `pre` be the
passes made so far and `m` the mtime read in the next pass. If the outcome of that pass
depends on what `loadDb()` does, or the pass publishes a snapshot, then the state before
the pass is PENDING (`s_started`) and `m` equals the mtime read in the immediately
preceding pass. A pass that starts in IDLE, and a pass whose mtime differs from the one
read in the preceding pass, neither loads nor publishes. -/
theorem two_tick_quiescence (g : Service) (t0 : Int) (now : Nat)
    (pre : List (Int × Except Exception (Option Db))) (w : Watcher) (g1 : Service) (m : Int)
    (hrun : watcherRun (watcherStart g t0 now) g pre = .ok (w, g1)) :
    (((∃ load load2, watcherSwitch w g1 m load ≠ watcherSwitch w g1 m load2) ∨
        (∃ load w2 g2, watcherSwitch w g1 m load = .ok (w2, g2) ∧ g2.db_ ≠ g1.db_)) →
      w.state = .s_started ∧ ∃ pre0 m0 l0, pre = pre0 ++ [(m0, l0)] ∧ m0 = m) ∧
    (w.state = .s_none → ∃ w2, ∀ load, watcherSwitch w g1 m load = .ok (w2, g1)) ∧
    (∀ pre0 m0 l0, pre = pre0 ++ [(m0, l0)] → m0 ≠ m →
      ∃ w2, ∀ load, watcherSwitch w g1 m load = .ok (w2, g1)) := by
  have hprev : w.state = .s_started →
      ∃ pre0 m0 l0, pre = pre0 ++ [(m0, l0)] ∧ m0 = w.dbLastModified :=
    watcherRun_started _ w g g1 pre rfl hrun
  refine ⟨?_, ?_, ?_⟩
  · intro hload
    by_cases hq : w.state = .s_started ∧ m = w.dbLastModified
    · obtain ⟨pre0, m0, l0, hp, hm0⟩ := hprev hq.1
      exact ⟨hq.1, pre0, m0, l0, hp, hm0.trans hq.2.symm⟩
    · obtain ⟨w2, hw2⟩ := watcherSwitch_quiet w g1 m hq
      rcases hload with ⟨load, load2, hne⟩ | ⟨load, w3, g3, hsw, hne⟩
      · exact absurd ((hw2 load).trans (hw2 load2).symm) hne
      · rw [hw2 load] at hsw
        simp only [Except.ok.injEq, Prod.mk.injEq] at hsw
        rw [← hsw.2] at hne
        exact absurd rfl hne
  · intro hs
    exact watcherSwitch_quiet w g1 m (fun hq => by rw [hs] at hq; cases hq.1)
  · intro pre0 m0 l0 hp hne
    refine watcherSwitch_quiet w g1 m ?_
    rintro ⟨hs, hm⟩
    obtain ⟨pre1, m1, l1, hp1, hm1⟩ := hprev hs
    rw [hp] at hp1
    have := List.append_inj_right' hp1 rfl
    simp only [List.cons.injEq, Prod.mk.injEq, and_true] at this
    exact hne (this.1.trans (hm1.trans hm.symm))

theorem two_tick_quiescence_witness :
    (⟨.s_started, 101, 5000000⟩ : Watcher).state = .s_started ∧
    ∃ pre0 m0 l0, [((101 : Int), loadDbFrom (.message GeoParser.disjointGeo))]
      = pre0 ++ [(m0, l0)] ∧ m0 = 101 :=
  (two_tick_quiescence exampleService 100 0
    [(101, loadDbFrom (.message GeoParser.disjointGeo))] ⟨.s_started, 101, 5000000⟩
    exampleService 101
    (by simp [watcherRun, watcherSwitch, watcherStart, exampleService, micros_five])).1
    (Or.inr ⟨loadDbFrom (.message GeoParser.disjointGeo), ⟨.s_none, 101, 5000000⟩,
      { exampleService with db_ := some (loadDb GeoParser.disjointGeo) }, rfl,
      by simp [exampleService]⟩)

end GeoDb

namespace GeoParser

open GeoDb

/-! ## The path of the snapshot file -/

/-- C26 (failing input): with `db.geodb_file` set to a string `path`, `initConfig` stores
`path` in `geoDbFile_`, but `saveGeoDb` opens `defaultGeoDbFile_`: the snapshot is written
to `geodb.dat` whatever path is configured. -/
theorem saveGeoDb_ignores_configured_path (path : String) (geodb_ : protobuf.Geo)
    (hp : path ≠ "geodb.dat") :
    ∃ c, initConfig Config.new (.ok ()) (some (.string path)) = .ok c ∧
      c.geoDbFile_ = path ∧ (saveGeoDb c geodb_).1 = "geodb.dat" ∧
      (saveGeoDb c geodb_).1 ≠ c.geoDbFile_ :=
  ⟨⟨"geodb.dat", path⟩, rfl, rfl, rfl, fun h => hp h.symm⟩

theorem saveGeoDb_ignores_configured_path_witness :
    "/var/lib/geo/geodb.dat" ≠ "geodb.dat" ∧
    ∃ c, initConfig Config.new (.ok ()) (some (.string "/var/lib/geo/geodb.dat")) = .ok c ∧
      c.geoDbFile_ = "/var/lib/geo/geodb.dat" ∧ (saveGeoDb c nestedGeo).1 = "geodb.dat" ∧
      (saveGeoDb c nestedGeo).1 ≠ c.geoDbFile_ :=
  ⟨by decide, saveGeoDb_ignores_configured_path "/var/lib/geo/geodb.dat" nestedGeo (by decide)⟩

end GeoParser

namespace GeoDb

/-! ## A lookup running beside the publish -/

/-- C27 (failing input): a lookup `getIpv4(ip)` has tested `db_` and taken the raw pointer
from it when the watcher publishes; the assignment `db_ = db` drops the last reference to
the old snapshot, which is destroyed, and the lookup then runs `find` on the destroyed
object. Run alone before or after the publish, the lookup returns the answer of the old
or of the new snapshot. -/
theorem lookup_beside_publish_faults (old new : Db) (ip : IPv4) :
    (interleave ip new [.reader, .reader, .watcher, .reader] (sharedWith old, .test)).2
      = .fault ∧
    (interleave ip new [.reader, .reader, .reader, .watcher] (sharedWith old, .test)).2
      = .done (old.findV4 ip) ∧
    (interleave ip new [.watcher, .reader, .reader, .reader] (sharedWith old, .test)).2
      = .done (new.findV4 ip) :=
  ⟨rfl, rfl, rfl⟩

end GeoDb

namespace GeoParser

open GeoDb

/-! ## What one locations row does -/

theorem findLocation_assign_self (id : Nat) (loc : Location) (locs : List (Nat × Location)) :
    findLocation (assignLocation id loc locs) id = some loc := by
  simp [findLocation, assignLocation]

theorem findLocation_assign_ne (id id2 : Nat) (loc : Location) (locs : List (Nat × Location))
    (h : id2 ≠ id) :
    findLocation (assignLocation id loc locs) id2 = findLocation locs id2 := by
  have h1 : (id == id2) = false := by simpa using Ne.symm h
  simp only [findLocation, assignLocation, List.find?_cons, h1]
  congr 1
  induction locs with
  | nil => rfl
  | cons e locs ih =>
    by_cases he : e.1 = id
    · have h2 : (e.1 == id2) = false := by simpa [he] using Ne.symm h
      simp [List.filter_cons, he, List.find?_cons, h1, ih]
    · by_cases h3 : e.1 = id2
      · subst h3
        simp [List.filter_cons, he, List.find?_cons]
      · simp [List.filter_cons, he, List.find?_cons, h3, ih]

theorem assignFrom_size (s : String) : assignFrom s s.data.length = "" := by
  unfold assignFrom
  rw [List.drop_length]

theorem countryStep_frame (en : Bool) (b : Builder) (values : List String) (l : Location) :
    ((countryStep en b values l).1.states_ = b.states_ ∧
      (countryStep en b values l).1.cities_ = b.cities_ ∧
      (countryStep en b values l).1.locations_ = b.locations_ ∧
      (countryStep en b values l).1.stateId_ = b.stateId_ ∧
      (countryStep en b values l).1.cityId_ = b.cityId_) ∧
    (countryStep en b values l).2.stateId = l.stateId ∧
    (countryStep en b values l).2.cityId = l.cityId ∧
    (countryStep en b values l).2.countryKey = values.getD 4 "" ∧
    (countryStep en b values l).2.stateKey = l.stateKey ∧
    (countryStep en b values l).2.cityName = l.cityName := by
  cases hfind : StdMap.find ltStr (values.getD 4 "") b.countries_ <;>
    simp only [countryStep, hfind, and_self]

theorem stateStep_frame (en : Bool) (b : Builder) (values : List String) (l : Location) :
    ((stateStep en b values l).1.countries_ = b.countries_ ∧
      (stateStep en b values l).1.cities_ = b.cities_ ∧
      (stateStep en b values l).1.locations_ = b.locations_ ∧
      (stateStep en b values l).1.countryId_ = b.countryId_ ∧
      (stateStep en b values l).1.cityId_ = b.cityId_) ∧
    (stateStep en b values l).2.countryId = l.countryId ∧
    (stateStep en b values l).2.cityId = l.cityId ∧
    (stateStep en b values l).2.countryKey = l.countryKey ∧
    (stateStep en b values l).2.stateKey = values.getD 6 "" ∧
    (stateStep en b values l).2.cityName = l.cityName := by
  cases hfind : StdMap.find ltStr (values.getD 4 "" ++ "." ++ values.getD 6 "") b.states_ <;>
    simp only [stateStep, hfind, and_self]

theorem cityStep_frame (en : Bool) (b : Builder) (values : List String) (l : Location) :
    ((cityStep en b values l).1.countries_ = b.countries_ ∧
      (cityStep en b values l).1.states_ = b.states_ ∧
      (cityStep en b values l).1.locations_ = b.locations_ ∧
      (cityStep en b values l).1.countryId_ = b.countryId_ ∧
      (cityStep en b values l).1.stateId_ = b.stateId_) ∧
    (cityStep en b values l).2.countryId = l.countryId ∧
    (cityStep en b values l).2.stateId = l.stateId ∧
    (cityStep en b values l).2.countryKey = l.countryKey ∧
    (cityStep en b values l).2.stateKey = l.stateKey := by
  cases hfind : StdMap.find ltStr
      (values.getD 4 "" ++ "." ++ values.getD 6 "" ++ "." ++ values.getD 0 "") b.cities_ <;>
    simp only [cityStep, hfind, and_self]

theorem cityStep_cityName (en : Bool) (b : Builder) (values : List String) (l : Location)
    (hl : l.cityName = "") : (cityStep en b values l).2.cityName = "" := by
  cases hfind : StdMap.find ltStr
      (values.getD 4 "" ++ "." ++ values.getD 6 "" ++ "." ++ values.getD 0 "") b.cities_ with
  | none =>
    simp only [cityStep, hfind]
    split
    · exact assignFrom_size _
    · exact hl
  | some c =>
    simp only [cityStep, hfind]
    split
    · exact assignFrom_size _
    · exact hl

theorem stateCityStep_frame (en : Bool) (b : Builder) (values : List String) (l : Location) :
    ((stateCityStep en b values l).1.countries_ = b.countries_ ∧
      (stateCityStep en b values l).1.locations_ = b.locations_ ∧
      (stateCityStep en b values l).1.countryId_ = b.countryId_) ∧
    (stateCityStep en b values l).2.countryId = l.countryId ∧
    (stateCityStep en b values l).2.countryKey = l.countryKey ∧
    (l.cityName = "" → (stateCityStep en b values l).2.cityName = "") := by
  obtain ⟨⟨s1, _, s3, s4, _⟩, s6, _, s8, _, s10⟩ := stateStep_frame en b values l
  unfold stateCityStep
  split
  · split
    · obtain ⟨⟨c1, _, c3, c4, _⟩, c6, _, c8, _⟩ :=
        cityStep_frame en (stateStep en b values l).1 values (stateStep en b values l).2
      refine ⟨⟨c1.trans s1, c3.trans s3, c4.trans s4⟩, c6.trans s6, c8.trans s8, ?_⟩
      intro hl
      exact cityStep_cityName en _ values _ (s10.trans hl)
    · exact ⟨⟨s1, s3, s4⟩, s6, s8, fun hl => s10.trans hl⟩
  · exact ⟨⟨rfl, rfl, rfl⟩, rfl, rfl, fun hl => hl⟩

theorem locationsRow_eq (atoui : String → Nat) (en : Bool) (b b2 : Builder)
    (values : List String) (h4 : values.getD 4 "" ≠ "")
    (h : locationsRow atoui en b values = .ok b2) :
    values.length = 14 ∧
    b2 = { (stateCityStep en (countryStep en b values ⟨0, 0, 0, "", "", ""⟩).1 values
              (countryStep en b values ⟨0, 0, 0, "", "", ""⟩).2).1 with
            locations_ := assignLocation (atoui (values.getD 0 ""))
              (if (stateCityStep en (countryStep en b values ⟨0, 0, 0, "", "", ""⟩).1 values
                    (countryStep en b values ⟨0, 0, 0, "", "", ""⟩).2).2.stateId = 703883
               then { (stateCityStep en (countryStep en b values ⟨0, 0, 0, "", "", ""⟩).1
                        values (countryStep en b values ⟨0, 0, 0, "", "", ""⟩).2).2 with
                      countryId := 2017370 }
               else (stateCityStep en (countryStep en b values ⟨0, 0, 0, "", "", ""⟩).1
                      values (countryStep en b values ⟨0, 0, 0, "", "", ""⟩).2).2)
              (stateCityStep en (countryStep en b values ⟨0, 0, 0, "", "", ""⟩).1 values
                (countryStep en b values ⟨0, 0, 0, "", "", ""⟩).2).1.locations_ } := by
  unfold locationsRow at h
  by_cases hlen : values.length ≠ locationsFields.length
  · rw [if_pos hlen] at h
    cases h
  · rw [if_neg hlen, if_neg h4] at h
    simp only [Except.ok.injEq] at h
    exact ⟨Decidable.of_not_not hlen, h.symm⟩

end GeoParser

namespace GeoParser

open GeoDb

theorem countryStep_country (en : Bool) (b : Builder) (values : List String) (l : Location) :
    ∃ c, StdMap.find ltStr (values.getD 4 "") (countryStep en b values l).1.countries_ = some c ∧
      (countryStep en b values l).2.countryId = c.id := by
  cases hfind : StdMap.find ltStr (values.getD 4 "") b.countries_ with
  | none =>
    simp only [countryStep, hfind]
    exact ⟨_, StdMap.find_assign_self ltStr_strictTotal _ _ _, rfl⟩
  | some c0 =>
    simp only [countryStep, hfind]
    exact ⟨_, StdMap.find_assign_self ltStr_strictTotal _ _ _, rfl⟩

theorem countryStep_new (en : Bool) (b : Builder) (values : List String) (l : Location)
    (hnew : StdMap.find ltStr (values.getD 4 "") b.countries_ = none) :
    StdMap.find ltStr (values.getD 4 "") (countryStep en b values l).1.countries_
      = some ⟨b.countryId_, values.getD 4 "", values.getD 5 "",
          if en then values.getD 5 "" else "", b.countryId_, true⟩ ∧
    (countryStep en b values l).1.countryId_ = (b.countryId_ + 1) % 2 ^ 32 ∧
    (countryStep en b values l).2
      = { l with countryId := b.countryId_, countryKey := values.getD 4 "" } := by
  simp only [countryStep, hnew]
  refine ⟨StdMap.find_assign_self ltStr_strictTotal _ _ _, ?_, ?_⟩ <;> first | rfl | trivial

theorem stateStep_new (en : Bool) (b : Builder) (values : List String) (l : Location)
    (hnew : StdMap.find ltStr (values.getD 4 "" ++ "." ++ values.getD 6 "") b.states_ = none) :
    StdMap.find ltStr (values.getD 4 "" ++ "." ++ values.getD 6 "")
        (stateStep en b values l).1.states_
      = some ⟨b.stateId_, values.getD 4 "" ++ "." ++ values.getD 6 "",
          if values.getD 7 "" ≠ "" then values.getD 7 "" else values.getD 6 "",
          if values.getD 7 "" ≠ "" then (if en then values.getD 7 "" else "") else "",
          b.stateId_, true, l.countryId⟩ := by
  simp only [stateStep, hnew]
  exact StdMap.find_assign_self ltStr_strictTotal _ _ _

theorem updateNames_english (value name nameEn : String) (store : Bool) (hv : value ≠ "") :
    (updateNames true value name nameEn store).2.1 = value := by
  unfold updateNames
  rw [if_pos hv]
  by_cases h : value ≠ nameEn
  · simp [h]
  · have h2 : value = nameEn := Decidable.of_not_not h
    simp [h2]

theorem cityStep_english (b : Builder) (values : List String) (l : Location)
    (h10 : values.getD 10 "" ≠ "") :
    ∃ c, StdMap.find ltStr
        (values.getD 4 "" ++ "." ++ values.getD 6 "" ++ "." ++ values.getD 0 "")
        (cityStep true b values l).1.cities_ = some c ∧ c.nameEn = values.getD 10 "" := by
  cases hfind : StdMap.find ltStr
      (values.getD 4 "" ++ "." ++ values.getD 6 "" ++ "." ++ values.getD 0 "") b.cities_ with
  | none =>
    simp only [cityStep, hfind]
    exact ⟨_, StdMap.find_assign_self ltStr_strictTotal _ _ _, rfl⟩
  | some c0 =>
    simp only [cityStep, hfind]
    exact ⟨_, StdMap.find_assign_self ltStr_strictTotal _ _ _,
      updateNames_english _ _ _ _ h10⟩

theorem stateCityStep_tables (en : Bool) (b : Builder) (values : List String) (l : Location) :
    (values.getD 6 "" ≠ "" →
      (stateCityStep en b values l).1.states_ = (stateStep en b values l).1.states_ ∧
      (stateCityStep en b values l).2.stateId = (stateStep en b values l).2.stateId) ∧
    (values.getD 6 "" ≠ "" → values.getD 10 "" ≠ "" →
      (stateCityStep en b values l).1.cities_
        = (cityStep en (stateStep en b values l).1 values (stateStep en b values l).2).1.cities_) ∧
    (values.getD 6 "" = "" → stateCityStep en b values l = (b, l)) := by
  refine ⟨?_, ?_, ?_⟩
  · intro h6
    unfold stateCityStep
    rw [if_pos h6]
    split
    · obtain ⟨⟨_, c2, _⟩, _, c7, _⟩ :=
        cityStep_frame en (stateStep en b values l).1 values (stateStep en b values l).2
      exact ⟨c2, c7⟩
    · exact ⟨rfl, rfl⟩
  · intro h6 h10
    unfold stateCityStep
    rw [if_pos h6]
    simp only [h10, ne_eq, not_false_eq_true, if_true]
  · intro h6
    unfold stateCityStep
    rw [if_neg (by simpa using h6)]

theorem locationsRow_stored (atoui : String → Nat) (en : Bool) (b b2 : Builder)
    (values : List String) (h4 : values.getD 4 "" ≠ "")
    (h : locationsRow atoui en b values = .ok b2) :
    (b2.countries_ = (countryStep en b values ⟨0, 0, 0, "", "", ""⟩).1.countries_ ∧
      b2.countryId_ = (countryStep en b values ⟨0, 0, 0, "", "", ""⟩).1.countryId_ ∧
      b2.states_ = (stateCityStep en (countryStep en b values ⟨0, 0, 0, "", "", ""⟩).1 values
        (countryStep en b values ⟨0, 0, 0, "", "", ""⟩).2).1.states_ ∧
      b2.cities_ = (stateCityStep en (countryStep en b values ⟨0, 0, 0, "", "", ""⟩).1 values
        (countryStep en b values ⟨0, 0, 0, "", "", ""⟩).2).1.cities_) ∧
    ∃ loc, findLocation b2.locations_ (atoui (values.getD 0 "")) = some loc ∧
      loc.countryKey = values.getD 4 "" ∧ loc.cityName = "" ∧
      loc.stateId = (stateCityStep en (countryStep en b values ⟨0, 0, 0, "", "", ""⟩).1 values
        (countryStep en b values ⟨0, 0, 0, "", "", ""⟩).2).2.stateId ∧
      (loc.stateId = 703883 → loc.countryId = 2017370) ∧
      (loc.stateId ≠ 703883 →
        loc.countryId = (countryStep en b values ⟨0, 0, 0, "", "", ""⟩).2.countryId) := by
  obtain ⟨_, hb2⟩ := locationsRow_eq atoui en b b2 values h4 h
  obtain ⟨_, _, _, k4, _, k6⟩ := countryStep_frame en b values ⟨0, 0, 0, "", "", ""⟩
  obtain ⟨⟨f1, _, f3⟩, f4, f5, f6⟩ :=
    stateCityStep_frame en (countryStep en b values ⟨0, 0, 0, "", "", ""⟩).1 values
      (countryStep en b values ⟨0, 0, 0, "", "", ""⟩).2
  have hname := f6 k6
  subst hb2
  refine ⟨⟨f1, f3, rfl, rfl⟩, _, findLocation_assign_self _ _ _, ?_⟩
  split
  · rename_i hst
    exact ⟨f5.trans k4, hname, rfl, fun _ => rfl, fun hne => absurd hst hne⟩
  · rename_i hst
    exact ⟨f5.trans k4, hname, rfl, fun he => absurd he hst, fun _ => f4⟩

end GeoParser

namespace GeoParser

open GeoDb

/-! ## The dirty flag -/

theorem dirtyStepTable_refl {V : Type} (name nameEn : V → String) (store : V → Bool)
    (t : List (String × V)) : DirtyStepTable name nameEn store t t := by
  refine ⟨fun k c h => ⟨c, h, ?_⟩, fun k c2 h2 h => ?_⟩
  · simp
  · rw [h] at h2; cases h2

theorem dirtyStepTable_insert {V : Type} (name nameEn : V → String) (store : V → Bool)
    (t : List (String × V)) (k0 : String) (v : V) (hnew : StdMap.find ltStr k0 t = none)
    (hv : store v = true) :
    DirtyStepTable name nameEn store t (StdMap.assign ltStr k0 v t) := by
  refine ⟨?_, ?_⟩
  · intro k c h
    rcases find_after_assign k0 v t k c h with ⟨_, h1, _⟩ | h1
    · rw [hnew] at h1; cases h1
    · exact ⟨c, h1, by simp⟩
  · intro k c2 h2 h
    by_cases hk : k = k0
    · subst hk
      rw [StdMap.find_assign_self ltStr_strictTotal] at h2
      cases h2
      exact hv
    · rw [StdMap.find_assign_ne ltStr_strictTotal _ _ _ _ hk, h] at h2
      cases h2

theorem dirtyStepTable_update {V : Type} (name nameEn : V → String) (store : V → Bool)
    (t : List (String × V)) (k0 : String) (c0 v : V)
    (hold : StdMap.find ltStr k0 t = some c0)
    (hv : store v = true ↔ store c0 = true ∨ name v ≠ name c0 ∨ nameEn v ≠ nameEn c0) :
    DirtyStepTable name nameEn store t (StdMap.assign ltStr k0 v t) := by
  refine ⟨?_, ?_⟩
  · intro k c h
    rcases find_after_assign k0 v t k c h with ⟨_, h1, h2⟩ | h1
    · rw [hold] at h1
      cases h1
      exact ⟨v, h2, hv⟩
    · exact ⟨c, h1, by simp⟩
  · intro k c2 h2 h
    by_cases hk : k = k0
    · subst hk
      rw [hold] at h; cases h
    · rw [StdMap.find_assign_ne ltStr_strictTotal _ _ _ _ hk, h] at h2
      cases h2

theorem updateNames_dirty (en : Bool) (value name nameEn : String) (store : Bool) :
    (updateNames en value name nameEn store).2.2 = true ↔
      store = true ∨ (updateNames en value name nameEn store).1 ≠ name ∨
        (updateNames en value name nameEn store).2.1 ≠ nameEn := by
  unfold updateNames
  by_cases hv : value ≠ ""
  · rw [if_pos hv]
    dsimp only
    by_cases hn : value ≠ name
    · rw [if_pos hn]
      by_cases he : en = true ∧ value ≠ nameEn
      · rw [if_pos he]
        exact ⟨fun _ => Or.inr (Or.inl hn), fun _ => rfl⟩
      · rw [if_neg he]
        exact ⟨fun _ => Or.inr (Or.inl hn), fun _ => rfl⟩
    · rw [if_neg hn]
      by_cases he : en = true ∧ value ≠ nameEn
      · rw [if_pos he]
        exact ⟨fun _ => Or.inr (Or.inr he.2), fun _ => rfl⟩
      · rw [if_neg he]
        exact ⟨fun h => Or.inl h, fun h => by
          rcases h with h | h | h
          · exact h
          · exact absurd rfl h
          · exact absurd rfl h⟩
  · rw [if_neg hv]
    exact ⟨fun h => Or.inl h, fun h => by
      rcases h with h | h | h
      · exact h
      · exact absurd rfl h
      · exact absurd rfl h⟩

end GeoParser

namespace GeoParser

open GeoDb

theorem countryStep_dirty (en : Bool) (b : Builder) (values : List String) (l : Location) :
    DirtyStepTable Country.name Country.nameEn Country.store b.countries_ (countryStep en b values l).1.countries_ := by
  cases hfind : StdMap.find ltStr (values.getD 4 "") b.countries_ with
  | none =>
    simp only [countryStep, hfind]
    exact dirtyStepTable_insert _ _ _ _ _ _ hfind rfl
  | some c0 =>
    simp only [countryStep, hfind]
    exact dirtyStepTable_update _ _ _ _ _ c0 _ hfind (updateNames_dirty en _ _ _ _)

theorem stateStep_dirty (en : Bool) (b : Builder) (values : List String) (l : Location) :
    DirtyStepTable State.name State.nameEn State.store b.states_ (stateStep en b values l).1.states_ := by
  cases hfind : StdMap.find ltStr (values.getD 4 "" ++ "." ++ values.getD 6 "") b.states_ with
  | none =>
    simp only [stateStep, hfind]
    exact dirtyStepTable_insert _ _ _ _ _ _ hfind rfl
  | some c0 =>
    simp only [stateStep, hfind]
    exact dirtyStepTable_update _ _ _ _ _ c0 _ hfind (updateNames_dirty en _ _ _ _)

theorem cityStep_dirty (en : Bool) (b : Builder) (values : List String) (l : Location) :
    DirtyStepTable City.name City.nameEn City.store b.cities_ (cityStep en b values l).1.cities_ := by
  cases hfind : StdMap.find ltStr (values.getD 4 "" ++ "." ++ values.getD 6 "" ++ "." ++ values.getD 0 "") b.cities_ with
  | none =>
    simp only [cityStep, hfind]
    exact dirtyStepTable_insert _ _ _ _ _ _ hfind rfl
  | some c0 =>
    simp only [cityStep, hfind]
    exact dirtyStepTable_update _ _ _ _ _ c0 _ hfind (updateNames_dirty en _ _ _ _)

theorem locationsRow_skip (atoui : String → Nat) (en : Bool) (b b2 : Builder)
    (values : List String) (h4 : values.getD 4 "" = "")
    (h : locationsRow atoui en b values = .ok b2) : b2 = b := by
  unfold locationsRow at h
  by_cases hlen : values.length ≠ locationsFields.length
  · rw [if_pos hlen] at h
    cases h
  · rw [if_neg hlen, if_pos h4] at h
    simp only [Except.ok.injEq] at h
    exact h.symm

theorem stateCityStep_no_city (en : Bool) (b : Builder) (values : List String) (l : Location)
    (h10 : values.getD 10 "" = "") :
    (stateCityStep en b values l).1.cities_ = b.cities_ := by
  unfold stateCityStep
  split
  · rw [if_neg (by simpa using h10)]
    exact (stateStep_frame en b values l).1.2.1
  · rfl

theorem locationsRow_dirty (atoui : String → Nat) (en : Bool) (b b2 : Builder)
    (values : List String) (h : locationsRow atoui en b values = .ok b2) : DirtyStep b b2 := by
  by_cases h4 : values.getD 4 "" = ""
  · rw [locationsRow_skip atoui en b b2 values h4 h]
    exact ⟨dirtyStepTable_refl _ _ _ _, dirtyStepTable_refl _ _ _ _,
      dirtyStepTable_refl _ _ _ _⟩
  · obtain ⟨⟨t1, _, t3, t4⟩, _⟩ := locationsRow_stored atoui en b b2 values h4 h
    obtain ⟨⟨k1, k2, _⟩, _⟩ := countryStep_frame en b values ⟨0, 0, 0, "", "", ""⟩
    obtain ⟨s1, s2, s3⟩ :=
      stateCityStep_tables en (countryStep en b values ⟨0, 0, 0, "", "", ""⟩).1 values
        (countryStep en b values ⟨0, 0, 0, "", "", ""⟩).2
    refine ⟨?_, ?_, ?_⟩
    · rw [t1]
      exact countryStep_dirty en b values _
    · rw [t3]
      by_cases h6 : values.getD 6 "" = ""
      · rw [s3 h6, k1]
        exact dirtyStepTable_refl _ _ _ _
      · rw [(s1 h6).1]
        have := stateStep_dirty en (countryStep en b values ⟨0, 0, 0, "", "", ""⟩).1 values
          (countryStep en b values ⟨0, 0, 0, "", "", ""⟩).2
        rw [k1] at this
        exact this
    · rw [t4]
      by_cases h6 : values.getD 6 "" = ""
      · rw [s3 h6, k2]
        exact dirtyStepTable_refl _ _ _ _
      · by_cases h10 : values.getD 10 "" = ""
        · rw [stateCityStep_no_city en _ values _ h10, k2]
          exact dirtyStepTable_refl _ _ _ _
        · rw [s2 h6 h10]
          have := cityStep_dirty en
            (stateStep en (countryStep en b values ⟨0, 0, 0, "", "", ""⟩).1 values
              (countryStep en b values ⟨0, 0, 0, "", "", ""⟩).2).1 values
            (stateStep en (countryStep en b values ⟨0, 0, 0, "", "", ""⟩).1 values
              (countryStep en b values ⟨0, 0, 0, "", "", ""⟩).2).2
          rw [(stateStep_frame en _ values _).1.2.1, k2] at this
          exact this

theorem dirtyRunTable_refl {V : Type} (name nameEn : V → String) (store : V → Bool)
    (t : List (String × V)) : DirtyRunTable name nameEn store t t := by
  refine ⟨fun k c h => ⟨c, h, fun hs => hs, fun _ => ⟨rfl, rfl⟩⟩, fun k c2 h2 h => ?_⟩
  rw [h] at h2; cases h2

theorem dirtyRunTable_of_step {V : Type} (name nameEn : V → String) (store : V → Bool)
    (t t2 : List (String × V)) (h : DirtyStepTable name nameEn store t t2) :
    DirtyRunTable name nameEn store t t2 := by
  refine ⟨?_, h.2⟩
  intro k c hc
  obtain ⟨c2, h2, hiff⟩ := h.1 k c hc
  refine ⟨c2, h2, fun hs => hiff.2 (Or.inl hs), ?_⟩
  intro hf
  have hn : ¬ (store c = true ∨ name c2 ≠ name c ∨ nameEn c2 ≠ nameEn c) := by
    intro hx
    rw [hiff.2 hx] at hf
    cases hf
  rw [not_or, not_or] at hn
  exact ⟨Decidable.of_not_not hn.2.1, Decidable.of_not_not hn.2.2⟩

theorem dirtyRunTable_trans {V : Type} (name nameEn : V → String) (store : V → Bool)
    (t1 t2 t3 : List (String × V)) (h12 : DirtyRunTable name nameEn store t1 t2)
    (h23 : DirtyRunTable name nameEn store t2 t3) : DirtyRunTable name nameEn store t1 t3 := by
  refine ⟨?_, ?_⟩
  · intro k c hc
    obtain ⟨c2, h2, m2, n2⟩ := h12.1 k c hc
    obtain ⟨c3, h3, m3, n3⟩ := h23.1 k c2 h2
    refine ⟨c3, h3, fun hs => m3 (m2 hs), ?_⟩
    intro hf
    have hf2 : store c2 = false := by
      cases hs : store c2 with
      | false => rfl
      | true =>
        rw [m3 hs] at hf
        cases hf
    exact ⟨(n3 hf).1.trans (n2 hf2).1, (n3 hf).2.trans (n2 hf2).2⟩
  · intro k c3 h3 h1
    cases h2 : StdMap.find ltStr k t2 with
    | none => exact h23.2 k c3 h3 h2
    | some c2 =>
      obtain ⟨c3b, h3b, m3, _⟩ := h23.1 k c2 h2
      rw [h3] at h3b
      cases h3b
      exact m3 (h12.2 k c2 h2 h1)

theorem dirtyRun_refl (b : Builder) : DirtyRun b b :=
  ⟨dirtyRunTable_refl _ _ _ _, dirtyRunTable_refl _ _ _ _, dirtyRunTable_refl _ _ _ _⟩

theorem dirtyRun_of_step {b b2 : Builder} (h : DirtyStep b b2) : DirtyRun b b2 :=
  ⟨dirtyRunTable_of_step _ _ _ _ _ h.1, dirtyRunTable_of_step _ _ _ _ _ h.2.1,
    dirtyRunTable_of_step _ _ _ _ _ h.2.2⟩

theorem dirtyRun_trans {b1 b2 b3 : Builder} (h12 : DirtyRun b1 b2) (h23 : DirtyRun b2 b3) :
    DirtyRun b1 b3 :=
  ⟨dirtyRunTable_trans _ _ _ _ _ _ h12.1 h23.1, dirtyRunTable_trans _ _ _ _ _ _ h12.2.1 h23.2.1,
    dirtyRunTable_trans _ _ _ _ _ _ h12.2.2 h23.2.2⟩

theorem foldlM_locationsRow_dirty (atoui : String → Nat) (en : Bool) (rows : List (List String))
    (b b2 : Builder) (h : rows.foldlM (locationsRow atoui en) b = .ok b2) : DirtyRun b b2 := by
  induction rows generalizing b with
  | nil =>
    simp only [List.foldlM, pure, Except.pure, Except.ok.injEq] at h
    subst h
    exact dirtyRun_refl b
  | cons values rows ih =>
    simp only [List.foldlM, bind, Except.bind] at h
    split at h
    · cases h
    · rename_i b1 h1
      exact dirtyRun_trans (dirtyRun_of_step (locationsRow_dirty atoui en b b1 values h1))
        (ih b1 h)

theorem loadLocations_dirty (atoui : String → Nat) (en : Bool) (b b2 : Builder)
    (header : List String) (rows : List (List String))
    (h : loadLocations atoui en b header rows = .ok b2) : DirtyRun b b2 := by
  unfold loadLocations at h
  split at h
  · cases h
  · split at h
    · cases h
    · exact foldlM_locationsRow_dirty atoui en rows b b2 h

end GeoParser

namespace GeoParser

open GeoDb

/-! ## Rows of the locations file: the claims -/

/-- C21: when a processed locations row has a non-empty `country_iso_code` that is not in
the catalogue, `loadLocations` files under that key a Country with id the value of
`countryId_` before the row, key `country_iso_code`, name `country_name`, nameEn
`country_name` in the English file and empty otherwise, weight the id and `store` true;
`countryId_` is raised by one (modulo 2^32); the row's Location is given that id as
`countryId` and `country_iso_code` as `countryKey`, and is stored with them unless its
`stateId` is 703883. -/
theorem new_country_row (atoui : String → Nat) (en : Bool) (b b2 : Builder)
    (values : List String) (h4 : values.getD 4 "" ≠ "")
    (hnew : StdMap.find ltStr (values.getD 4 "") b.countries_ = none)
    (h : locationsRow atoui en b values = .ok b2) :
    StdMap.find ltStr (values.getD 4 "") b2.countries_
      = some ⟨b.countryId_, values.getD 4 "", values.getD 5 "",
          if en then values.getD 5 "" else "", b.countryId_, true⟩ ∧
    b2.countryId_ = (b.countryId_ + 1) % 2 ^ 32 ∧
    (countryStep en b values ⟨0, 0, 0, "", "", ""⟩).2
      = ⟨b.countryId_, 0, 0, values.getD 4 "", "", ""⟩ ∧
    ∃ loc, findLocation b2.locations_ (atoui (values.getD 0 "")) = some loc ∧
      loc.countryKey = values.getD 4 "" ∧ (loc.stateId ≠ 703883 → loc.countryId = b.countryId_) := by
  obtain ⟨⟨t1, t2, _⟩, loc, hloc, hkey, _, _, _, hid⟩ :=
    locationsRow_stored atoui en b b2 values h4 h
  obtain ⟨n1, n2, n3⟩ := countryStep_new en b values ⟨0, 0, 0, "", "", ""⟩ hnew
  refine ⟨by rw [t1]; exact n1, by rw [t2]; exact n2, n3, loc, hloc, hkey, ?_⟩
  intro hne
  rw [hid hne, n3]

theorem new_country_row_witness :
    StdMap.find ltStr "FR" parisBuilder.countries_
      = some ⟨8, "FR", "France", "France", 8, true⟩ ∧
    parisBuilder.countryId_ = 9 ∧
    ∃ loc, findLocation parisBuilder.locations_ 2988507 = some loc ∧
      loc.countryKey = "FR" ∧ (loc.stateId ≠ 703883 → loc.countryId = 8) :=
  have h := new_country_row atoui true munichBuilder parisBuilder parisRow (by decide) rfl rfl
  ⟨h.1, h.2.1, h.2.2.2⟩

/-- C23 (failing input): for every row of the English file with non-empty
`country_iso_code`, `subdivision_1_iso_code` and `city_name`, the city filed in the
catalogue has `city_name` as its English name, but the Location stored for the row has an
empty `cityName`: `cityName.assign(nameEn, nameEn.size())` copies the part of `nameEn`
that starts at its end. -/
theorem english_row_stores_empty_cityName (atoui : String → Nat) (b b2 : Builder)
    (values : List String) (h4 : values.getD 4 "" ≠ "") (h6 : values.getD 6 "" ≠ "")
    (h10 : values.getD 10 "" ≠ "") (h : locationsRow atoui true b values = .ok b2) :
    (∃ c, StdMap.find ltStr
        (values.getD 4 "" ++ "." ++ values.getD 6 "" ++ "." ++ values.getD 0 "") b2.cities_
          = some c ∧ c.nameEn = values.getD 10 "") ∧
    ∃ loc, findLocation b2.locations_ (atoui (values.getD 0 "")) = some loc ∧
      loc.cityName = "" ∧ loc.cityName ≠ values.getD 10 "" := by
  obtain ⟨⟨_, _, _, t4⟩, loc, hloc, _, hname, _⟩ :=
    locationsRow_stored atoui true b b2 values h4 h
  obtain ⟨_, s2, _⟩ :=
    stateCityStep_tables true (countryStep true b values ⟨0, 0, 0, "", "", ""⟩).1 values
      (countryStep true b values ⟨0, 0, 0, "", "", ""⟩).2
  refine ⟨?_, loc, hloc, hname, ?_⟩
  · rw [t4, s2 h6 h10]
    exact cityStep_english _ values _ h10
  · rw [hname]
    exact fun he => h10 he.symm

theorem english_row_stores_empty_cityName_witness :
    (∃ c, StdMap.find ltStr "DE.BY.2867714" munichBuilder.cities_ = some c ∧
      c.nameEn = "Munich") ∧
    ∃ loc, findLocation munichBuilder.locations_ 2867714 = some loc ∧
      loc.cityName = "" ∧ loc.cityName ≠ "Munich" :=
  english_row_stores_empty_cityName atoui exampleBuilder munichBuilder munichRow (by decide)
    (by decide) (by decide) rfl

/-- C29 (failing input): when a row creates a new state, the state is filed with name
`subdivision_1_name`, or `subdivision_1_iso_code` when that is empty; its nameEn is
`subdivision_1_name` in the English file when that is not empty, and is empty when
`subdivision_1_name` is empty, in the English file too: the source assigns `state.name`
a second time where `state.nameEn` was due. -/
theorem new_state_without_name_has_no_nameEn (atoui : String → Nat) (en : Bool)
    (b b2 : Builder) (values : List String) (h4 : values.getD 4 "" ≠ "")
    (h6 : values.getD 6 "" ≠ "")
    (hnew : StdMap.find ltStr (values.getD 4 "" ++ "." ++ values.getD 6 "") b.states_ = none)
    (h : locationsRow atoui en b values = .ok b2) :
    ∃ s, StdMap.find ltStr (values.getD 4 "" ++ "." ++ values.getD 6 "") b2.states_ = some s ∧
      (values.getD 7 "" ≠ "" →
        s.name = values.getD 7 "" ∧ s.nameEn = (if en then values.getD 7 "" else "")) ∧
      (values.getD 7 "" = "" →
        s.name = values.getD 6 "" ∧ s.nameEn = "" ∧ s.nameEn ≠ values.getD 6 "") := by
  obtain ⟨⟨_, _, t3, _⟩, _⟩ := locationsRow_stored atoui en b b2 values h4 h
  obtain ⟨⟨k1, _⟩, _⟩ := countryStep_frame en b values ⟨0, 0, 0, "", "", ""⟩
  obtain ⟨s1, _, _⟩ :=
    stateCityStep_tables en (countryStep en b values ⟨0, 0, 0, "", "", ""⟩).1 values
      (countryStep en b values ⟨0, 0, 0, "", "", ""⟩).2
  have hnew2 : StdMap.find ltStr (values.getD 4 "" ++ "." ++ values.getD 6 "")
      (countryStep en b values ⟨0, 0, 0, "", "", ""⟩).1.states_ = none := by
    rw [k1]; exact hnew
  have hs := stateStep_new en _ values (countryStep en b values ⟨0, 0, 0, "", "", ""⟩).2 hnew2
  rw [← (s1 h6).1, ← t3] at hs
  refine ⟨_, hs, ?_, ?_⟩
  · intro h7
    exact ⟨if_pos h7, if_pos h7⟩
  · intro h7
    have h7n : ¬ values.getD 7 "" ≠ "" := fun hx => hx h7
    refine ⟨if_neg h7n, if_neg h7n, ?_⟩
    show (if values.getD 7 "" ≠ "" then (if en then values.getD 7 "" else "") else "")
      ≠ values.getD 6 ""
    rw [if_neg h7n]
    exact fun he => h6 he.symm

end GeoParser

namespace GeoParser

open GeoDb

theorem new_state_without_name_has_no_nameEn_witness :
    ∃ s, StdMap.find ltStr "DE.BE" berlinBuilder.states_ = some s ∧
      s.name = "BE" ∧ s.nameEn = "" ∧ s.nameEn ≠ "BE" :=
  have h := new_state_without_name_has_no_nameEn atoui true exampleBuilder berlinBuilder
    berlinRow (by decide) (by decide) rfl rfl
  h.elim fun s hs => ⟨s, hs.1, hs.2.2 rfl⟩

/-- C22 (counterexample): the catalogue is loaded with Germany under the name
`Deutschland`; the English file renames it to `Germany` and the other file renames it
back. After the run the row, which was not created in the run, has the name it was
loaded with and is dirty. -/
theorem dirty_although_name_is_the_loaded_one :
    StdMap.find ltStr "DE" (loadFromDb Builder.new exampleCountries exampleStates []).countries_
      = some ⟨7, "DE", "Deutschland", "Germany", 7, false⟩ ∧
    loadLocations atoui true (loadFromDb Builder.new exampleCountries exampleStates [])
      locationsFields [munichRow] = .ok munichBuilder ∧
    loadLocations atoui false munichBuilder locationsFields [muenchenRow]
      = .ok muenchenBuilder ∧
    StdMap.find ltStr "DE" muenchenBuilder.countries_
      = some ⟨7, "DE", "Deutschland", "Germany", 7, true⟩ :=
  ⟨rfl, rfl, rfl, rfl⟩

/-- C22 (amended): while the Builder processes the locations files the dirty flag of a
catalogue row is never lowered, and one processed row raises it exactly when it creates
the row or leaves it with a name or an English name different from the one it held.
Hence after the English file, and after the English and then the Russian file, every row
created in the run is dirty, a row that was dirty stays dirty, and a pre-existing row that
is not dirty has the name and the English name it had before. -/
theorem dirty_flag_rule (atoui : String → Nat) (b : Builder) :
    (∀ en values b2, locationsRow atoui en b values = .ok b2 → DirtyStep b b2) ∧
    (∀ en header rows b2, loadLocations atoui en b header rows = .ok b2 → DirtyRun b b2) ∧
    (∀ headerEn rowsEn headerRu rowsRu b1 b2,
      loadLocations atoui true b headerEn rowsEn = .ok b1 →
      loadLocations atoui false b1 headerRu rowsRu = .ok b2 → DirtyRun b b2) :=
  ⟨fun en values b2 h => locationsRow_dirty atoui en b b2 values h,
   fun en header rows b2 h => loadLocations_dirty atoui en b b2 header rows h,
   fun headerEn rowsEn headerRu rowsRu b1 b2 h1 h2 =>
     dirtyRun_trans (loadLocations_dirty atoui true b b1 headerEn rowsEn h1)
       (loadLocations_dirty atoui false b1 b2 headerRu rowsRu h2)⟩

theorem dirty_flag_rule_witness :
    (∃ c2, StdMap.find ltStr "DE" munichBuilder.countries_ = some c2 ∧
      (c2.store = true ↔ false = true ∨ c2.name ≠ "Deutschland" ∨ c2.nameEn ≠ "Germany")) ∧
    (∃ c2, StdMap.find ltStr "DE" muenchenBuilder.countries_ = some c2 ∧
      ((false = true) → c2.store = true) ∧
      (c2.store = false → c2.name = "Deutschland" ∧ c2.nameEn = "Germany")) :=
  ⟨((dirty_flag_rule atoui exampleBuilder).1 true munichRow munichBuilder rfl).1.1 "DE"
      ⟨7, "DE", "Deutschland", "Germany", 7, false⟩ rfl,
   ((dirty_flag_rule atoui exampleBuilder).2.2 locationsFields [munichRow] locationsFields
      [muenchenRow] munichBuilder muenchenBuilder rfl rfl).1.1 "DE"
      ⟨7, "DE", "Deutschland", "Germany", 7, false⟩ rfl⟩

end GeoParser

namespace GeoParser

open GeoDb

/-! ## Rows of the blocks files -/

theorem length_ne_zero_iff (s : String) : s.length ≠ 0 ↔ s ≠ "" := by
  obtain ⟨d⟩ := s
  cases d with
  | nil => exact ⟨fun h => absurd rfl h, fun h => absurd rfl h⟩
  | cons c cs =>
    refine ⟨fun _ he => ?_, fun _ he => ?_⟩
    · have := congrArg String.data he
      cases this
    · cases he

theorem resolveLocation_iff (atoui : String → Nat) (locations_ : Nat → Option Location)
    (values : List String) (loc : Location) :
    resolveLocation atoui locations_ values = some loc ↔
      (locations_ (atoui (values.getD 1 "")) = some loc ∨
        (locations_ (atoui (values.getD 1 "")) = none ∧ values.getD 2 "" ≠ "" ∧
          locations_ (atoui (values.getD 2 "")) = some loc)) := by
  unfold resolveLocation
  cases h1 : locations_ (atoui (values.getD 1 "")) with
  | some l1 => simp
  | none =>
    by_cases h2 : (values.getD 2 "").length ≠ 0
    · have h2s := (length_ne_zero_iff _).1 h2
      simp only [if_pos h2]
      constructor
      · intro h
        exact Or.inr ⟨trivial, h2s, h⟩
      · intro h
        rcases h with h | ⟨_, _, h⟩
        · cases h
        · exact h
    · have h2s : ¬ values.getD 2 "" ≠ "" := fun hx => h2 ((length_ne_zero_iff _).2 hx)
      simp only [if_neg h2]
      constructor
      · intro h
        cases h
      · intro h
        rcases h with h | ⟨_, hx, _⟩
        · cases h
        · exact absurd hx h2s

theorem resolveLocation_mem (atoui : String → Nat) (locations_ : Nat → Option Location)
    (values : List String) (loc : Location)
    (h : resolveLocation atoui locations_ values = some loc) :
    ∃ id, locations_ id = some loc := by
  rcases (resolveLocation_iff atoui locations_ values loc).1 h with h | ⟨_, _, h⟩
  · exact ⟨_, h⟩
  · exact ⟨_, h⟩

theorem ipv4BlocksRow_skip (atoi : String → Int) (atoui : String → Nat)
    (codeTransf : String → Option String) (locations_ : Nat → Option Location)
    (geodb_ : protobuf.Geo) (values : List String) (r : IPv4 × IPv4)
    (hlen : values.length = blocksFields.length)
    (hr : net4ToRange atoi (values.getD 0 "") = some r)
    (hno : memchr '/' (values.getD 0 "").data = none ∨
      resolveLocation atoui locations_ values = none) :
    ipv4BlocksRow atoi atoui codeTransf locations_ geodb_ values = .ok geodb_ := by
  unfold ipv4BlocksRow
  rw [if_neg (by simpa using hlen)]
  cases hm : memchr '/' (values.getD 0 "").data with
  | none => rfl
  | some p =>
    rcases hno with hno | hno
    · rw [hm] at hno; cases hno
    · simp only [hr, hno]

theorem ipv4BlocksRow_emit (atoi : String → Int) (atoui : String → Nat)
    (codeTransf : String → Option String) (locations_ : Nat → Option Location)
    (geodb_ : protobuf.Geo) (values : List String) (r : IPv4 × IPv4) (p : Nat)
    (loc : Location) (iso3 : String)
    (hlen : values.length = blocksFields.length)
    (hr : net4ToRange atoi (values.getD 0 "") = some r)
    (hm : memchr '/' (values.getD 0 "").data = some p)
    (hl : resolveLocation atoui locations_ values = some loc)
    (hc : codeTransf loc.countryKey = some iso3) :
    ipv4BlocksRow atoi atoui codeTransf locations_ geodb_ values
      = .ok { geodb_ with
              ipsv4 := geodb_.ipsv4 ++ [⟨r.1, r.2, loc.countryId, loc.stateId, loc.cityId,
                iso3, loc.stateKey, loc.cityName⟩] } := by
  unfold ipv4BlocksRow
  rw [if_neg (by simpa using hlen)]
  simp only [hm, hr, hl, hc]

theorem ipv4BlocksRow_ok (atoi : String → Int) (atoui : String → Nat)
    (codeTransf : String → Option String) (locations_ : Nat → Option Location)
    (geodb_ geo2 : protobuf.Geo) (values : List String)
    (h : ipv4BlocksRow atoi atoui codeTransf locations_ geodb_ values = .ok geo2) :
    geo2 = geodb_ ∨
    ∃ r : IPv4 × IPv4, ∃ loc iso3, resolveLocation atoui locations_ values = some loc ∧
      geo2 = { geodb_ with
               ipsv4 := geodb_.ipsv4 ++ [⟨r.1, r.2, loc.countryId, loc.stateId, loc.cityId,
                 iso3, loc.stateKey, loc.cityName⟩] } := by
  by_cases hlen : values.length = blocksFields.length
  · cases hm : memchr '/' (values.getD 0 "").data with
    | none =>
      unfold ipv4BlocksRow at h
      rw [if_neg (by simpa using hlen)] at h
      simp only [hm, Except.ok.injEq] at h
      exact Or.inl h.symm
    | some p =>
      cases hr : net4ToRange atoi (values.getD 0 "") with
      | none =>
        unfold ipv4BlocksRow at h
        rw [if_neg (by simpa using hlen)] at h
        simp only [hm, hr] at h
        cases h
      | some r =>
        cases hl : resolveLocation atoui locations_ values with
        | none =>
          rw [ipv4BlocksRow_skip atoi atoui codeTransf locations_ geodb_ values r hlen hr
            (Or.inr hl)] at h
          simp only [Except.ok.injEq] at h
          exact Or.inl h.symm
        | some loc =>
          cases hc : codeTransf loc.countryKey with
          | none =>
            unfold ipv4BlocksRow at h
            rw [if_neg (by simpa using hlen)] at h
            simp only [hm, hr, hl, hc] at h
            cases h
          | some iso3 =>
            rw [ipv4BlocksRow_emit atoi atoui codeTransf locations_ geodb_ values r p loc iso3
              hlen hr hm hl hc] at h
            simp only [Except.ok.injEq] at h
            exact Or.inr ⟨r, loc, iso3, rfl, h.symm⟩
  · unfold ipv4BlocksRow at h
    rw [if_pos hlen] at h
    cases h

theorem ipv6BlocksRow_ok (inet_pton6 : String → Option (List Nat)) (atoi : String → Int)
    (atoui : String → Nat) (codeTransf : String → Option String)
    (locations_ : Nat → Option Location) (geodb_ geo2 : protobuf.Geo) (values : List String)
    (h : ipv6BlocksRow inet_pton6 atoi atoui codeTransf locations_ geodb_ values = .ok geo2) :
    geo2 = geodb_ ∨
    ∃ r : IPv6 × IPv6, ∃ loc iso3, resolveLocation atoui locations_ values = some loc ∧
      geo2 = { geodb_ with
               ipsv6 := geodb_.ipsv6 ++ [⟨r.1.hi, r.1.lo, r.2.hi, r.2.lo, loc.countryId,
                 loc.stateId, loc.cityId, iso3, loc.stateKey, loc.cityName⟩] } := by
  unfold ipv6BlocksRow at h
  by_cases hlen : values.length ≠ blocksFields.length
  · rw [if_pos hlen] at h
    cases h
  · rw [if_neg hlen] at h
    cases hm : memchr '/' (values.getD 0 "").data with
    | none =>
      simp only [hm, Except.ok.injEq] at h
      exact Or.inl h.symm
    | some p =>
      cases hr : net6ToRange inet_pton6 atoi (values.getD 0 "") with
      | none =>
        simp only [hm, hr] at h
        cases h
      | some r =>
        cases hl : resolveLocation atoui locations_ values with
        | none =>
          simp only [hm, hr, hl, Except.ok.injEq] at h
          exact Or.inl h.symm
        | some loc =>
          cases hc : codeTransf loc.countryKey with
          | none =>
            simp only [hm, hr, hl, hc] at h
            cases h
          | some iso3 =>
            simp only [hm, hr, hl, hc, Except.ok.injEq] at h
            exact Or.inr ⟨r, loc, iso3, rfl, h.symm⟩

end GeoParser

namespace GeoParser

open GeoDb

/-! ## The subdivision 703883 -/

theorem locationsRow_locations (atoui : String → Nat) (en : Bool) (b b2 : Builder)
    (values : List String) (h4 : values.getD 4 "" ≠ "")
    (h : locationsRow atoui en b values = .ok b2) :
    ∃ loc, b2.locations_ = assignLocation (atoui (values.getD 0 "")) loc b.locations_ := by
  obtain ⟨_, hb2⟩ := locationsRow_eq atoui en b b2 values h4 h
  obtain ⟨⟨_, _, k3, _⟩, _⟩ := countryStep_frame en b values ⟨0, 0, 0, "", "", ""⟩
  obtain ⟨⟨_, f2, _⟩, _⟩ :=
    stateCityStep_frame en (countryStep en b values ⟨0, 0, 0, "", "", ""⟩).1 values
      (countryStep en b values ⟨0, 0, 0, "", "", ""⟩).2
  subst hb2
  exact ⟨_, congrArg (assignLocation _ _) (f2.trans k3)⟩

theorem locationsRow_crimea (atoui : String → Nat) (en : Bool) (b b2 : Builder)
    (values : List String)
    (hb : ∀ id loc, findLocation b.locations_ id = some loc →
      loc.stateId = 703883 → loc.countryId = 2017370)
    (h : locationsRow atoui en b values = .ok b2) :
    ∀ id loc, findLocation b2.locations_ id = some loc →
      loc.stateId = 703883 → loc.countryId = 2017370 := by
  by_cases h4 : values.getD 4 "" = ""
  · rw [locationsRow_skip atoui en b b2 values h4 h]
    exact hb
  · obtain ⟨_, loc0, hloc0, _, _, _, hrule, _⟩ := locationsRow_stored atoui en b b2 values h4 h
    obtain ⟨loc1, hl⟩ := locationsRow_locations atoui en b b2 values h4 h
    intro id loc hfind
    by_cases hid : id = atoui (values.getD 0 "")
    · subst hid
      rw [hloc0] at hfind
      cases hfind
      exact hrule
    · rw [hl, findLocation_assign_ne _ _ _ _ hid] at hfind
      exact hb id loc hfind

theorem foldlM_locationsRow_crimea (atoui : String → Nat) (en : Bool)
    (rows : List (List String)) (b b2 : Builder)
    (hb : ∀ id loc, findLocation b.locations_ id = some loc →
      loc.stateId = 703883 → loc.countryId = 2017370)
    (h : rows.foldlM (locationsRow atoui en) b = .ok b2) :
    ∀ id loc, findLocation b2.locations_ id = some loc →
      loc.stateId = 703883 → loc.countryId = 2017370 := by
  induction rows generalizing b with
  | nil =>
    simp only [List.foldlM, pure, Except.pure, Except.ok.injEq] at h
    subst h
    exact hb
  | cons values rows ih =>
    simp only [List.foldlM, bind, Except.bind] at h
    split at h
    · cases h
    · rename_i b1 h1
      exact ih b1 (locationsRow_crimea atoui en b b1 values hb h1) h

theorem loadLocations_crimea (atoui : String → Nat) (en : Bool) (b b2 : Builder)
    (header : List String) (rows : List (List String))
    (hb : ∀ id loc, findLocation b.locations_ id = some loc →
      loc.stateId = 703883 → loc.countryId = 2017370)
    (h : loadLocations atoui en b header rows = .ok b2) :
    ∀ id loc, findLocation b2.locations_ id = some loc →
      loc.stateId = 703883 → loc.countryId = 2017370 := by
  unfold loadLocations at h
  split at h
  · cases h
  · split at h
    · cases h
    · exact foldlM_locationsRow_crimea atoui en rows b b2 hb h

theorem foldlM_ipv4BlocksRow_crimea (atoi : String → Int) (atoui : String → Nat)
    (codeTransf : String → Option String) (locations_ : Nat → Option Location)
    (rows : List (List String)) (geo geo2 : protobuf.Geo)
    (hl : ∀ id loc, locations_ id = some loc → loc.stateId = 703883 → loc.countryId = 2017370)
    (hg : ∀ r ∈ geo.ipsv4, r.state_id = 703883 → r.country_id = 2017370)
    (h : rows.foldlM (ipv4BlocksRow atoi atoui codeTransf locations_) geo = .ok geo2) :
    ∀ r ∈ geo2.ipsv4, r.state_id = 703883 → r.country_id = 2017370 := by
  induction rows generalizing geo with
  | nil =>
    simp only [List.foldlM, pure, Except.pure, Except.ok.injEq] at h
    subst h
    exact hg
  | cons values rows ih =>
    simp only [List.foldlM, bind, Except.bind] at h
    split at h
    · cases h
    · rename_i geo1 h1
      refine ih geo1 ?_ h
      rcases ipv4BlocksRow_ok atoi atoui codeTransf locations_ geo geo1 values h1 with
        he | ⟨r, loc, iso3, hres, he⟩
      · rw [he]; exact hg
      · obtain ⟨id, hid⟩ := resolveLocation_mem atoui locations_ values loc hres
        intro e hmem
        rw [he] at hmem
        rcases List.mem_append.1 hmem with hm | hm
        · exact hg e hm
        · rw [List.mem_singleton] at hm
          subst hm
          exact hl id loc hid

theorem loadIPv4Blocks_crimea (atoi : String → Int) (atoui : String → Nat)
    (codeTransf : String → Option String) (locations_ : Nat → Option Location)
    (geo geo2 : protobuf.Geo) (header : List String) (rows : List (List String))
    (hl : ∀ id loc, locations_ id = some loc → loc.stateId = 703883 → loc.countryId = 2017370)
    (hg : ∀ r ∈ geo.ipsv4, r.state_id = 703883 → r.country_id = 2017370)
    (h : loadIPv4Blocks atoi atoui codeTransf locations_ geo header rows = .ok geo2) :
    ∀ r ∈ geo2.ipsv4, r.state_id = 703883 → r.country_id = 2017370 := by
  unfold loadIPv4Blocks at h
  split at h
  · cases h
  · split at h
    · cases h
    · exact foldlM_ipv4BlocksRow_crimea atoi atoui codeTransf locations_ rows geo geo2 hl hg h

theorem foldlM_ipv6BlocksRow_crimea (inet_pton6 : String → Option (List Nat))
    (atoi : String → Int) (atoui : String → Nat)
    (codeTransf : String → Option String) (locations_ : Nat → Option Location)
    (rows : List (List String)) (geo geo2 : protobuf.Geo)
    (hl : ∀ id loc, locations_ id = some loc → loc.stateId = 703883 → loc.countryId = 2017370)
    (hg : ∀ r ∈ geo.ipsv6, r.state_id = 703883 → r.country_id = 2017370)
    (h : rows.foldlM (ipv6BlocksRow inet_pton6 atoi atoui codeTransf locations_) geo
      = .ok geo2) :
    ∀ r ∈ geo2.ipsv6, r.state_id = 703883 → r.country_id = 2017370 := by
  induction rows generalizing geo with
  | nil =>
    simp only [List.foldlM, pure, Except.pure, Except.ok.injEq] at h
    subst h
    exact hg
  | cons values rows ih =>
    simp only [List.foldlM, bind, Except.bind] at h
    split at h
    · cases h
    · rename_i geo1 h1
      refine ih geo1 ?_ h
      rcases ipv6BlocksRow_ok inet_pton6 atoi atoui codeTransf locations_ geo geo1 values
        h1 with he | ⟨r, loc, iso3, hres, he⟩
      · rw [he]; exact hg
      · obtain ⟨id, hid⟩ := resolveLocation_mem atoui locations_ values loc hres
        intro e hmem
        rw [he] at hmem
        rcases List.mem_append.1 hmem with hm | hm
        · exact hg e hm
        · rw [List.mem_singleton] at hm
          subst hm
          exact hl id loc hid

theorem loadIPv6Blocks_crimea (inet_pton6 : String → Option (List Nat)) (atoi : String → Int)
    (atoui : String → Nat)
    (codeTransf : String → Option String) (locations_ : Nat → Option Location)
    (geo geo2 : protobuf.Geo) (header : List String) (rows : List (List String))
    (hl : ∀ id loc, locations_ id = some loc → loc.stateId = 703883 → loc.countryId = 2017370)
    (hg : ∀ r ∈ geo.ipsv6, r.state_id = 703883 → r.country_id = 2017370)
    (h : loadIPv6Blocks inet_pton6 atoi atoui codeTransf locations_ geo header rows
      = .ok geo2) :
    ∀ r ∈ geo2.ipsv6, r.state_id = 703883 → r.country_id = 2017370 := by
  unfold loadIPv6Blocks at h
  split at h
  · cases h
  · split at h
    · cases h
    · exact foldlM_ipv6BlocksRow_crimea inet_pton6 atoi atoui codeTransf locations_ rows geo
        geo2 hl hg h

/-- C24: a Location stored by a processed locations row has `countryId` 2017370 if its
`stateId` is 703883, and otherwise the id of the catalogue row of the country of the
locations row; every Location in the table after `loadLocations` obeys the first rule if
those before did; and every range that `loadIPv4Blocks` or `loadIPv6Blocks` emits from
such a table with `state_id` 703883 carries `country_id` 2017370. -/
theorem crimea_rule (inet_pton6 : String → Option (List Nat)) (atoi : String → Int)
    (atoui : String → Nat) (codeTransf : String → Option String) :
    (∀ en b values b2, values.getD 4 "" ≠ "" → locationsRow atoui en b values = .ok b2 →
      ∃ loc, findLocation b2.locations_ (atoui (values.getD 0 "")) = some loc ∧
        (loc.stateId = 703883 → loc.countryId = 2017370) ∧
        (loc.stateId ≠ 703883 →
          ∃ c, StdMap.find ltStr (values.getD 4 "") b2.countries_ = some c ∧
            loc.countryId = c.id)) ∧
    (∀ en b header rows b2,
      (∀ id loc, findLocation b.locations_ id = some loc →
        loc.stateId = 703883 → loc.countryId = 2017370) →
      loadLocations atoui en b header rows = .ok b2 →
      ∀ id loc, findLocation b2.locations_ id = some loc →
        loc.stateId = 703883 → loc.countryId = 2017370) ∧
    (∀ (b : Builder) geo header rows geo2,
      (∀ id loc, findLocation b.locations_ id = some loc →
        loc.stateId = 703883 → loc.countryId = 2017370) →
      (∀ r ∈ geo.ipsv4, r.state_id = 703883 → r.country_id = 2017370) →
      loadIPv4Blocks atoi atoui codeTransf (findLocation b.locations_) geo header rows
        = .ok geo2 →
      ∀ r ∈ geo2.ipsv4, r.state_id = 703883 → r.country_id = 2017370) ∧
    (∀ (b : Builder) geo header rows geo2,
      (∀ id loc, findLocation b.locations_ id = some loc →
        loc.stateId = 703883 → loc.countryId = 2017370) →
      (∀ r ∈ geo.ipsv6, r.state_id = 703883 → r.country_id = 2017370) →
      loadIPv6Blocks inet_pton6 atoi atoui codeTransf (findLocation b.locations_) geo header
        rows = .ok geo2 →
      ∀ r ∈ geo2.ipsv6, r.state_id = 703883 → r.country_id = 2017370) := by
  refine ⟨?_, ?_, ?_, ?_⟩
  · intro en b values b2 h4 h
    obtain ⟨⟨t1, _⟩, loc, hloc, _, _, _, hrule, hid⟩ :=
      locationsRow_stored atoui en b b2 values h4 h
    obtain ⟨c, hc, hcid⟩ := countryStep_country en b values ⟨0, 0, 0, "", "", ""⟩
    refine ⟨loc, hloc, hrule, fun hne => ⟨c, ?_, (hid hne).trans hcid⟩⟩
    rw [t1]
    exact hc
  · intro en b header rows b2 hb h
    exact loadLocations_crimea atoui en b b2 header rows hb h
  · intro b geo header rows geo2 hb hg h
    exact loadIPv4Blocks_crimea atoi atoui codeTransf _ geo geo2 header rows hb hg h
  · intro b geo header rows geo2 hb hg h
    exact loadIPv6Blocks_crimea inet_pton6 atoi atoui codeTransf _ geo geo2 header rows hb hg h

theorem crimea_rule_witness :
    (∃ loc, findLocation simferopolBuilder.locations_ 694423 = some loc ∧
      (loc.stateId = 703883 → loc.countryId = 2017370) ∧
      (loc.stateId ≠ 703883 →
        ∃ c, StdMap.find ltStr "UA" simferopolBuilder.countries_ = some c ∧
          loc.countryId = c.id)) ∧
    ∀ r ∈ [(⟨92618752, 92635135, 2017370, 703883, 1, "UKR", "43", ""⟩ : protobuf.IPv4Range)],
      r.state_id = 703883 → r.country_id = 2017370 :=
  ⟨(crimea_rule examplePton6 atoi atoui crimeaCodeTransf).1 true crimeaBuilder simferopolRow
      simferopolBuilder (by decide) rfl,
   (crimea_rule examplePton6 atoi atoui crimeaCodeTransf).2.2.1 simferopolBuilder ⟨[], []⟩
      blocksFields [simferopolBlock]
      ⟨[⟨92618752, 92635135, 2017370, 703883, 1, "UKR", "43", ""⟩], []⟩
      (locationsRow_crimea atoui true crimeaBuilder simferopolBuilder simferopolRow
        (fun _ _ h => Option.noConfusion h) rfl)
      (by decide) rfl⟩

/-! ## One row of the IPv4 blocks file -/

/-- C25: for an IPv4 blocks row of ten fields whose network has a defined range
`net4ToRange(network)` and whose resolved Location, if any, has its country in the ISO2 to
ISO3 table: the row resolves `geoname_id` first and `registered_country_geoname_id`, when
it is not empty, second; a range is emitted if and only if the network contains `/` and
the row resolves to a Location; the emitted record has `(from, to) = net4ToRange(network)`,
the Location's `countryId`, `stateId`, `cityId`, `stateKey` and `cityName`, and the ISO3
code of its `countryKey`; a row that emits nothing leaves the message as it was. -/
theorem ipv4_blocks_row (atoi : String → Int) (atoui : String → Nat)
    (codeTransf : String → Option String) (locations_ : Nat → Option Location)
    (geodb_ : protobuf.Geo) (values : List String) (r : IPv4 × IPv4)
    (hlen : values.length = blocksFields.length)
    (hr : net4ToRange atoi (values.getD 0 "") = some r)
    (hcode : ∀ loc, resolveLocation atoui locations_ values = some loc →
      ∃ iso3, codeTransf loc.countryKey = some iso3) :
    (∀ loc, resolveLocation atoui locations_ values = some loc ↔
      (locations_ (atoui (values.getD 1 "")) = some loc ∨
        (locations_ (atoui (values.getD 1 "")) = none ∧ values.getD 2 "" ≠ "" ∧
          locations_ (atoui (values.getD 2 "")) = some loc))) ∧
    ((∃ e, ipv4BlocksRow atoi atoui codeTransf locations_ geodb_ values
        = .ok { geodb_ with ipsv4 := geodb_.ipsv4 ++ [e] }) ↔
      ((memchr '/' (values.getD 0 "").data).isSome ∧
        (resolveLocation atoui locations_ values).isSome)) ∧
    (∀ loc iso3, (memchr '/' (values.getD 0 "").data).isSome →
      resolveLocation atoui locations_ values = some loc →
      codeTransf loc.countryKey = some iso3 →
      ipv4BlocksRow atoi atoui codeTransf locations_ geodb_ values
        = .ok { geodb_ with
                ipsv4 := geodb_.ipsv4 ++ [⟨r.1, r.2, loc.countryId, loc.stateId, loc.cityId,
                  iso3, loc.stateKey, loc.cityName⟩] }) ∧
    (¬ ((memchr '/' (values.getD 0 "").data).isSome ∧
        (resolveLocation atoui locations_ values).isSome) →
      ipv4BlocksRow atoi atoui codeTransf locations_ geodb_ values = .ok geodb_) := by
  have hemit : ∀ loc iso3, (memchr '/' (values.getD 0 "").data).isSome →
      resolveLocation atoui locations_ values = some loc →
      codeTransf loc.countryKey = some iso3 →
      ipv4BlocksRow atoi atoui codeTransf locations_ geodb_ values
        = .ok { geodb_ with
                ipsv4 := geodb_.ipsv4 ++ [⟨r.1, r.2, loc.countryId, loc.stateId, loc.cityId,
                  iso3, loc.stateKey, loc.cityName⟩] } := by
    intro loc iso3 hm hl hc
    obtain ⟨p, hp⟩ := Option.isSome_iff_exists.1 hm
    exact ipv4BlocksRow_emit atoi atoui codeTransf locations_ geodb_ values r p loc iso3 hlen
      hr hp hl hc
  have hskip : ¬ ((memchr '/' (values.getD 0 "").data).isSome ∧
        (resolveLocation atoui locations_ values).isSome) →
      ipv4BlocksRow atoi atoui codeTransf locations_ geodb_ values = .ok geodb_ := by
    intro hno
    refine ipv4BlocksRow_skip atoi atoui codeTransf locations_ geodb_ values r hlen hr ?_
    cases hm : memchr '/' (values.getD 0 "").data with
    | none => exact Or.inl rfl
    | some p =>
      cases hl : resolveLocation atoui locations_ values with
      | none => exact Or.inr rfl
      | some loc =>
        rw [hm, hl] at hno
        exact absurd ⟨rfl, rfl⟩ hno
  refine ⟨resolveLocation_iff atoui locations_ values, ⟨?_, ?_⟩, hemit, hskip⟩
  · rintro ⟨e, he⟩
    by_contra hno
    rw [hskip hno] at he
    simp only [Except.ok.injEq] at he
    have hlen2 := congrArg (fun g => g.ipsv4.length) he
    simp at hlen2
  · rintro ⟨hm, hl⟩
    obtain ⟨loc, hloc⟩ := Option.isSome_iff_exists.1 hl
    obtain ⟨iso3, hc⟩ := hcode loc hloc
    exact ⟨_, hemit loc iso3 hm hloc hc⟩

theorem ipv4_blocks_row_witness :
    ipv4BlocksRow atoi atoui crimeaCodeTransf (findLocation simferopolBuilder.locations_)
        ⟨[], []⟩ simferopolBlock
      = .ok ⟨[⟨92618752, 92635135, 2017370, 703883, 1, "UKR", "43", ""⟩], []⟩ :=
  (ipv4_blocks_row atoi atoui crimeaCodeTransf (findLocation simferopolBuilder.locations_)
    ⟨[], []⟩ simferopolBlock (92618752, 92635135) rfl (by decide)
    (fun loc h => by
      have h2 : resolveLocation atoui (findLocation simferopolBuilder.locations_)
          simferopolBlock = some ⟨2017370, 703883, 1, "UA", "43", ""⟩ := by decide
      rw [h2] at h
      cases h
      exact ⟨"UKR", rfl⟩)).2.2.1
    ⟨2017370, 703883, 1, "UA", "43", ""⟩ "UKR" (by decide) (by decide) rfl

end GeoParser

namespace GeoDb

/-! ## One `addRange` call -/

namespace StdMap

variable {K V : Type} {lt : K → K → Bool}

theorem assign_length_of_find_some (h : StrictTotal lt) (k : K) (v v0 : V)
    (m : List (K × V)) (hs : Sorted lt m) (hf : find lt k m = some v0) :
    (assign lt k v m).length = m.length := by
  have := congrArg List.length
    (assign_map_of_find_some h (fun _ => ()) k v0 v m hs hf rfl)
  simpa using this

theorem assign_length_of_find_none (h : StrictTotal lt) (k : K) (v : V) (m : List (K × V))
    (hf : find lt k m = none) : (assign lt k v m).length = m.length + 1 := by
  have := (assign_perm_of_find_none h k v m hf).length_eq
  simpa using this

theorem lower_bound_assign_self (h : StrictTotal lt) (k : K) (v : V) (m : List (K × V))
    (hs : Sorted lt m) : lower_bound lt k (assign lt k v m) = some (k, v) :=
  lower_bound_eq_some h k _ (k, v) (assign_sorted h k v m hs) (mem_assign_self h k v m)
    (h.irrefl k) (fun _ _ hk => hk)

theorem mem_assign_key (h : StrictTotal lt) (k : K) (v : V) (m : List (K × V))
    (hs : Sorted lt m) (e : K × V) (he : e ∈ assign lt k v m) (hk : e.1 = k) : e = (k, v) :=
  sorted_key_inj h _ (assign_sorted h k v m hs) e (k, v) he (mem_assign_self h k v m) hk

end StdMap

theorem addRangeV4_ipv4 (db : Db) (from_ to_ : IPv4) (countryId stateId cityId : Nat)
    (countryKey stateKey cityName : String) :
    (db.addRangeV4 from_ to_ countryId stateId cityId countryKey stateKey cityName).ipv4_
      = StdMap.assign ltV4 to_
          ⟨from_, to_, ⟨countryId, stateId, cityId, countryKey, stateKey, cityName⟩⟩
          db.ipv4_ ∧
    (db.addRangeV4 from_ to_ countryId stateId cityId countryKey stateKey cityName).ipv6_
      = db.ipv6_ := by
  simp only [Db.addRangeV4, intern_snd, and_self]

theorem addRangeV6_ipv6 (db : Db) (from_ to_ : IPv6) (countryId stateId cityId : Nat)
    (countryKey stateKey cityName : String) :
    (db.addRangeV6 from_ to_ countryId stateId cityId countryKey stateKey cityName).ipv6_
      = StdMap.assign IPv6.lt to_
          ⟨from_, to_, ⟨countryId, stateId, cityId, countryKey, stateKey, cityName⟩⟩
          db.ipv6_ ∧
    (db.addRangeV6 from_ to_ countryId stateId cityId countryKey stateKey cityName).ipv4_
      = db.ipv4_ := by
  simp only [Db.addRangeV6, intern_snd, and_self]

/-- C31: `addRange` is keyed by `to` alone, in both overloads. On a `Db` whose maps are in
key order, after `addRange(from, to, ...)` the one entry stored under `to` is the new
range with Element equal by value to the arguments; if an entry was stored under `to`
before, the number of entries is the same (that entry is replaced), otherwise it grows by
one; the entry found under every other key is the one found before, and the map of the
other address family is untouched; and with `from <= to`, `find(to)` returns the Element
of the arguments. -/
theorem addRange_keyed_by_to (db : Db) (hs4 : StdMap.Sorted ltV4 db.ipv4_)
    (hs6 : StdMap.Sorted IPv6.lt db.ipv6_) (countryId stateId cityId : Nat)
    (countryKey stateKey cityName : String) :
    (∀ from_ to_ : IPv4,
      (∀ e ∈ (db.addRangeV4 from_ to_ countryId stateId cityId countryKey stateKey
            cityName).ipv4_,
        e.1 = to_ → e = (to_, ⟨from_, to_,
          ⟨countryId, stateId, cityId, countryKey, stateKey, cityName⟩⟩)) ∧
      StdMap.find ltV4 to_
          (db.addRangeV4 from_ to_ countryId stateId cityId countryKey stateKey cityName).ipv4_
        = some ⟨from_, to_, ⟨countryId, stateId, cityId, countryKey, stateKey, cityName⟩⟩ ∧
      (∀ old, StdMap.find ltV4 to_ db.ipv4_ = some old →
        (db.addRangeV4 from_ to_ countryId stateId cityId countryKey stateKey
            cityName).ipv4_.length = db.ipv4_.length) ∧
      (StdMap.find ltV4 to_ db.ipv4_ = none →
        (db.addRangeV4 from_ to_ countryId stateId cityId countryKey stateKey
            cityName).ipv4_.length = db.ipv4_.length + 1) ∧
      (∀ k, k ≠ to_ →
        StdMap.find ltV4 k
            (db.addRangeV4 from_ to_ countryId stateId cityId countryKey stateKey
              cityName).ipv4_
          = StdMap.find ltV4 k db.ipv4_) ∧
      (db.addRangeV4 from_ to_ countryId stateId cityId countryKey stateKey cityName).ipv6_
        = db.ipv6_ ∧
      (from_ ≤ to_ →
        (db.addRangeV4 from_ to_ countryId stateId cityId countryKey stateKey
            cityName).findV4 to_
          = ⟨countryId, stateId, cityId, countryKey, stateKey, cityName⟩)) ∧
    (∀ from_ to_ : IPv6,
      (∀ e ∈ (db.addRangeV6 from_ to_ countryId stateId cityId countryKey stateKey
            cityName).ipv6_,
        e.1 = to_ → e = (to_, ⟨from_, to_,
          ⟨countryId, stateId, cityId, countryKey, stateKey, cityName⟩⟩)) ∧
      StdMap.find IPv6.lt to_
          (db.addRangeV6 from_ to_ countryId stateId cityId countryKey stateKey cityName).ipv6_
        = some ⟨from_, to_, ⟨countryId, stateId, cityId, countryKey, stateKey, cityName⟩⟩ ∧
      (∀ old, StdMap.find IPv6.lt to_ db.ipv6_ = some old →
        (db.addRangeV6 from_ to_ countryId stateId cityId countryKey stateKey
            cityName).ipv6_.length = db.ipv6_.length) ∧
      (StdMap.find IPv6.lt to_ db.ipv6_ = none →
        (db.addRangeV6 from_ to_ countryId stateId cityId countryKey stateKey
            cityName).ipv6_.length = db.ipv6_.length + 1) ∧
      (∀ k, k ≠ to_ →
        StdMap.find IPv6.lt k
            (db.addRangeV6 from_ to_ countryId stateId cityId countryKey stateKey
              cityName).ipv6_
          = StdMap.find IPv6.lt k db.ipv6_) ∧
      (db.addRangeV6 from_ to_ countryId stateId cityId countryKey stateKey cityName).ipv4_
        = db.ipv4_ ∧
      (IPv6.le from_ to_ = true →
        (db.addRangeV6 from_ to_ countryId stateId cityId countryKey stateKey
            cityName).findV6 to_
          = ⟨countryId, stateId, cityId, countryKey, stateKey, cityName⟩)) := by
  refine ⟨?_, ?_⟩
  · intro from_ to_
    obtain ⟨e4, e6⟩ := addRangeV4_ipv4 db from_ to_ countryId stateId cityId countryKey
      stateKey cityName
    refine ⟨?_, ?_, ?_, ?_, ?_, e6, ?_⟩
    · intro e he hk
      rw [e4] at he
      exact StdMap.mem_assign_key ltV4_strictTotal _ _ _ hs4 e he hk
    · rw [e4]
      exact StdMap.find_assign_self ltV4_strictTotal _ _ _
    · intro old hold
      rw [e4]
      exact StdMap.assign_length_of_find_some ltV4_strictTotal _ _ old _ hs4 hold
    · intro hnone
      rw [e4]
      exact StdMap.assign_length_of_find_none ltV4_strictTotal _ _ _ hnone
    · intro k hk
      rw [e4]
      exact StdMap.find_assign_ne ltV4_strictTotal _ _ _ _ hk
    · intro hle
      unfold Db.findV4
      rw [e4, StdMap.lower_bound_assign_self ltV4_strictTotal _ _ _ hs4]
      simp only [hle, if_true]
  · intro from_ to_
    obtain ⟨e6, e4⟩ := addRangeV6_ipv6 db from_ to_ countryId stateId cityId countryKey
      stateKey cityName
    refine ⟨?_, ?_, ?_, ?_, ?_, e4, ?_⟩
    · intro e he hk
      rw [e6] at he
      exact StdMap.mem_assign_key IPv6.lt_strictTotal _ _ _ hs6 e he hk
    · rw [e6]
      exact StdMap.find_assign_self IPv6.lt_strictTotal _ _ _
    · intro old hold
      rw [e6]
      exact StdMap.assign_length_of_find_some IPv6.lt_strictTotal _ _ old _ hs6 hold
    · intro hnone
      rw [e6]
      exact StdMap.assign_length_of_find_none IPv6.lt_strictTotal _ _ _ hnone
    · intro k hk
      rw [e6]
      exact StdMap.find_assign_ne IPv6.lt_strictTotal _ _ _ _ hk
    · intro hle
      unfold Db.findV6
      rw [e6, StdMap.lower_bound_assign_self IPv6.lt_strictTotal _ _ _ hs6]
      simp only [hle, if_true]

theorem addRange_keyed_by_to_witness :
    ((Db.build exampleCalls).addRangeV4 0x01000040 0x0100007F 9 8 7 "ITA" "RM"
        "Rome").ipv4_.length = 2 ∧
    ((Db.build exampleCalls).addRangeV4 0x01000040 0x0100007F 9 8 7 "ITA" "RM"
        "Rome").findV4 0x0100007F = ⟨9, 8, 7, "ITA", "RM", "Rome"⟩ ∧
    StdMap.find ltV4 0x010000FF
        ((Db.build exampleCalls).addRangeV4 0x01000040 0x0100007F 9 8 7 "ITA" "RM"
          "Rome").ipv4_
      = some ⟨0x01000080, 0x010000FF, ⟨2, 0, 0, "DEU", "", ""⟩⟩ :=
  have h := (addRange_keyed_by_to (Db.build exampleCalls) (build_ipv4_inv exampleCalls).1
    (build_ipv6_inv exampleCalls).1 9 8 7 "ITA" "RM" "Rome").1 0x01000040 0x0100007F
  ⟨(h.2.2.1 ⟨0x01000000, 0x0100007F, ⟨1, 0, 0, "FRA", "", ""⟩⟩ (by decide)).trans (by decide),
   h.2.2.2.2.2.2 (by decide),
   (h.2.2.2.2.1 0x010000FF (by decide)).trans (by decide)⟩

end GeoDb

namespace GeoParser

open GeoDb

/-! ## The Location a row stores -/

theorem locationsRow_location (atoui : String → Nat) (en : Bool) (b b2 : Builder)
    (values : List String) (h4 : values.getD 4 "" ≠ "")
    (h : locationsRow atoui en b values = .ok b2) :
    findLocation b2.locations_ (atoui (values.getD 0 "")) = some (rowLocation en b values) := by
  obtain ⟨_, hb2⟩ := locationsRow_eq atoui en b b2 values h4 h
  subst hb2
  exact findLocation_assign_self _ _ _

theorem locationsRow_run (atoui : String → Nat) (en : Bool) (b : Builder)
    (values : List String) (hlen : values.length = 14) (h4 : values.getD 4 "" ≠ "") :
    ∃ b2, locationsRow atoui en b values = .ok b2 := by
  unfold locationsRow
  rw [if_neg (by rw [hlen]; decide), if_neg h4]
  exact ⟨_, rfl⟩

theorem rowLocation_fields (en : Bool) (b : Builder) (values : List String) :
    (rowLocation en b values).stateId
      = (stateCityStep en (countryStep en b values ⟨0, 0, 0, "", "", ""⟩).1 values
          (countryStep en b values ⟨0, 0, 0, "", "", ""⟩).2).2.stateId ∧
    (rowLocation en b values).cityId
      = (stateCityStep en (countryStep en b values ⟨0, 0, 0, "", "", ""⟩).1 values
          (countryStep en b values ⟨0, 0, 0, "", "", ""⟩).2).2.cityId ∧
    (rowLocation en b values).countryKey
      = (stateCityStep en (countryStep en b values ⟨0, 0, 0, "", "", ""⟩).1 values
          (countryStep en b values ⟨0, 0, 0, "", "", ""⟩).2).2.countryKey ∧
    (rowLocation en b values).stateKey
      = (stateCityStep en (countryStep en b values ⟨0, 0, 0, "", "", ""⟩).1 values
          (countryStep en b values ⟨0, 0, 0, "", "", ""⟩).2).2.stateKey ∧
    (rowLocation en b values).cityName
      = (stateCityStep en (countryStep en b values ⟨0, 0, 0, "", "", ""⟩).1 values
          (countryStep en b values ⟨0, 0, 0, "", "", ""⟩).2).2.cityName := by
  unfold rowLocation
  dsimp only
  split <;> exact ⟨rfl, rfl, rfl, rfl, rfl⟩

theorem locationsRow_counters (atoui : String → Nat) (en : Bool) (b b2 : Builder)
    (values : List String) (h4 : values.getD 4 "" ≠ "")
    (h : locationsRow atoui en b values = .ok b2) :
    b2.stateId_ = (stateCityStep en (countryStep en b values ⟨0, 0, 0, "", "", ""⟩).1 values
        (countryStep en b values ⟨0, 0, 0, "", "", ""⟩).2).1.stateId_ ∧
    b2.cityId_ = (stateCityStep en (countryStep en b values ⟨0, 0, 0, "", "", ""⟩).1 values
        (countryStep en b values ⟨0, 0, 0, "", "", ""⟩).2).1.cityId_ := by
  obtain ⟨_, hb2⟩ := locationsRow_eq atoui en b b2 values h4 h
  subst hb2
  exact ⟨rfl, rfl⟩

theorem stateStep_state (en : Bool) (b : Builder) (values : List String) (l : Location) :
    ∃ s, StdMap.find ltStr (values.getD 4 "" ++ "." ++ values.getD 6 "")
        (stateStep en b values l).1.states_ = some s ∧
      (stateStep en b values l).2.stateId = s.id ∧
      (StdMap.find ltStr (values.getD 4 "" ++ "." ++ values.getD 6 "") b.states_ = none →
        s.key = values.getD 4 "" ++ "." ++ values.getD 6 "") := by
  cases hfind : StdMap.find ltStr (values.getD 4 "" ++ "." ++ values.getD 6 "") b.states_ with
  | none =>
    simp only [stateStep, hfind]
    exact ⟨_, StdMap.find_assign_self ltStr_strictTotal _ _ _, rfl, fun _ => rfl⟩
  | some s0 =>
    simp only [stateStep, hfind]
    exact ⟨_, StdMap.find_assign_self ltStr_strictTotal _ _ _, rfl, fun hx => Option.noConfusion hx⟩

theorem stateCityStep_stateKey (en : Bool) (b : Builder) (values : List String) (l : Location)
    (h6 : values.getD 6 "" ≠ "") :
    (stateCityStep en b values l).2.stateKey = values.getD 6 "" := by
  have hk := (stateStep_frame en b values l).2.2.2.2.1
  unfold stateCityStep
  rw [if_pos h6]
  split
  · exact (cityStep_frame en _ values _).2.2.2.2.trans hk
  · exact hk

/-! ## The steps do not read the locations table -/

theorem countryStep_with_locations (en : Bool) (b : Builder) (values : List String)
    (l : Location) (locs : List (Nat × Location)) :
    countryStep en { b with locations_ := locs } values l
      = ({ (countryStep en b values l).1 with locations_ := locs },
         (countryStep en b values l).2) := by
  cases hfind : StdMap.find ltStr (values.getD 4 "") b.countries_ <;>
    simp only [countryStep, hfind]

theorem stateStep_with_locations (en : Bool) (b : Builder) (values : List String)
    (l : Location) (locs : List (Nat × Location)) :
    stateStep en { b with locations_ := locs } values l
      = ({ (stateStep en b values l).1 with locations_ := locs },
         (stateStep en b values l).2) := by
  cases hfind : StdMap.find ltStr (values.getD 4 "" ++ "." ++ values.getD 6 "") b.states_ <;>
    simp only [stateStep, hfind]

theorem cityStep_with_locations (en : Bool) (b : Builder) (values : List String)
    (l : Location) (locs : List (Nat × Location)) :
    cityStep en { b with locations_ := locs } values l
      = ({ (cityStep en b values l).1 with locations_ := locs },
         (cityStep en b values l).2) := by
  cases hfind : StdMap.find ltStr
      (values.getD 4 "" ++ "." ++ values.getD 6 "" ++ "." ++ values.getD 0 "") b.cities_ <;>
    simp only [cityStep, hfind]

theorem stateCityStep_with_locations (en : Bool) (b : Builder) (values : List String)
    (l : Location) (locs : List (Nat × Location)) :
    stateCityStep en { b with locations_ := locs } values l
      = ({ (stateCityStep en b values l).1 with locations_ := locs },
         (stateCityStep en b values l).2) := by
  unfold stateCityStep
  split
  · rw [stateStep_with_locations]
    split
    · exact cityStep_with_locations en _ values _ locs
    · rfl
  · rfl

theorem rowLocation_with_locations (en : Bool) (b : Builder) (values : List String)
    (locs : List (Nat × Location)) :
    rowLocation en { b with locations_ := locs } values = rowLocation en b values := by
  unfold rowLocation
  rw [countryStep_with_locations]
  dsimp only
  rw [stateCityStep_with_locations]

theorem foldlM_locationsRow_other (atoui : String → Nat) (en : Bool)
    (rows : List (List String)) (b b2 : Builder) (id : Nat)
    (hrows : ∀ values ∈ rows, values.getD 4 "" = "" ∨ atoui (values.getD 0 "") ≠ id)
    (h : rows.foldlM (locationsRow atoui en) b = .ok b2) :
    findLocation b2.locations_ id = findLocation b.locations_ id := by
  induction rows generalizing b with
  | nil =>
    simp only [List.foldlM, pure, Except.pure, Except.ok.injEq] at h
    subst h
    rfl
  | cons values rows ih =>
    simp only [List.foldlM, bind, Except.bind] at h
    split at h
    · cases h
    · rename_i b1 h1
      rw [ih b1 (fun v hv => hrows v (List.mem_cons_of_mem _ hv)) h]
      by_cases h4 : values.getD 4 "" = ""
      · rw [locationsRow_skip atoui en b b1 values h4 h1]
      · obtain ⟨loc, hl⟩ := locationsRow_locations atoui en b b1 values h4 h1
        rcases hrows values (List.mem_cons_self _ _) with hx | hx
        · exact absurd hx h4
        · rw [hl, findLocation_assign_ne _ _ _ _ (Ne.symm hx)]

theorem foldlM_locationsRow_split (atoui : String → Nat) (en : Bool)
    (pre : List (List String)) (values : List String) (post : List (List String))
    (b b2 : Builder)
    (h : (pre ++ values :: post).foldlM (locationsRow atoui en) b = .ok b2) :
    ∃ bm bn, pre.foldlM (locationsRow atoui en) b = .ok bm ∧
      locationsRow atoui en bm values = .ok bn ∧
      post.foldlM (locationsRow atoui en) bn = .ok b2 := by
  induction pre generalizing b with
  | nil =>
    simp only [List.nil_append, List.foldlM, bind, Except.bind] at h
    split at h
    · cases h
    · rename_i bn hn
      exact ⟨b, bn, rfl, hn, h⟩
  | cons v pre ih =>
    simp only [List.cons_append, List.foldlM, bind, Except.bind] at h
    split at h
    · cases h
    · rename_i b1 h1
      obtain ⟨bm, bn, hm, hn, hp⟩ := ih b1 h
      refine ⟨bm, bn, ?_, hn, hp⟩
      simp only [List.foldlM, bind, Except.bind, h1]
      exact hm

end GeoParser

namespace GeoParser

open GeoDb

/-! ## State and city of a row: the claims -/

/-- C32: city processing is nested inside state processing. A processed locations row
with a non-empty `country_iso_code` and an empty `subdivision_1_iso_code`, whatever its
`city_name`, leaves the states and cities tables and the counters `stateId_` and `cityId_`
as they were, and stores a Location with `stateId` 0, `cityId` 0 and empty `stateKey` and
`cityName`. -/
theorem row_without_subdivision (atoui : String → Nat) (en : Bool) (b b2 : Builder)
    (values : List String) (h4 : values.getD 4 "" ≠ "") (h6 : values.getD 6 "" = "")
    (h : locationsRow atoui en b values = .ok b2) :
    (b2.states_ = b.states_ ∧ b2.cities_ = b.cities_ ∧ b2.stateId_ = b.stateId_ ∧
      b2.cityId_ = b.cityId_) ∧
    ∃ loc, findLocation b2.locations_ (atoui (values.getD 0 "")) = some loc ∧
      loc.stateId = 0 ∧ loc.cityId = 0 ∧ loc.stateKey = "" ∧ loc.cityName = "" := by
  obtain ⟨⟨_, _, t3, t4⟩, _⟩ := locationsRow_stored atoui en b b2 values h4 h
  obtain ⟨c1, c2⟩ := locationsRow_counters atoui en b b2 values h4 h
  obtain ⟨⟨k1, k2, _, k4, k5⟩, l1, l2, _, l4, l5⟩ :=
    countryStep_frame en b values ⟨0, 0, 0, "", "", ""⟩
  obtain ⟨_, _, s3⟩ :=
    stateCityStep_tables en (countryStep en b values ⟨0, 0, 0, "", "", ""⟩).1 values
      (countryStep en b values ⟨0, 0, 0, "", "", ""⟩).2
  obtain ⟨f1, f2, _, f4, f5⟩ := rowLocation_fields en b values
  rw [s3 h6] at t3 t4 c1 c2 f1 f2 f4 f5
  refine ⟨⟨t3.trans k1, t4.trans k2, c1.trans k4, c2.trans k5⟩, rowLocation en b values,
    locationsRow_location atoui en b b2 values h4 h, f1.trans l1, f2.trans l2, f4.trans l4,
    f5.trans l5⟩

theorem row_without_subdivision_witness :
    (monacoBuilder.states_ = exampleBuilder.states_ ∧
      monacoBuilder.cities_ = exampleBuilder.cities_ ∧
      monacoBuilder.stateId_ = exampleBuilder.stateId_ ∧
      monacoBuilder.cityId_ = exampleBuilder.cityId_) ∧
    ∃ loc, findLocation monacoBuilder.locations_ 2993458 = some loc ∧
      loc.stateId = 0 ∧ loc.cityId = 0 ∧ loc.stateKey = "" ∧ loc.cityName = "" :=
  row_without_subdivision atoui true exampleBuilder monacoBuilder monacoRow (by decide)
    (by decide) rfl

/-- C33: for every processed row with non-empty `country_iso_code` and
`subdivision_1_iso_code`, the catalogue State of the row is filed under the key
`country_iso_code + "." + subdivision_1_iso_code` (and carries that key when the row
creates it), while the Location stored for the row has that State's id, the bare
`subdivision_1_iso_code` as `stateKey` and the bare `country_iso_code` as `countryKey`; a
blocks row that resolves to this Location emits a range whose `state_key` is the bare
`subdivision_1_iso_code`. -/
theorem state_key_and_location_keys (atoui : String → Nat) (en : Bool) (b b2 : Builder)
    (values : List String) (h4 : values.getD 4 "" ≠ "") (h6 : values.getD 6 "" ≠ "")
    (h : locationsRow atoui en b values = .ok b2) :
    ∃ s loc,
      StdMap.find ltStr (values.getD 4 "" ++ "." ++ values.getD 6 "") b2.states_ = some s ∧
      (StdMap.find ltStr (values.getD 4 "" ++ "." ++ values.getD 6 "") b.states_ = none →
        s.key = values.getD 4 "" ++ "." ++ values.getD 6 "") ∧
      findLocation b2.locations_ (atoui (values.getD 0 "")) = some loc ∧
      loc.stateId = s.id ∧ loc.stateKey = values.getD 6 "" ∧
      loc.countryKey = values.getD 4 "" ∧
      ∀ (atoi : String → Int) (codeTransf : String → Option String) (geodb_ : protobuf.Geo)
        (row : List String) (r : IPv4 × IPv4) (p : Nat) (iso3 : String),
        row.length = blocksFields.length → net4ToRange atoi (row.getD 0 "") = some r →
        memchr '/' (row.getD 0 "").data = some p →
        resolveLocation atoui (findLocation b2.locations_) row = some loc →
        codeTransf loc.countryKey = some iso3 →
        ipv4BlocksRow atoi atoui codeTransf (findLocation b2.locations_) geodb_ row
          = .ok { geodb_ with
                  ipsv4 := geodb_.ipsv4 ++ [⟨r.1, r.2, loc.countryId, loc.stateId, loc.cityId,
                    iso3, values.getD 6 "", loc.cityName⟩] } := by
  obtain ⟨⟨_, _, t3, _⟩, _⟩ := locationsRow_stored atoui en b b2 values h4 h
  obtain ⟨⟨k1, _⟩, _, _, l3, _⟩ := countryStep_frame en b values ⟨0, 0, 0, "", "", ""⟩
  obtain ⟨s1, _, _⟩ :=
    stateCityStep_tables en (countryStep en b values ⟨0, 0, 0, "", "", ""⟩).1 values
      (countryStep en b values ⟨0, 0, 0, "", "", ""⟩).2
  obtain ⟨_, g4, g5, _⟩ :=
    stateCityStep_frame en (countryStep en b values ⟨0, 0, 0, "", "", ""⟩).1 values
      (countryStep en b values ⟨0, 0, 0, "", "", ""⟩).2
  obtain ⟨f1, _, f3, f4, _⟩ := rowLocation_fields en b values
  obtain ⟨s, hs, hid, hkey⟩ :=
    stateStep_state en (countryStep en b values ⟨0, 0, 0, "", "", ""⟩).1 values
      (countryStep en b values ⟨0, 0, 0, "", "", ""⟩).2
  have hsk : (rowLocation en b values).stateKey = values.getD 6 "" :=
    f4.trans (stateCityStep_stateKey en _ values _ h6)
  refine ⟨s, rowLocation en b values, ?_, ?_, locationsRow_location atoui en b b2 values h4 h,
    ?_, hsk, ?_, ?_⟩
  · rw [t3, (s1 h6).1]
    exact hs
  · intro hnew
    exact hkey (by rw [k1]; exact hnew)
  · rw [f1, (s1 h6).2]
    exact hid
  · exact f3.trans (g5.trans l3)
  · intro atoi codeTransf geodb_ row r p iso3 hlen hr hm hl hc
    rw [ipv4BlocksRow_emit atoi atoui codeTransf _ geodb_ row r p _ iso3 hlen hr hm hl hc, hsk]

theorem state_key_and_location_keys_witness :
    ∃ s loc, StdMap.find ltStr "DE.BY" munichBuilder.states_ = some s ∧
      findLocation munichBuilder.locations_ 2867714 = some loc ∧
      loc.stateId = s.id ∧ loc.stateKey = "BY" ∧ loc.countryKey = "DE" :=
  (state_key_and_location_keys atoui true exampleBuilder munichBuilder munichRow (by decide)
    (by decide) rfl).elim
    fun s hs => hs.elim fun loc hl => ⟨s, loc, hl.1, hl.2.2.1, hl.2.2.2.1, hl.2.2.2.2.1,
      hl.2.2.2.2.2.1⟩

/-- C34: a processed locations row with a non-empty `country_iso_code` replaces the stored
Location wholesale. After the row the table holds under the row's geoname id the Location
built by that iteration, which is the same whatever the table held before; rows that are
skipped or have another geoname id leave the entry alone; so when the English file and
then the Russian file are loaded, the Location left under a geoname id is the one built
by the last row of the Russian file that carries that id. -/
theorem location_replaced_wholesale (atoui : String → Nat) :
    (∀ (en : Bool) (b : Builder) (values : List String) (b2 : Builder)
        (locs : List (Nat × Location)), values.getD 4 "" ≠ "" →
      locationsRow atoui en b values = .ok b2 →
      findLocation b2.locations_ (atoui (values.getD 0 "")) = some (rowLocation en b values) ∧
      rowLocation en { b with locations_ := locs } values = rowLocation en b values ∧
      ∃ b3, locationsRow atoui en { b with locations_ := locs } values = .ok b3 ∧
        findLocation b3.locations_ (atoui (values.getD 0 ""))
          = findLocation b2.locations_ (atoui (values.getD 0 ""))) ∧
    (∀ (en : Bool) (rows : List (List String)) (b b2 : Builder) (id : Nat),
      (∀ values ∈ rows, values.getD 4 "" = "" ∨ atoui (values.getD 0 "") ≠ id) →
      rows.foldlM (locationsRow atoui en) b = .ok b2 →
      findLocation b2.locations_ id = findLocation b.locations_ id) ∧
    (∀ (b : Builder) (headerEn : List String) (rowsEn : List (List String))
        (headerRu : List String) (pre : List (List String)) (values : List String)
        (post : List (List String)) (b1 b2 : Builder),
      loadLocations atoui true b headerEn rowsEn = .ok b1 →
      loadLocations atoui false b1 headerRu (pre ++ values :: post) = .ok b2 →
      values.getD 4 "" ≠ "" →
      (∀ v ∈ post, v.getD 4 "" = "" ∨ atoui (v.getD 0 "") ≠ atoui (values.getD 0 "")) →
      ∃ bm, pre.foldlM (locationsRow atoui false) b1 = .ok bm ∧
        findLocation b2.locations_ (atoui (values.getD 0 ""))
          = some (rowLocation false bm values)) := by
  refine ⟨?_, ?_, ?_⟩
  · intro en b values b2 locs h4 h
    have hloc := locationsRow_location atoui en b b2 values h4 h
    obtain ⟨hlen, _⟩ := locationsRow_eq atoui en b b2 values h4 h
    obtain ⟨b3, h3⟩ := locationsRow_run atoui en { b with locations_ := locs } values hlen h4
    refine ⟨hloc, rowLocation_with_locations en b values locs, b3, h3, ?_⟩
    rw [locationsRow_location atoui en _ b3 values h4 h3, hloc,
      rowLocation_with_locations]
  · intro en rows b b2 id hrows h
    exact foldlM_locationsRow_other atoui en rows b b2 id hrows h
  · intro b headerEn rowsEn headerRu pre values post b1 b2 _ h2 h4 hpost
    unfold loadLocations at h2
    split at h2
    · cases h2
    · split at h2
      · cases h2
      · obtain ⟨bm, bn, hm, hn, hp⟩ :=
          foldlM_locationsRow_split atoui false pre values post b1 b2 h2
        refine ⟨bm, hm, ?_⟩
        rw [foldlM_locationsRow_other atoui false post bn b2 _ hpost hp]
        exact locationsRow_location atoui false bm bn values h4 hn

theorem location_replaced_wholesale_witness :
    ∃ bm, ([] : List (List String)).foldlM (locationsRow atoui false) munichBuilder = .ok bm ∧
      findLocation muenchenBuilder.locations_ 2867714
        = some (rowLocation false bm muenchenRow) :=
  (location_replaced_wholesale atoui).2.2 exampleBuilder locationsFields [munichRow]
    locationsFields [] muenchenRow [] munichBuilder muenchenBuilder rfl rfl (by decide)
    (fun _ hv => absurd hv (List.not_mem_nil _))

end GeoParser
